import Mathlib

/-!
# Response stream accumulator (`responses/streamaccumulator.go`)

A shallow embedding of `ResponseAccumulator` and of the functions that fold
streaming events into it, followed by theorems about that embedding.  Two
smaller parts follow the accumulator's definitions: the event cursor of
`packages/ssestream` and the polymorphic decoder of `internal/apijson`, both
modelled from their specification because only their tests are at hand.  All
definitions come first, the theorems of the three parts after them.

Modelling conventions of the accumulator

* Go strings are `String`; `+=` on strings is `++`.
* `int64` / `int` values are `Int` (`int` is 64 bits wide, so `int(x)` is the
  identity).  Counters are not wrapped: overflowing `nextToolIndex` would take
  2^63 folds.  `make` panics for a length that is negative or above the
  largest length the run time grants (`Runtime.maxLen`, below 2^63); the sum
  `index + 1` that is passed to it overflows only where `make` panics anyway.
* A Go slice of output items is a `Slice`: the elements below its length
  (`items`) together with the backing-array slots between its length and its
  capacity (`spare`), so that re-slicing up to the capacity is expressible.
  A content-block slice is the list of the blocks seen through it (a nil
  slice and an empty slice are both `[]`).  The model does not track whether
  the content slices of two items share a backing array, which happens when a
  program folds item values that share one.  The theorems on text events do
  not depend on it: they speak of the item an event addresses, of runs from a
  fresh accumulator, whose content slices the accumulator allocates itself,
  or they compare two runs that write the same blocks.
* A Go map from strings to `int64` is a key-unique association list.
* `AddEvent` has a pointer receiver and may stop with a run-time panic
  (index out of range, or the panic of `make`).  The embedding returns the
  receiver's state at the moment the call ends together with `some b` when
  the call returned `b` and `none` when it panicked.
* Events are values: the caller does not mutate an event after passing it.
* Record types declared elsewhere in the package (`Response`,
  `ResponseOutputItemUnion`, `ResponseOutputMessageContentUnion`,
  `ResponseStreamEventUnion`, `ResponseError`) carry the fields the
  accumulator and its tests use; the field `Type` is spelled `Type_`.
-/

namespace Responses

/-! ## Go slices and maps -/

/-- Go slice: `items` are the elements at positions below the length,
`spare` the backing-array slots between the length and the capacity. -/
structure Slice (α : Type) where
  items : List α
  spare : List α
deriving DecidableEq, Repr

namespace Slice

variable {α : Type}

/-- Go `len(s)`. -/
def len (s : Slice α) : Int := s.items.length

/-- Go `cap(s)`. -/
def cap (s : Slice α) : Int := s.items.length + s.spare.length

/-- Go `nil` slice. -/
def nil : Slice α := ⟨[], []⟩

/-- Go `s[:hi]` for `0 ≤ hi ≤ cap(s)`: the window over the backing array is
moved, the backing array itself is untouched. -/
def reslice (s : Slice α) (hi : Int) : Slice α :=
  ⟨(s.items ++ s.spare).take hi.toNat, (s.items ++ s.spare).drop hi.toNat⟩

/-- The slice Go `make([]T, n)` returns when it returns: `n` zero values,
capacity `n`. -/
def zeros [Inhabited α] (n : Int) : Slice α :=
  ⟨List.replicate n.toNat default, []⟩

/-- Go `make([]T, n)`.  The call panics (`none`) when `n` is negative or larger
than `maxLen`, the largest length for which the run time grants memory. -/
def make [Inhabited α] (maxLen : Nat) (n : Int) : Option (Slice α) :=
  if n < 0 ∨ (maxLen : Int) < n then none else some (zeros n)

/-- Go `copy(dst, src)`: overwrites the first `min(len(dst), len(src))`
elements of `dst`. -/
def copy (dst src : Slice α) : Slice α :=
  let n := min dst.items.length src.items.length
  { dst with items := src.items.take n ++ dst.items.drop n }

/-- Go `s[i]` as a read: `none` is the index-out-of-range panic. -/
def get? (s : Slice α) (i : Int) : Option α :=
  if i < 0 then none else s.items[i.toNat]?

/-- Go `s[i] = x` for an index already known to be in range. -/
def set (s : Slice α) (i : Int) (x : α) : Slice α :=
  { s with items := s.items.set i.toNat x }

/-- Go `append(s, xs...)`.  When the capacity suffices the elements are
written into the backing array; otherwise a new zero-filled backing array is
allocated whose capacity `growslice oldCap needed` is chosen by the run time. -/
def append [Inhabited α] (growslice : Nat → Nat → Nat) (s : Slice α) (xs : List α) :
    Slice α :=
  if s.items.length + xs.length ≤ s.items.length + s.spare.length then
    ⟨s.items ++ xs, s.spare.drop xs.length⟩
  else
    ⟨s.items ++ xs,
      List.replicate
        (growslice (s.items.length + s.spare.length) (s.items.length + xs.length)
          - (s.items.length + xs.length)) default⟩

end Slice

/-- Go `map[string]int64` as a key-unique association list. -/
abbrev IndexMap := List (String × Int)

/-- Go `m[k] = v`. -/
def IndexMap.insert (m : IndexMap) (k : String) (v : Int) : IndexMap :=
  (k, v) :: m.filter (fun kv => kv.1 ≠ k)

/-! ## Record types -/

/-- Content block of an output message (`Type`, `Text`, `Refusal`). -/
structure ResponseOutputMessageContentUnion where
  Type_ : String
  Text : String
  Refusal : String
deriving DecidableEq, Repr

instance : Inhabited ResponseOutputMessageContentUnion := ⟨⟨"", "", ""⟩⟩

/-- Output item of a response. -/
structure ResponseOutputItemUnion where
  ID : String
  Type_ : String
  CallID : String
  Name : String
  Content : List ResponseOutputMessageContentUnion
deriving DecidableEq, Repr

instance : Inhabited ResponseOutputItemUnion := ⟨⟨"", "", "", "", []⟩⟩

/-- Error object of a response. -/
structure ResponseError where
  Code : String
  Message : String
deriving DecidableEq, Repr

instance : Inhabited ResponseError := ⟨⟨"", ""⟩⟩

/-- Response snapshot. -/
structure Response where
  ID : String
  Status : String
  Error : ResponseError
  Output : Slice ResponseOutputItemUnion
deriving DecidableEq, Repr

instance : Inhabited Response := ⟨⟨"", "", default, Slice.nil⟩⟩

/-- Streaming event (flattened union). -/
structure ResponseStreamEventUnion where
  Type_ : String
  Response : Response
  OutputIndex : Int
  Delta : String
  Text : String
  Refusal : String
  ItemID : String
  Message : String
  Name : String
  Arguments : String
  Item : ResponseOutputItemUnion
deriving DecidableEq, Repr

instance : Inhabited ResponseStreamEventUnion :=
  ⟨⟨"", default, 0, "", "", "", "", "", "", "", default⟩⟩

structure FinishedResponseText where
  Text : String
deriving DecidableEq, Repr

structure FinishedResponseToolCall where
  CallID : String
  Index : Int
deriving DecidableEq, Repr

structure FinishedResponseRefusal where
  Refusal : String
deriving DecidableEq, Repr

structure FinishedResponseReasoning where
  Text : String
deriving DecidableEq, Repr

structure FinishedResponseAudioTranscript where
  Transcript : String
deriving DecidableEq, Repr

structure FinishedResponseFileSearch where
  CallID : String
deriving DecidableEq, Repr

structure FinishedResponseWebSearch where
  CallID : String
deriving DecidableEq, Repr

structure FinishedResponseCodeInterpreter where
  ItemID : String
deriving DecidableEq, Repr

structure FinishedResponseError where
  Err : String
deriving DecidableEq, Repr

/-- The accumulator: the embedded `Response` plus the call-index table and the
transient just-finished state. -/
structure ResponseAccumulator extends Response where
  toolCallIndices : IndexMap
  nextToolIndex : Int
  justFinishedType : String
  justFinishedText : String
  justFinishedRefusal : String
  justFinishedTool : FinishedResponseToolCall
  justFinishedReasoning : String
  justFinishedAudioTranscript : String
  justFinishedFileSearch : FinishedResponseFileSearch
  justFinishedWebSearch : FinishedResponseWebSearch
  justFinishedCodeInterpreter : FinishedResponseCodeInterpreter
  justFinishedError : String
deriving DecidableEq, Repr

/-! ## The accumulator's functions -/

/-- What the accumulator takes from the Go run time: the capacity `append`
chooses when it reallocates (`growslice oldCap needed`) and the largest slice
length for which `make` grants memory.  A length is an `int`, so that limit is
below 2^63. -/
structure Runtime where
  growslice : Nat → Nat → Nat
  maxLen : Nat
  maxLen_lt : maxLen < 9223372036854775808

/-- Go `NewResponseAccumulator()`: every field zero, the map empty. -/
def NewResponseAccumulator : ResponseAccumulator :=
  { toResponse := default
    toolCallIndices := []
    nextToolIndex := 0
    justFinishedType := ""
    justFinishedText := ""
    justFinishedRefusal := ""
    justFinishedTool := ⟨"", 0⟩
    justFinishedReasoning := ""
    justFinishedAudioTranscript := ""
    justFinishedFileSearch := ⟨""⟩
    justFinishedWebSearch := ⟨""⟩
    justFinishedCodeInterpreter := ⟨""⟩
    justFinishedError := "" }

/-- Go `expandToFitResponseOutput(slice, index)`; `none` is the panic of
`make`.  The sum `index + 1` is an `int` sum.  In the second branch it does
not overflow, `index` being below a capacity.  In the third it wraps around to
the least integer when `index` is the largest one, and `make` panics for a
negative length; `make` also panics for the unwrapped sum 2^63, which is above
`maxLen`, so the sum is left unwrapped (lemma `make_wrapInt64`). -/
def expandToFitResponseOutput (maxLen : Nat) (slice : Slice ResponseOutputItemUnion)
    (index : Int) : Option (Slice ResponseOutputItemUnion) :=
  if index < slice.len then
    some slice
  else if index < slice.cap then
    some (slice.reslice (index + 1))
  else
    match (Slice.make maxLen (index + 1) : Option (Slice ResponseOutputItemUnion)) with
    | none => none
    | some newSlice => some (Slice.copy newSlice slice)

/-- The loop of the `response.output_text.delta` case: append `delta` to the
first content block whose type is `output_text` or empty, then stop.  Go
writes the block in place; the result is the content slice of the addressed
item as it reads after the loop. -/
def appendDelta (delta : String) :
    List ResponseOutputMessageContentUnion → List ResponseOutputMessageContentUnion
  | [] => []
  | c :: cs =>
    if c.Type_ = "output_text" ∨ c.Type_ = "" then
      { c with Text := c.Text ++ delta } :: cs
    else
      c :: appendDelta delta cs

/-- The statement pair `if len(Content) == 0 then Content = one zero block`. -/
def ensureContent (item : ResponseOutputItemUnion) : ResponseOutputItemUnion :=
  if item.Content.length = 0 then { item with Content := [default] } else item

/-- The first statements of `AddEvent`: clear the transient state. -/
def clearJustFinished (acc : ResponseAccumulator) : ResponseAccumulator :=
  { acc with
    justFinishedType := ""
    justFinishedText := ""
    justFinishedRefusal := ""
    justFinishedTool := ⟨"", 0⟩
    justFinishedReasoning := ""
    justFinishedAudioTranscript := ""
    justFinishedFileSearch := ⟨""⟩
    justFinishedWebSearch := ⟨""⟩
    justFinishedCodeInterpreter := ⟨""⟩
    justFinishedError := "" }

/-- Go `(*ResponseAccumulator).AddEvent`.  The first component is the
receiver after the call; the second is `some b` when the call returned `b` and
`none` when it stopped with a panic (an index out of range, or the panic of
`make` inside `expandToFitResponseOutput`, before the output list is
assigned). -/
def AddEvent (rt : Runtime) (acc0 : ResponseAccumulator)
    (event : ResponseStreamEventUnion) : ResponseAccumulator × Option Bool :=
  let acc := clearJustFinished acc0
  if event.Type_ = "response.created" then
    ({ acc with toResponse := event.Response }, some true)
  else if event.Type_ = "response.in_progress" then
    ({ acc with toResponse := event.Response }, some true)
  else if event.Type_ = "response.completed" then
    ({ acc with toResponse := event.Response }, some true)
  else if event.Type_ = "response.failed" then
    ({ acc with
        toResponse := event.Response
        justFinishedType := "error"
        justFinishedError := event.Response.Error.Message }, some true)
  else if event.Type_ = "response.incomplete" then
    ({ acc with toResponse := event.Response }, some true)
  else if event.Type_ = "response.output_item.added" then
    if event.Response.Output.len > 0 then
      ({ acc with
          Output := Slice.append rt.growslice acc.Output event.Response.Output.items },
        some true)
    else
      (acc, some true)
  else if event.Type_ = "response.output_item.done" then
    ({ acc with justFinishedType := "output_item_done" }, some true)
  else if event.Type_ = "response.output_text.delta" then
    let oi := event.OutputIndex
    match expandToFitResponseOutput rt.maxLen acc.Output oi with
    | none => (acc, none)
    | some out =>
      let acc := { acc with Output := out }
      match acc.Output.get? oi with
      | none => (acc, none)
      | some item =>
        let item := ensureContent item
        let item := { item with Content := appendDelta event.Delta item.Content }
        ({ acc with Output := acc.Output.set oi item }, some true)
  else if event.Type_ = "response.output_text.done" then
    let acc := { acc with justFinishedType := "text_done", justFinishedText := event.Text }
    let oi := event.OutputIndex
    match expandToFitResponseOutput rt.maxLen acc.Output oi with
    | none => (acc, none)
    | some out =>
      let acc := { acc with Output := out }
      match acc.Output.get? oi with
      | none => (acc, none)
      | some item =>
        let item := ensureContent item
        match item.Content with
        | [] => (acc, none)
        | c :: rest =>
          let item :=
            { item with
              Content := { c with Type_ := "output_text", Text := event.Text } :: rest }
          ({ acc with Output := acc.Output.set oi item }, some true)
  else if event.Type_ = "response.refusal.delta" then
    ({ acc with justFinishedRefusal := acc.justFinishedRefusal ++ event.Delta }, some true)
  else if event.Type_ = "response.refusal.done" then
    ({ acc with justFinishedType := "refusal_done", justFinishedRefusal := event.Refusal },
      some true)
  else if event.Type_ = "response.function_call_arguments.delta" then
    (acc, some true)
  else if event.Type_ = "response.function_call_arguments.done" then
    let idx := acc.nextToolIndex
    ({ acc with
        nextToolIndex := acc.nextToolIndex + 1
        toolCallIndices := acc.toolCallIndices.insert event.ItemID idx
        justFinishedType := "function_call_args_done"
        justFinishedTool := ⟨event.ItemID, idx⟩ }, some true)
  else if event.Type_ = "response.reasoning_text.done" then
    ({ acc with justFinishedType := "reasoning_done", justFinishedReasoning := event.Text },
      some true)
  else if event.Type_ = "response.audio.transcript.done" then
    ({ acc with justFinishedType := "audio_transcript_done" }, some true)
  else if event.Type_ = "response.file_search_call.completed" then
    ({ acc with
        justFinishedType := "file_search_completed"
        justFinishedFileSearch := ⟨event.ItemID⟩ }, some true)
  else if event.Type_ = "response.web_search_call.completed" then
    ({ acc with
        justFinishedType := "web_search_completed"
        justFinishedWebSearch := ⟨event.ItemID⟩ }, some true)
  else if event.Type_ = "response.code_interpreter_call.completed" then
    ({ acc with
        justFinishedType := "code_interpreter_completed"
        justFinishedCodeInterpreter := ⟨event.ItemID⟩ }, some true)
  else if event.Type_ = "error" then
    ({ acc with justFinishedType := "error", justFinishedError := event.Message }, some true)
  else
    (acc, some true)

/-- Go `JustFinishedText`. -/
def JustFinishedText (acc : ResponseAccumulator) : FinishedResponseText × Bool :=
  if acc.justFinishedType = "text_done" then (⟨acc.justFinishedText⟩, true)
  else (⟨""⟩, false)

/-- Go `JustFinishedToolCall`. -/
def JustFinishedToolCall (acc : ResponseAccumulator) : FinishedResponseToolCall × Bool :=
  if acc.justFinishedType = "function_call_args_done" then (acc.justFinishedTool, true)
  else (⟨"", 0⟩, false)

/-- Go `JustFinishedRefusal`. -/
def JustFinishedRefusal (acc : ResponseAccumulator) : FinishedResponseRefusal × Bool :=
  if acc.justFinishedType = "refusal_done" then (⟨acc.justFinishedRefusal⟩, true)
  else (⟨""⟩, false)

/-- Go `JustFinishedReasoning`. -/
def JustFinishedReasoning (acc : ResponseAccumulator) : FinishedResponseReasoning × Bool :=
  if acc.justFinishedType = "reasoning_done" then (⟨acc.justFinishedReasoning⟩, true)
  else (⟨""⟩, false)

/-- Go `JustFinishedAudioTranscript`. -/
def JustFinishedAudioTranscript (acc : ResponseAccumulator) :
    FinishedResponseAudioTranscript × Bool :=
  if acc.justFinishedType = "audio_transcript_done" then
    (⟨acc.justFinishedAudioTranscript⟩, true)
  else (⟨""⟩, false)

/-- Go `JustFinishedFileSearch`. -/
def JustFinishedFileSearch (acc : ResponseAccumulator) : FinishedResponseFileSearch × Bool :=
  if acc.justFinishedType = "file_search_completed" then (acc.justFinishedFileSearch, true)
  else (⟨""⟩, false)

/-- Go `JustFinishedWebSearch`. -/
def JustFinishedWebSearch (acc : ResponseAccumulator) : FinishedResponseWebSearch × Bool :=
  if acc.justFinishedType = "web_search_completed" then (acc.justFinishedWebSearch, true)
  else (⟨""⟩, false)

/-- Go `JustFinishedCodeInterpreter`. -/
def JustFinishedCodeInterpreter (acc : ResponseAccumulator) :
    FinishedResponseCodeInterpreter × Bool :=
  if acc.justFinishedType = "code_interpreter_completed" then
    (acc.justFinishedCodeInterpreter, true)
  else (⟨""⟩, false)

/-- Go `JustFinishedError`. -/
def JustFinishedError (acc : ResponseAccumulator) : FinishedResponseError × Bool :=
  if acc.justFinishedType = "error" ∧ acc.justFinishedError ≠ "" then
    (⟨acc.justFinishedError⟩, true)
  else if acc.Error.Message ≠ "" then
    (⟨acc.Error.Message⟩, true)
  else (⟨""⟩, false)

/-- Go `GetToolCallIndex`. -/
def GetToolCallIndex (acc : ResponseAccumulator) (callID : String) : Int :=
  match acc.toolCallIndices.lookup callID with
  | some idx => idx
  | none => -1

/-- Modelled from the spec: the constant `ResponseStatusCompleted` is declared
in a file of the package that is not at hand; the spec calls it the
"completed" status value. -/
def ResponseStatusCompleted : String := "completed"

/-- Go `IsComplete`. -/
def IsComplete (acc : ResponseAccumulator) : Bool :=
  acc.Status = ResponseStatusCompleted

/-- The consumer loop: fold the events in order; a panic ends the run. -/
def AddEvents (rt : Runtime) :
    ResponseAccumulator → List ResponseStreamEventUnion → Option ResponseAccumulator
  | acc, [] => some acc
  | acc, e :: es =>
    match AddEvent rt acc e with
    | (acc1, some _) => AddEvents rt acc1 es
    | (_, none) => none

/-- The event kinds that `AddEvent` has a case for. -/
def recognisedKinds : List String :=
  ["response.created", "response.in_progress", "response.completed", "response.failed",
   "response.incomplete", "response.output_item.added", "response.output_item.done",
   "response.output_text.delta", "response.output_text.done", "response.refusal.delta",
   "response.refusal.done", "response.function_call_arguments.delta",
   "response.function_call_arguments.done", "response.reasoning_text.done",
   "response.audio.transcript.done", "response.file_search_call.completed",
   "response.web_search_call.completed", "response.code_interpreter_call.completed", "error"]

/-- The event kinds whose case replaces the whole snapshot. -/
def snapshotKinds : List String :=
  ["response.created", "response.in_progress", "response.completed", "response.failed",
   "response.incomplete"]

/-- The value `AddEvent` leaves in `justFinishedType`, per event kind. -/
def edgeTag (kind : String) : String :=
  if kind = "response.failed" then "error"
  else if kind = "response.output_item.done" then "output_item_done"
  else if kind = "response.output_text.done" then "text_done"
  else if kind = "response.refusal.done" then "refusal_done"
  else if kind = "response.function_call_arguments.done" then "function_call_args_done"
  else if kind = "response.reasoning_text.done" then "reasoning_done"
  else if kind = "response.audio.transcript.done" then "audio_transcript_done"
  else if kind = "response.file_search_call.completed" then "file_search_completed"
  else if kind = "response.web_search_call.completed" then "web_search_completed"
  else if kind = "response.code_interpreter_call.completed" then "code_interpreter_completed"
  else if kind = "error" then "error"
  else ""

/-! ## Runs and reachable states -/

/-- The receiver after calling `AddEvent` for each event in order, whether the
calls return or panic (a caller that recovers from a panic keeps using the
accumulator). -/
def AddEventsState (rt : Runtime) (acc : ResponseAccumulator)
    (evs : List ResponseStreamEventUnion) : ResponseAccumulator :=
  evs.foldl (fun a e => (AddEvent rt a e).1) acc

/-- The states a program can bring an accumulator into: it starts from
`NewResponseAccumulator()`, calls `AddEvent`, and may assign the exported
embedded `Response` (as the tests do with `acc.Response.Status`).  The other
fields are unexported. -/
inductive Reachable (rt : Runtime) : ResponseAccumulator → Prop
  | new : Reachable rt NewResponseAccumulator
  | addEvent (acc : ResponseAccumulator) (e : ResponseStreamEventUnion) :
      Reachable rt acc → Reachable rt (AddEvent rt acc e).1
  | setResponse (acc : ResponseAccumulator) (r : Response) :
      Reachable rt acc → Reachable rt { acc with toResponse := r }

/-! ## Queries that the tests call and the source at hand does not define -/

/-- Modelled from the spec: `JustAddedFunctionCall` is called by the tests but
is not in the source at hand, and the accumulator has no field that could hold
its payload.  By the spec every just-... query is edge-triggered: it reports
found only if the immediately preceding fold set the query's own kind, here
"function-call-added".  The accumulator keeps that kind in `justFinishedType`,
spelled like the kinds the source sets (`text_done`, `function_call_args_done`).
Only the found flag is modelled. -/
def JustAddedFunctionCallFound (acc : ResponseAccumulator) : Bool :=
  acc.justFinishedType = "function_call_added"

/-- Modelled from the spec: `JustDeltaFunctionCall` is called by the tests but
is not in the source at hand, and the accumulator has no field that could hold
its payload.  By the spec it reports found only if the immediately preceding
fold set the kind "function-call-delta".  Only the found flag is modelled. -/
def JustDeltaFunctionCallFound (acc : ResponseAccumulator) : Bool :=
  acc.justFinishedType = "function_call_delta"

/-- Modelled from the spec: `GetFunctionCallMeta` is called by the tests but is
not in the source at hand.  By the spec it returns (call id, name, index,
position, found) for an item identifier, the index coming from the call-index
table that maps item identifiers to indices.  The accumulator keeps no call
id, name or position per identifier, so only the index and the found flag are
modelled. -/
def GetFunctionCallMeta (acc : ResponseAccumulator) (itemID : String) : Int × Bool :=
  match acc.toolCallIndices.lookup itemID with
  | some idx => (idx, true)
  | none => (0, false)

/-! ## Concrete inputs used by the closed statements -/

/-- The run time of the closed statements: `append` grows to exactly the
needed length, and `make` grants up to 2^32 items. -/
def growExact : Runtime :=
  ⟨fun _ needed => needed, 4294967296, by decide⟩

/-- The largest `int64`, as an output position. -/
def maxInt64 : Int := 9223372036854775807

/-- A `response.output_text.delta` event at position `p` with delta `d`. -/
def textDelta (p : Int) (d : String) : ResponseStreamEventUnion :=
  { (default : ResponseStreamEventUnion) with
    Type_ := "response.output_text.delta", OutputIndex := p, Delta := d }

/-- A `response.output_text.done` event at position `p` with final text `t`. -/
def textDone (p : Int) (t : String) : ResponseStreamEventUnion :=
  { (default : ResponseStreamEventUnion) with
    Type_ := "response.output_text.done", OutputIndex := p, Text := t }

/-- A `response.function_call_arguments.done` event for item `id`. -/
def argsDone (id : String) : ResponseStreamEventUnion :=
  { (default : ResponseStreamEventUnion) with
    Type_ := "response.function_call_arguments.done", ItemID := id }

/-- An event of a kind `AddEvent` does not know (the one used by the tests). -/
def unknownEvent : ResponseStreamEventUnion :=
  { (default : ResponseStreamEventUnion) with Type_ := "response.unknown.event" }

/-- A `response.completed` event carrying a snapshot without output items. -/
def completedEvent : ResponseStreamEventUnion :=
  { (default : ResponseStreamEventUnion) with
    Type_ := "response.completed"
    Response := { (default : Response) with Status := ResponseStatusCompleted } }

/-- The accumulator after folding `response.output_text.done` ("Done", position 0)
and one `response.function_call_arguments.done` into a fresh accumulator. -/
def accWithItem : ResponseAccumulator :=
  (AddEvent growExact (AddEvent growExact NewResponseAccumulator (textDone 0 "Done")).1
    (argsDone "call_123")).1

/-- An output item with one content block of text "old". -/
def staleItem : ResponseOutputItemUnion :=
  { (default : ResponseOutputItemUnion) with Content := [⟨"", "old", ""⟩] }

/-- A `response.created` event whose snapshot's output slice has length 0 and
capacity 1, the backing array still holding `staleItem` (Go: `backing[:0]`). -/
def staleCreated : ResponseStreamEventUnion :=
  { (default : ResponseStreamEventUnion) with
    Type_ := "response.created"
    Response := { (default : Response) with Output := ⟨[], [staleItem]⟩ } }

/-- The accumulator after folding `staleCreated` into a fresh accumulator. -/
def staleAcc : ResponseAccumulator :=
  (AddEvent growExact NewResponseAccumulator staleCreated).1

/-- A `response.failed` event whose snapshot carries the error message `m`. -/
def failedEvent (m : String) : ResponseStreamEventUnion :=
  { (default : ResponseStreamEventUnion) with
    Type_ := "response.failed"
    Response := { (default : Response) with Error := ⟨"", m⟩ } }

/-- A generic `error` event with message `m`. -/
def errorEvent (m : String) : ResponseStreamEventUnion :=
  { (default : ResponseStreamEventUnion) with Type_ := "error", Message := m }

/-- A `response.in_progress` event whose snapshot has status "in_progress". -/
def inProgressEvent : ResponseStreamEventUnion :=
  { (default : ResponseStreamEventUnion) with
    Type_ := "response.in_progress"
    Response := { (default : Response) with Status := "in_progress" } }

/-- The function-call item of the tests. -/
def functionCallItem (id callID name : String) : ResponseOutputItemUnion :=
  { (default : ResponseOutputItemUnion) with
    ID := id, Type_ := "function_call", CallID := callID, Name := name }

/-- The `response.output_item.added` event of the tests: the function-call item
is carried both as `Item` and as the one element of `Response.Output`. -/
def functionCallAdded (id callID name : String) (p : Int) : ResponseStreamEventUnion :=
  { (default : ResponseStreamEventUnion) with
    Type_ := "response.output_item.added"
    OutputIndex := p
    Item := functionCallItem id callID name
    Response := { (default : Response) with Output := ⟨[functionCallItem id callID name], []⟩ } }

/-- A `response.function_call_arguments.delta` event for item `id`. -/
def argsDelta (id delta : String) : ResponseStreamEventUnion :=
  { (default : ResponseStreamEventUnion) with
    Type_ := "response.function_call_arguments.delta", ItemID := id, Delta := delta }

/-- A `response.refusal.delta` event with delta `d`. -/
def refusalDelta (d : String) : ResponseStreamEventUnion :=
  { (default : ResponseStreamEventUnion) with Type_ := "response.refusal.delta", Delta := d }

/-- A `response.refusal.done` event with final refusal text `r`. -/
def refusalDone (r : String) : ResponseStreamEventUnion :=
  { (default : ResponseStreamEventUnion) with Type_ := "response.refusal.done", Refusal := r }

/-- A `response.reasoning_text.done` event with final text `t`. -/
def reasoningDone (t : String) : ResponseStreamEventUnion :=
  { (default : ResponseStreamEventUnion) with
    Type_ := "response.reasoning_text.done", Text := t }

/-- A `response.file_search_call.completed` event for item `id`. -/
def fileSearchCompleted (id : String) : ResponseStreamEventUnion :=
  { (default : ResponseStreamEventUnion) with
    Type_ := "response.file_search_call.completed", ItemID := id }

/-- A `response.web_search_call.completed` event for item `id`. -/
def webSearchCompleted (id : String) : ResponseStreamEventUnion :=
  { (default : ResponseStreamEventUnion) with
    Type_ := "response.web_search_call.completed", ItemID := id }

/-- A `response.code_interpreter_call.completed` event for item `id`. -/
def codeInterpreterCompleted (id : String) : ResponseStreamEventUnion :=
  { (default : ResponseStreamEventUnion) with
    Type_ := "response.code_interpreter_call.completed", ItemID := id }

/-- A `response.audio.transcript.done` event. -/
def audioDone : ResponseStreamEventUnion :=
  { (default : ResponseStreamEventUnion) with Type_ := "response.audio.transcript.done" }

/-- An output item whose first content block is a refusal and whose second
block is an output-text block holding "Hel". -/
def mixedItem : ResponseOutputItemUnion :=
  { (default : ResponseOutputItemUnion) with
    Content := [⟨"refusal", "", "No"⟩, ⟨"output_text", "Hel", ""⟩] }

/-- A `response.output_item.added` event carrying `mixedItem`. -/
def mixedAdded : ResponseStreamEventUnion :=
  { (default : ResponseStreamEventUnion) with
    Type_ := "response.output_item.added"
    Response := { (default : Response) with Output := ⟨[mixedItem], []⟩ } }

/-- The accumulator after folding `mixedAdded` into a fresh accumulator. -/
def mixedAcc : ResponseAccumulator :=
  (AddEvent growExact NewResponseAccumulator mixedAdded).1

/-- An output item whose only content block is a refusal. -/
def refusalItem : ResponseOutputItemUnion :=
  { (default : ResponseOutputItemUnion) with Content := [⟨"refusal", "", "No"⟩] }

/-- A `response.output_item.added` event carrying `refusalItem`. -/
def refusalAdded : ResponseStreamEventUnion :=
  { (default : ResponseStreamEventUnion) with
    Type_ := "response.output_item.added"
    Response := { (default : Response) with Output := ⟨[refusalItem], []⟩ } }

/-- The accumulator after folding `refusalAdded` into a fresh accumulator. -/
def refusalAcc : ResponseAccumulator :=
  (AddEvent growExact NewResponseAccumulator refusalAdded).1

/-! ## Specification-side definitions -/

/-- The slice `expandToFitResponseOutput` returns when it returns, that is when
`make` does not panic. -/
def expanded (slice : Slice ResponseOutputItemUnion) (index : Int) :
    Slice ResponseOutputItemUnion :=
  if index < slice.len then
    slice
  else if index < slice.cap then
    slice.reslice (index + 1)
  else
    Slice.copy (Slice.zeros (index + 1)) slice

/-- The value of a sum of two Go `int`s whose exact sum is `x`: 64-bit
two's-complement wrap-around. -/
def wrapInt64 (x : Int) : Int :=
  (x + 9223372036854775808) % 18446744073709551616 - 9223372036854775808

/-- The concatenation, in fold order, of the deltas of exactly those events of
`evs` whose output position is `p`. -/
def deltasAt (p : Int) (evs : List ResponseStreamEventUnion) : String :=
  String.join ((evs.filter (fun e => e.OutputIndex = p)).map (fun e => e.Delta))

/-- Invariant of a run of text deltas `hist` from a fresh accumulator: no spare
capacity, no event of `hist` addresses a position beyond the output list, and
every item either has no content and was never addressed, or starts with a
block that text deltas append to and whose text is the concatenation of the
deltas addressed to the item. -/
def TextInv (acc : ResponseAccumulator) (hist : List ResponseStreamEventUnion) : Prop :=
  acc.Output.spare = [] ∧
  (∀ i : Nat, acc.Output.items.length ≤ i → ∀ e ∈ hist, e.OutputIndex ≠ (i : Int)) ∧
  (∀ (i : Nat) (item : ResponseOutputItemUnion), acc.Output.items[i]? = some item →
    (item.Content = [] ∧ ∀ e ∈ hist, e.OutputIndex ≠ (i : Int)) ∨
    (∃ c rest, item.Content = c :: rest ∧ (c.Type_ = "output_text" ∨ c.Type_ = "") ∧
      c.Text = deltasAt (i : Int) hist))

/-- Invariant of the call-index bookkeeping: the next index is non-negative,
every index in the table lies in `0 .. nextToolIndex - 1`, and no index is
held by two identifiers. -/
def IndexInv (acc : ResponseAccumulator) : Prop :=
  0 ≤ acc.nextToolIndex ∧
  (∀ (id : String) (i : Int), List.lookup id acc.toolCallIndices = some i →
    0 ≤ i ∧ i < acc.nextToolIndex) ∧
  (∀ (id1 id2 : String) (i : Int), List.lookup id1 acc.toolCallIndices = some i →
    List.lookup id2 acc.toolCallIndices = some i → id1 = id2)

/-- The found flags of the nine just-finished queries, in the order in which
the source declares them. -/
def foundFlags (acc : ResponseAccumulator) : List Bool :=
  [(JustFinishedText acc).2, (JustFinishedToolCall acc).2, (JustFinishedRefusal acc).2,
   (JustFinishedReasoning acc).2, (JustFinishedAudioTranscript acc).2,
   (JustFinishedFileSearch acc).2, (JustFinishedWebSearch acc).2,
   (JustFinishedCodeInterpreter acc).2, (JustFinishedError acc).2]

/-- The effect of the `response.output_text.delta` case on the addressed item:
the content list is made non-empty, then the loop appends the delta. -/
def applyDelta (delta : String) (item : ResponseOutputItemUnion) : ResponseOutputItemUnion :=
  { ensureContent item with Content := appendDelta delta (ensureContent item).Content }

end Responses

/-! # Event cursor (`packages/ssestream`)

The cursor's source file is not at hand; only its tests are.  The definitions
of this section are modelled from the specification of the cursor. -/

namespace Ssestream

/-- Modelled from the spec: the Frame Source, an external collaborator that
produces raw frames one at a time and has an error state.  `frames` are the
payloads not yet read; `err` is the error the source reports when it has no
further frame. -/
structure Source where
  frames : List String
  err : Option String
deriving DecidableEq, Repr

/-- Modelled from the spec: the part of the cursor state that reading touches,
the source, the sticky error and the terminal flag (set by end of source or by
the sentinel). -/
structure Reader where
  source : Source
  err : Option String
  done : Bool
deriving DecidableEq, Repr

/-- Modelled from the spec: the Event Cursor state, the reader together with
the FIFO buffer of decoded but not yet consumed values and the current value;
the Go type is `Stream[T]`. -/
structure Stream (T : Type) extends Reader where
  buffer : List T
  cur : T
deriving DecidableEq, Repr

/-- Modelled from the spec: a frame payload that is empty or consists only of
whitespace characters is a ping. -/
def isPing (payload : String) : Bool :=
  payload.data.all Char.isWhitespace

/-- Modelled from the spec: the sentinel literal that marks the end of the
stream. -/
def sentinel : String := "[DONE]"

/-- The error recorded when a non-empty payload does not decode. -/
def decodeError : String := "decode error"

/-- Result of reading the source up to the next frame that is not a ping. -/
inductive Read (T : Type) where
  | value (v : T)
  | ended
  | failed (msg : String)
deriving DecidableEq, Repr

/-- Modelled from the spec: read the next raw frame.  A ping is skipped and the
next frame is read; the sentinel ends the stream and nothing after it is read;
any other payload is decoded as the caller's value type, a failure being a
decode error; a source without further frames ends the stream, with the
source's error if it reports one.  The second component are the frames left
unread. -/
def readFrame {T : Type} (decode : String → Option T) :
    List String → Option String → Read T × List String
  | [], srcErr =>
    match srcErr with
    | some m => (Read.failed m, [])
    | none => (Read.ended, [])
  | f :: rest, srcErr =>
    if isPing f then readFrame decode rest srcErr
    else if f = sentinel then (Read.ended, rest)
    else
      match decode f with
      | some v => (Read.value v, rest)
      | none => (Read.failed decodeError, rest)

/-- Modelled from the spec: the skip/decode logic shared by `Next` and `Peek`.
Once the sticky error or the terminal flag is set the source is not read
again; otherwise the next frame is read, the sentinel or the end of the source
sets the terminal flag, and a decode or source error becomes the sticky
error. -/
def advanceSource {T : Type} (decode : String → Option T) (r : Reader) : Option T × Reader :=
  if r.err.isSome ∨ r.done then (none, r)
  else
    match readFrame decode r.source.frames r.source.err with
    | (Read.value v, rest) => (some v, { r with source := { r.source with frames := rest } })
    | (Read.ended, rest) =>
      (none, { r with source := { r.source with frames := rest }, done := true })
    | (Read.failed m, rest) =>
      (none, { r with source := { r.source with frames := rest }, err := some m })

/-- Modelled from the spec: `NewStream(decoder, err)`, a cursor in state Ready,
optionally pre-seeded with a startup error. -/
def NewStream {T : Type} [Inhabited T] (source : Source) (err : Option String) : Stream T :=
  { source := source, err := err, done := false, buffer := [], cur := default }

/-- Modelled from the spec: `advance() -> bool`, Go `Next`.  A buffered value
is consumed first; otherwise the source is read. -/
def Next {T : Type} (decode : String → Option T) (s : Stream T) : Bool × Stream T :=
  match s.buffer with
  | v :: b => (true, { s with cur := v, buffer := b })
  | [] =>
    match advanceSource decode s.toReader with
    | (some v, r) => (true, { s with toReader := r, cur := v })
    | (none, r) => (false, { s with toReader := r })

/-- Modelled from the spec: `current() -> T`, Go `Current`. -/
def Current {T : Type} (s : Stream T) : T := s.cur

/-- Modelled from the spec: `err() -> error|none`, Go `Err`. -/
def Err {T : Type} (s : Stream T) : Option String := s.err

/-- Modelled from the spec: `peek() -> (T, bool)`, Go `Peek`.  The oldest
buffered value if there is one; otherwise the skip/decode logic, its result
being appended to the buffer rather than made current. -/
def Peek {T : Type} [Inhabited T] (decode : String → Option T) (s : Stream T) :
    (T × Bool) × Stream T :=
  match s.buffer with
  | v :: _ => ((v, true), s)
  | [] =>
    match advanceSource decode s.toReader with
    | (some v, r) => ((v, true), { s with toReader := r, buffer := [v] })
    | (none, r) => ((default, false), { s with toReader := r })

/-- The loop of `PeekN`: read up to `need` further values into the buffer,
stopping when the source runs out or terminates. -/
def fillBuffer {T : Type} (decode : String → Option T) : Nat → Stream T → Stream T
  | 0, s => s
  | need + 1, s =>
    match advanceSource decode s.toReader with
    | (some v, r) => fillBuffer decode need { s with toReader := r, buffer := s.buffer ++ [v] }
    | (none, r) => { s with toReader := r }

/-- Modelled from the spec: `peekN(n) -> sequence of T`, Go `PeekN`.  For
`n ≤ 0` the empty sequence, the buffer untouched; otherwise the buffer is
filled up to `n` values and its first `n` values are returned. -/
def PeekN {T : Type} (decode : String → Option T) (n : Int) (s : Stream T) :
    List T × Stream T :=
  if n ≤ 0 then ([], s)
  else
    let s1 := fillBuffer decode (n.toNat - s.buffer.length) s
    (s1.buffer.take n.toNat, s1)

/-- The values that `need` successive reads bring in, and the reader after
them; reading stops when the source runs out or terminates. -/
def pull {T : Type} (decode : String → Option T) : Nat → Reader → List T × Reader
  | 0, r => ([], r)
  | need + 1, r =>
    match advanceSource decode r with
    | (some v, r1) => (v :: (pull decode need r1).1, (pull decode need r1).2)
    | (none, r1) => ([], r1)

/-- The consumer loop `for stream.Next() ... stream.Current()`: the values
yielded until `Next` returns false, and the cursor then.  `none` means the
fuel ran out before `Next` returned false. -/
def drain {T : Type} (decode : String → Option T) : Nat → Stream T → Option (List T × Stream T)
  | 0, _ => none
  | fuel + 1, s =>
    match Next decode s with
    | (true, s1) => (drain decode fuel s1).map (fun r => (Current s1 :: r.1, r.2))
    | (false, s1) => some ([], s1)

/-- The results `(ok, Current)` of `k` successive `Next` calls, and the cursor
after them. -/
def nextN {T : Type} (decode : String → Option T) : Nat → Stream T → List (Bool × T) × Stream T
  | 0, s => ([], s)
  | k + 1, s =>
    let r := Next decode s
    let rest := nextN decode k r.2
    ((r.1, Current r.2) :: rest.1, rest.2)

/-- A call a consumer can make on the cursor. -/
inductive Op where
  | next
  | peek
  | peekN (n : Int)
deriving DecidableEq, Repr

/-- What a call returns to the consumer. -/
inductive Obs (T : Type) where
  | next (ok : Bool) (cur : T)
  | peek (v : T) (ok : Bool)
  | peekN (vs : List T)
deriving DecidableEq, Repr

/-- One call on the cursor. -/
def step {T : Type} [Inhabited T] (decode : String → Option T) (op : Op) (s : Stream T) :
    Obs T × Stream T :=
  match op with
  | Op.next => let r := Next decode s; (Obs.next r.1 (Current r.2), r.2)
  | Op.peek => let r := Peek decode s; (Obs.peek r.1.1 r.1.2, r.2)
  | Op.peekN n => let r := PeekN decode n s; (Obs.peekN r.1, r.2)

/-- A sequence of calls on the cursor, in order. -/
def run {T : Type} [Inhabited T] (decode : String → Option T) :
    List Op → Stream T → List (Obs T) × Stream T
  | [], s => ([], s)
  | op :: ops, s =>
    let r := step decode op s
    let rest := run decode ops r.2
    (r.1 :: rest.1, rest.2)

/-- What a call returns on a cursor that has nothing more to yield. -/
def nothing {T : Type} [Inhabited T] (cur : T) : Op → Obs T
  | Op.next => Obs.next false cur
  | Op.peek => Obs.peek default false
  | Op.peekN _ => Obs.peekN []

/-- The values a fresh cursor over `frames` yields: the decoded non-ping frames
up to the first sentinel or the first frame that does not decode. -/
def yields {T : Type} (decode : String → Option T) : List String → List T
  | [] => []
  | f :: rest =>
    if isPing f then yields decode rest
    else if f = sentinel then []
    else
      match decode f with
      | some v => v :: yields decode rest
      | none => []

/-- The sticky error of a fresh cursor over `frames` once it has nothing more
to yield: a decode error at the first frame that does not decode, the source's
error if the frames run out, none after a sentinel. -/
def finalErr {T : Type} (decode : String → Option T) (srcErr : Option String) :
    List String → Option String
  | [] => srcErr
  | f :: rest =>
    if isPing f then finalErr decode srcErr rest
    else if f = sentinel then none
    else
      match decode f with
      | some _ => finalErr decode srcErr rest
      | none => some decodeError

/-- The frames a fresh cursor over `frames` leaves unread once it has nothing
more to yield. -/
def unread {T : Type} (decode : String → Option T) : List String → List String
  | [] => []
  | f :: rest =>
    if isPing f then unread decode rest
    else if f = sentinel then rest
    else
      match decode f with
      | some _ => unread decode rest
      | none => rest

/-- Two readers that agree on everything but the frames after the next
sentinel of their sources (and the error their sources would report at the
end): either the terminal flag is set, or the unread frames are
`p ++ sentinel :: post` in the first and `p ++ [sentinel]` in the second. -/
def ReaderSame (post : List String) (r1 r2 : Reader) : Prop :=
  r1.err = r2.err ∧ r1.done = r2.done ∧
  (r1.done = true ∨
    ∃ p, r1.source.frames = p ++ sentinel :: post ∧ r2.source.frames = p ++ [sentinel])

/-- Two cursors with the same buffer and current value whose readers agree up
to the frames after the next sentinel. -/
def SameUpToSentinel {T : Type} (post : List String) (s1 s2 : Stream T) : Prop :=
  ReaderSame post s1.toReader s2.toReader ∧ s1.buffer = s2.buffer ∧ s1.cur = s2.cur

/-- A decoder for the closed statements: a payload of letters and digits
decodes to itself, anything else is malformed. -/
def sampleDecode (payload : String) : Option String :=
  if payload.data.all Char.isAlphanum then some payload else none

end Ssestream

/-! # Polymorphic decoder (`internal/apijson`)

The decoder's source file is not at hand; only a test of it is.  The
definitions of this section are modelled from the specification of the
decoder.  Payloads are flat: a field holds a scalar. -/

namespace Apijson

/-- A scalar JSON value. -/
inductive Value where
  | null
  | bool (b : Bool)
  | num (n : Int)
  | str (s : String)
deriving DecidableEq, Repr

/-- Modelled from the spec: the parsed input, a key/value mapping or something
that is not a well-formed mapping. -/
inductive Input where
  | mapping (fields : List (String × Value))
  | other
deriving DecidableEq, Repr

/-- The kind of value a field of a variant holds. -/
inductive Kind where
  | bool
  | num
  | str
deriving DecidableEq, Repr

/-- Whether a value can populate a field of the given kind. -/
def Value.hasKind : Value → Kind → Bool
  | Value.bool _, Kind.bool => true
  | Value.num _, Kind.num => true
  | Value.str _, Kind.str => true
  | _, _ => false

/-- A field of a variant shape. -/
structure FieldSpec where
  name : String
  kind : Kind
  required : Bool
deriving DecidableEq, Repr

/-- Modelled from the spec: a concrete variant shape of a union. -/
structure VariantShape where
  name : String
  fields : List FieldSpec
deriving DecidableEq, Repr

/-- Modelled from the spec: a variant instance populated from the input; the
fields of the shape that the input does not carry are left at their zero value
and are not listed. -/
structure Instance where
  variant : String
  fields : List (String × Value)
deriving DecidableEq, Repr

/-- Modelled from the spec: the registry entry of a union type, its
discriminator field name if it has one, the mapping from discriminator values
to variant shapes, and all variant shapes in registration order. -/
structure UnionEntry where
  discriminator : Option String
  mapping : List (String × VariantShape)
  variants : List VariantShape
deriving DecidableEq, Repr

/-- The failures of the decoder. -/
inductive DecodeError where
  | parse
  | fieldMismatch
  | noMatchingVariant
  | noDiscriminatedVariant
deriving DecidableEq, Repr

/-- Populate the fields of a shape from the input: a field the input carries
must have the field's kind, a field it does not carry must not be required;
fields of the input that the shape does not have are ignored. -/
def decodeFields (input : List (String × Value)) :
    List FieldSpec → Option (List (String × Value))
  | [] => some []
  | f :: rest =>
    match input.lookup f.name with
    | some v =>
      if v.hasKind f.kind then (decodeFields input rest).map (fun fs => (f.name, v) :: fs)
      else none
    | none => if f.required then none else decodeFields input rest

/-- Modelled from the spec: decode the input mapping into one variant shape,
or reject it. -/
def decodeVariant (shape : VariantShape) (input : List (String × Value)) : Option Instance :=
  (decodeFields input shape.fields).map (fun fs => ⟨shape.name, fs⟩)

/-- Modelled from the spec: the try-all-variants fallback, each registered
variant shape in registration order, the first that accepts the input wins. -/
def tryVariants (input : List (String × Value)) : List VariantShape → Option Instance
  | [] => none
  | shape :: rest =>
    match decodeVariant shape input with
    | some inst => some inst
    | none => tryVariants input rest

/-- What reading the discriminator field of the input gives. -/
inductive Discriminator where
  | absent
  | unknown
  | known (shape : VariantShape)
deriving DecidableEq, Repr

/-- Modelled from the spec: step 1 of the algorithm, read the discriminator
field.  It is absent when the entry has no discriminator field name or the
input does not carry the field, known when its value is mapped to a variant,
unknown otherwise. -/
def readDiscriminator (entry : UnionEntry) (input : List (String × Value)) : Discriminator :=
  match entry.discriminator with
  | none => Discriminator.absent
  | some d =>
    match input.lookup d with
    | none => Discriminator.absent
    | some (Value.str v) =>
      match entry.mapping.lookup v with
      | some shape => Discriminator.known shape
      | none => Discriminator.unknown
    | some _ => Discriminator.unknown

/-- Modelled from the spec: the Polymorphic Decoder.  An input that is not a
mapping is a parse error.  A known discriminator value decodes strictly into
the mapped variant, a mismatch being a hard error without fallback.  An absent
or unknown discriminator falls through to the try-all-variants fallback; when
no variant accepts, the failure is "no matching variant", and "no
discriminated variant" only if a discriminator value was present. -/
def decodeUnion (entry : UnionEntry) (input : Input) : Except DecodeError Instance :=
  match input with
  | Input.other => Except.error DecodeError.parse
  | Input.mapping fields =>
    match readDiscriminator entry fields with
    | Discriminator.known shape =>
      match decodeVariant shape fields with
      | some inst => Except.ok inst
      | none => Except.error DecodeError.fieldMismatch
    | Discriminator.absent =>
      match tryVariants fields entry.variants with
      | some inst => Except.ok inst
      | none => Except.error DecodeError.noMatchingVariant
    | Discriminator.unknown =>
      match tryVariants fields entry.variants with
      | some inst => Except.ok inst
      | none => Except.error DecodeError.noDiscriminatedVariant

/-- The member of the union value that holds variant `name`: set when the
decoded instance is of that variant, unset otherwise. -/
def Instance.member (inst : Instance) (name : String) : Option (List (String × Value)) :=
  if inst.variant = name then some inst.fields else none

/-- The shape of `TestEasyMessage` of the test. -/
def easyMessage : VariantShape :=
  ⟨"OfEasyMessage", [⟨"role", Kind.str, false⟩, ⟨"content", Kind.str, false⟩]⟩

/-- The shape of `TestFullMessage` of the test. -/
def fullMessage : VariantShape :=
  ⟨"OfFullMessage",
    [⟨"type", Kind.str, false⟩, ⟨"role", Kind.str, false⟩, ⟨"content", Kind.str, false⟩]⟩

/-- The registration of `TestMessageUnion` in the test: discriminator field
"type", value "message" mapped to the full message, variants in field order. -/
def testMessageUnion : UnionEntry :=
  ⟨some "type", [("message", fullMessage)], [easyMessage, fullMessage]⟩

/-- The payload of `TestStructUnionMissingDiscriminator`. -/
def payloadNoType : Input :=
  Input.mapping [("role", Value.str "user"), ("content", Value.str "hello")]

/-- The payload of `TestStructUnionWithDiscriminator`. -/
def payloadMessage : Input :=
  Input.mapping
    [("type", Value.str "message"), ("role", Value.str "user"), ("content", Value.str "hello")]

/-- The payload of `TestStructUnionUnknownDiscriminator`. -/
def payloadUnknownType : Input :=
  Input.mapping
    [("type", Value.str "unknown"), ("role", Value.str "user"), ("content", Value.str "hello")]

end Apijson

namespace Responses

/-! ## Unfolding `AddEvent` per event kind -/

section Unfold

variable (g : Runtime) (acc : ResponseAccumulator) (e : ResponseStreamEventUnion)

theorem AddEvent_created (h : e.Type_ = "response.created") :
    AddEvent g acc e = ({ clearJustFinished acc with toResponse := e.Response }, some true) := by
  simp [AddEvent, h]

theorem AddEvent_in_progress (h : e.Type_ = "response.in_progress") :
    AddEvent g acc e = ({ clearJustFinished acc with toResponse := e.Response }, some true) := by
  simp [AddEvent, h]

theorem AddEvent_completed (h : e.Type_ = "response.completed") :
    AddEvent g acc e = ({ clearJustFinished acc with toResponse := e.Response }, some true) := by
  simp [AddEvent, h]

theorem AddEvent_failed (h : e.Type_ = "response.failed") :
    AddEvent g acc e =
      ({ clearJustFinished acc with
          toResponse := e.Response
          justFinishedType := "error"
          justFinishedError := e.Response.Error.Message }, some true) := by
  simp [AddEvent, h]

theorem AddEvent_incomplete (h : e.Type_ = "response.incomplete") :
    AddEvent g acc e = ({ clearJustFinished acc with toResponse := e.Response }, some true) := by
  simp [AddEvent, h]

theorem AddEvent_item_added (h : e.Type_ = "response.output_item.added") :
    AddEvent g acc e =
      (if e.Response.Output.len > 0 then
        { clearJustFinished acc with
          Output := Slice.append g.growslice acc.Output e.Response.Output.items }
       else clearJustFinished acc, some true) := by
  by_cases hl : e.Response.Output.len > 0 <;> simp [AddEvent, h, hl, clearJustFinished]

theorem AddEvent_item_done (h : e.Type_ = "response.output_item.done") :
    AddEvent g acc e =
      ({ clearJustFinished acc with justFinishedType := "output_item_done" }, some true) := by
  simp [AddEvent, h]

theorem AddEvent_text_delta (h : e.Type_ = "response.output_text.delta") :
    AddEvent g acc e =
      match expandToFitResponseOutput g.maxLen acc.Output e.OutputIndex with
      | none => (clearJustFinished acc, none)
      | some out =>
        (let acc1 := { clearJustFinished acc with Output := out }
         match acc1.Output.get? e.OutputIndex with
         | none => (acc1, none)
         | some item =>
           let item1 := ensureContent item
           let item2 := { item1 with Content := appendDelta e.Delta item1.Content }
           ({ acc1 with Output := acc1.Output.set e.OutputIndex item2 }, some true)) := by
  simp [AddEvent, h, clearJustFinished]

theorem AddEvent_text_delta_ok (h : e.Type_ = "response.output_text.delta")
    (out : Slice ResponseOutputItemUnion)
    (hexp : expandToFitResponseOutput g.maxLen acc.Output e.OutputIndex = some out) :
    AddEvent g acc e =
      (let acc1 := { clearJustFinished acc with Output := out }
       match acc1.Output.get? e.OutputIndex with
       | none => (acc1, none)
       | some item =>
         let item1 := ensureContent item
         let item2 := { item1 with Content := appendDelta e.Delta item1.Content }
         ({ acc1 with Output := acc1.Output.set e.OutputIndex item2 }, some true)) := by
  rw [AddEvent_text_delta g acc e h, hexp]

theorem AddEvent_text_delta_panic (h : e.Type_ = "response.output_text.delta")
    (hexp : expandToFitResponseOutput g.maxLen acc.Output e.OutputIndex = none) :
    AddEvent g acc e = (clearJustFinished acc, none) := by
  rw [AddEvent_text_delta g acc e h, hexp]

theorem AddEvent_text_done (h : e.Type_ = "response.output_text.done") :
    AddEvent g acc e =
      match expandToFitResponseOutput g.maxLen acc.Output e.OutputIndex with
      | none =>
        ({ clearJustFinished acc with
            justFinishedType := "text_done", justFinishedText := e.Text }, none)
      | some out =>
        (let acc1 := { clearJustFinished acc with
            justFinishedType := "text_done"
            justFinishedText := e.Text
            Output := out }
         match acc1.Output.get? e.OutputIndex with
         | none => (acc1, none)
         | some item =>
           let item1 := ensureContent item
           match item1.Content with
           | [] => (acc1, none)
           | c :: rest =>
             let item2 :=
               { item1 with Content := { c with Type_ := "output_text", Text := e.Text } :: rest }
             ({ acc1 with Output := acc1.Output.set e.OutputIndex item2 }, some true)) := by
  simp [AddEvent, h, clearJustFinished]

theorem AddEvent_text_done_ok (h : e.Type_ = "response.output_text.done")
    (out : Slice ResponseOutputItemUnion)
    (hexp : expandToFitResponseOutput g.maxLen acc.Output e.OutputIndex = some out) :
    AddEvent g acc e =
      (let acc1 := { clearJustFinished acc with
          justFinishedType := "text_done"
          justFinishedText := e.Text
          Output := out }
       match acc1.Output.get? e.OutputIndex with
       | none => (acc1, none)
       | some item =>
         let item1 := ensureContent item
         match item1.Content with
         | [] => (acc1, none)
         | c :: rest =>
           let item2 :=
             { item1 with Content := { c with Type_ := "output_text", Text := e.Text } :: rest }
           ({ acc1 with Output := acc1.Output.set e.OutputIndex item2 }, some true)) := by
  rw [AddEvent_text_done g acc e h, hexp]

theorem AddEvent_text_done_panic (h : e.Type_ = "response.output_text.done")
    (hexp : expandToFitResponseOutput g.maxLen acc.Output e.OutputIndex = none) :
    AddEvent g acc e =
      ({ clearJustFinished acc with
          justFinishedType := "text_done", justFinishedText := e.Text }, none) := by
  rw [AddEvent_text_done g acc e h, hexp]

theorem AddEvent_refusal_delta (h : e.Type_ = "response.refusal.delta") :
    AddEvent g acc e =
      ({ clearJustFinished acc with justFinishedRefusal := "" ++ e.Delta }, some true) := by
  simp [AddEvent, h, clearJustFinished]

theorem AddEvent_refusal_done (h : e.Type_ = "response.refusal.done") :
    AddEvent g acc e =
      ({ clearJustFinished acc with
          justFinishedType := "refusal_done", justFinishedRefusal := e.Refusal }, some true) := by
  simp [AddEvent, h]

theorem AddEvent_args_delta (h : e.Type_ = "response.function_call_arguments.delta") :
    AddEvent g acc e = (clearJustFinished acc, some true) := by
  simp [AddEvent, h]

theorem AddEvent_args_done (h : e.Type_ = "response.function_call_arguments.done") :
    AddEvent g acc e =
      ({ clearJustFinished acc with
          nextToolIndex := acc.nextToolIndex + 1
          toolCallIndices := acc.toolCallIndices.insert e.ItemID acc.nextToolIndex
          justFinishedType := "function_call_args_done"
          justFinishedTool := ⟨e.ItemID, acc.nextToolIndex⟩ }, some true) := by
  simp [AddEvent, h, clearJustFinished]

theorem AddEvent_reasoning_done (h : e.Type_ = "response.reasoning_text.done") :
    AddEvent g acc e =
      ({ clearJustFinished acc with
          justFinishedType := "reasoning_done", justFinishedReasoning := e.Text }, some true) := by
  simp [AddEvent, h]

theorem AddEvent_audio_done (h : e.Type_ = "response.audio.transcript.done") :
    AddEvent g acc e =
      ({ clearJustFinished acc with justFinishedType := "audio_transcript_done" },
        some true) := by
  simp [AddEvent, h]

theorem AddEvent_file_search (h : e.Type_ = "response.file_search_call.completed") :
    AddEvent g acc e =
      ({ clearJustFinished acc with
          justFinishedType := "file_search_completed"
          justFinishedFileSearch := ⟨e.ItemID⟩ }, some true) := by
  simp [AddEvent, h]

theorem AddEvent_web_search (h : e.Type_ = "response.web_search_call.completed") :
    AddEvent g acc e =
      ({ clearJustFinished acc with
          justFinishedType := "web_search_completed"
          justFinishedWebSearch := ⟨e.ItemID⟩ }, some true) := by
  simp [AddEvent, h]

theorem AddEvent_code_interpreter (h : e.Type_ = "response.code_interpreter_call.completed") :
    AddEvent g acc e =
      ({ clearJustFinished acc with
          justFinishedType := "code_interpreter_completed"
          justFinishedCodeInterpreter := ⟨e.ItemID⟩ }, some true) := by
  simp [AddEvent, h]

theorem AddEvent_error (h : e.Type_ = "error") :
    AddEvent g acc e =
      ({ clearJustFinished acc with
          justFinishedType := "error", justFinishedError := e.Message }, some true) := by
  simp [AddEvent, h]

theorem AddEvent_unknown (h : e.Type_ ∉ recognisedKinds) :
    AddEvent g acc e = (clearJustFinished acc, some true) := by
  simp only [recognisedKinds, List.mem_cons, List.mem_singleton, not_or, List.not_mem_nil,
    or_false] at h
  obtain ⟨h1, h2, h3, h4, h5, h6, h7, h8, h9, h10, h11, h12, h13, h14, h15, h16, h17, h18,
    h19⟩ := h
  simp [AddEvent, h1, h2, h3, h4, h5, h6, h7, h8, h9, h10, h11, h12, h13, h14, h15, h16, h17,
    h18, h19]

/-- Every event is of one of the nineteen recognised kinds or of none. -/
theorem kind_cases :
    e.Type_ = "response.created" ∨ e.Type_ = "response.in_progress" ∨
    e.Type_ = "response.completed" ∨ e.Type_ = "response.failed" ∨
    e.Type_ = "response.incomplete" ∨ e.Type_ = "response.output_item.added" ∨
    e.Type_ = "response.output_item.done" ∨ e.Type_ = "response.output_text.delta" ∨
    e.Type_ = "response.output_text.done" ∨ e.Type_ = "response.refusal.delta" ∨
    e.Type_ = "response.refusal.done" ∨ e.Type_ = "response.function_call_arguments.delta" ∨
    e.Type_ = "response.function_call_arguments.done" ∨
    e.Type_ = "response.reasoning_text.done" ∨ e.Type_ = "response.audio.transcript.done" ∨
    e.Type_ = "response.file_search_call.completed" ∨
    e.Type_ = "response.web_search_call.completed" ∨
    e.Type_ = "response.code_interpreter_call.completed" ∨ e.Type_ = "error" ∨
    e.Type_ ∉ recognisedKinds := by
  by_cases h : e.Type_ ∈ recognisedKinds
  · simp only [recognisedKinds, List.mem_cons, List.mem_singleton, List.not_mem_nil,
      or_false] at h
    tauto
  · simp [h]

end Unfold

/-! ## Lemmas on slices and on `expandToFitResponseOutput` -/

section SliceLemmas

variable (s : Slice ResponseOutputItemUnion) (p : Int)

theorem expand_of_lt (h : p < s.len) : expanded s p = s := by
  simp [expanded, h]

theorem expand_items_of_ge (h : s.len ≤ p) :
    (expanded s p).items =
      s.items ++
        (if p < s.cap then s.spare.take ((p + 1).toNat - s.items.length)
         else List.replicate ((p + 1).toNat - s.items.length) default) := by
  have h1 : ¬ p < s.len := not_lt.mpr h
  simp only [Slice.len, Slice.cap] at *
  unfold expanded
  simp only [Slice.len, Slice.cap, h1, if_false]
  split_ifs with h2
  · simp only [Slice.reslice]
    rw [List.take_append_eq_append_take]
    congr 1
    apply List.take_of_length_le
    omega
  · simp only [Slice.copy, Slice.zeros, List.length_replicate]
    have h3 : min (p + 1).toNat s.items.length = s.items.length := by
      apply min_eq_right; omega
    rw [h3]
    simp

theorem expand_length_ge : s.items.length ≤ (expanded s p).items.length := by
  by_cases h : p < s.len
  · rw [expand_of_lt s p h]
  · rw [expand_items_of_ge s p (not_lt.mp h)]
    simp

theorem expand_length_gt (hp : 0 ≤ p) :
    p.toNat < (expanded s p).items.length := by
  by_cases h : p < s.len
  · rw [expand_of_lt s p h]
    simp only [Slice.len] at h
    omega
  · rw [expand_items_of_ge s p (not_lt.mp h)]
    simp only [Slice.len, Slice.cap] at *
    split_ifs with h2
    · simp only [List.length_append, List.length_take]
      omega
    · simp only [List.length_append, List.length_replicate]
      omega

theorem expand_getElem?_of_lt (i : Nat) (hi : i < s.items.length) :
    (expanded s p).items[i]? = s.items[i]? := by
  by_cases h : p < s.len
  · rw [expand_of_lt s p h]
  · rw [expand_items_of_ge s p (not_lt.mp h), List.getElem?_append_left hi]

end SliceLemmas

theorem expand_eq (m : Nat) (s : Slice ResponseOutputItemUnion) (p : Int) :
    expandToFitResponseOutput m s p =
      if p < s.cap ∨ p + 1 ≤ (m : Int) then some (expanded s p) else none := by
  unfold expandToFitResponseOutput expanded
  simp only [Slice.len, Slice.cap, Slice.make]
  by_cases h1 : p < (s.items.length : Int)
  · have h2 : p < (s.items.length : Int) + (s.spare.length : Int) := by omega
    simp [h1, h2]
  · by_cases h2 : p < (s.items.length : Int) + (s.spare.length : Int)
    · simp [h1, h2]
    · have h3 : ¬ p + 1 < 0 := by omega
      by_cases h4 : p + 1 ≤ (m : Int)
      · have h5 : ¬ (m : Int) < p + 1 := by omega
        simp [h1, h2, h3, h4, h5]
      · have h5 : (m : Int) < p + 1 := by omega
        simp [h1, h2, h4, h5]

theorem expand_of_bound (m : Nat) (s : Slice ResponseOutputItemUnion) (p : Int)
    (h : p < (m : Int)) : expandToFitResponseOutput m s p = some (expanded s p) := by
  rw [expand_eq, if_pos (Or.inr (by omega))]

theorem expand_of_cap (m : Nat) (s : Slice ResponseOutputItemUnion) (p : Int)
    (h : p < s.cap) : expandToFitResponseOutput m s p = some (expanded s p) := by
  rw [expand_eq, if_pos (Or.inl h)]

theorem expand_some (m : Nat) (s out : Slice ResponseOutputItemUnion) (p : Int)
    (h : expandToFitResponseOutput m s p = some out) : out = expanded s p := by
  rw [expand_eq] at h
  split_ifs at h
  simpa using h.symm

theorem expand_none_iff (m : Nat) (s : Slice ResponseOutputItemUnion) (p : Int) :
    expandToFitResponseOutput m s p = none ↔ s.cap ≤ p ∧ (m : Int) < p + 1 := by
  rw [expand_eq]
  split_ifs with h
  · simp only [reduceCtorEq, false_iff]
    omega
  · simp only [true_iff]
    omega

/-- On the positions an `int64` can hold, wrapping the sum `index + 1` does not
change what `make` does: the sum wraps only at the largest `int64`, where the
wrapped length is negative and the unwrapped one is above every `maxLen`. -/
theorem make_wrapInt64 (g : Runtime) (p : Int) (h0 : 0 ≤ p) (h1 : p ≤ maxInt64) :
    (Slice.make g.maxLen (wrapInt64 (p + 1)) : Option (Slice ResponseOutputItemUnion)) =
      Slice.make g.maxLen (p + 1) := by
  have hm := g.maxLen_lt
  simp only [maxInt64] at h1
  by_cases hlt : p + 1 < 9223372036854775808
  · have hw : wrapInt64 (p + 1) = p + 1 := by
      simp only [wrapInt64]
      omega
    rw [hw]
  · have hp : p = 9223372036854775807 := by omega
    subst hp
    have hw : wrapInt64 (9223372036854775807 + 1) = -9223372036854775808 := by decide
    rw [hw]
    have hbig : (g.maxLen : Int) < 9223372036854775807 + 1 := by omega
    simp [Slice.make, hm]

theorem AddEvent_justFinishedType (g : Runtime) (acc : ResponseAccumulator)
    (e : ResponseStreamEventUnion) :
    (AddEvent g acc e).1.justFinishedType = edgeTag e.Type_ := by
  rcases kind_cases e with h | h | h | h | h | h | h | h | h | h | h | h | h | h | h | h | h |
    h | h | h
  · simp [AddEvent_created g acc e h, h, edgeTag, clearJustFinished]
  · simp [AddEvent_in_progress g acc e h, h, edgeTag, clearJustFinished]
  · simp [AddEvent_completed g acc e h, h, edgeTag, clearJustFinished]
  · simp [AddEvent_failed g acc e h, h, edgeTag, clearJustFinished]
  · simp [AddEvent_incomplete g acc e h, h, edgeTag, clearJustFinished]
  · rw [AddEvent_item_added g acc e h]
    split_ifs <;> simp [h, edgeTag, clearJustFinished]
  · simp [AddEvent_item_done g acc e h, h, edgeTag, clearJustFinished]
  · rw [AddEvent_text_delta g acc e h]
    split
    · simp [h, edgeTag, clearJustFinished]
    · dsimp only
      split <;> simp [h, edgeTag, clearJustFinished]
  · rw [AddEvent_text_done g acc e h]
    split
    · simp [h, edgeTag, clearJustFinished]
    · dsimp only
      split
      · simp [h, edgeTag, clearJustFinished]
      · split <;> simp [h, edgeTag, clearJustFinished]
  · simp [AddEvent_refusal_delta g acc e h, h, edgeTag, clearJustFinished]
  · simp [AddEvent_refusal_done g acc e h, h, edgeTag, clearJustFinished]
  · simp [AddEvent_args_delta g acc e h, h, edgeTag, clearJustFinished]
  · simp [AddEvent_args_done g acc e h, h, edgeTag, clearJustFinished]
  · simp [AddEvent_reasoning_done g acc e h, h, edgeTag, clearJustFinished]
  · simp [AddEvent_audio_done g acc e h, h, edgeTag, clearJustFinished]
  · simp [AddEvent_file_search g acc e h, h, edgeTag, clearJustFinished]
  · simp [AddEvent_web_search g acc e h, h, edgeTag, clearJustFinished]
  · simp [AddEvent_code_interpreter g acc e h, h, edgeTag, clearJustFinished]
  · simp [AddEvent_error g acc e h, h, edgeTag, clearJustFinished]
  · rw [AddEvent_unknown g acc e h]
    simp only [recognisedKinds, List.mem_cons, List.mem_singleton, not_or, List.not_mem_nil,
      or_false] at h
    simp [h, edgeTag, clearJustFinished]

theorem Slice.append_items (gr : Nat → Nat → Nat) (s : Slice ResponseOutputItemUnion)
    (xs : List ResponseOutputItemUnion) : (Slice.append gr s xs).items = s.items ++ xs := by
  unfold Slice.append
  split_ifs <;> rfl

theorem AddEvent_text_delta_length (g : Runtime) (acc : ResponseAccumulator)
    (e : ResponseStreamEventUnion) (h : e.Type_ = "response.output_text.delta") :
    acc.Output.items.length ≤ (AddEvent g acc e).1.Output.items.length := by
  cases hexp : expandToFitResponseOutput g.maxLen acc.Output e.OutputIndex with
  | none =>
    rw [AddEvent_text_delta_panic g acc e h hexp]
    exact le_refl _
  | some out =>
    have hout := expand_some _ _ _ _ hexp
    subst hout
    have hge := expand_length_ge acc.Output e.OutputIndex
    rw [AddEvent_text_delta_ok g acc e h _ hexp]
    dsimp only
    split <;> simpa [clearJustFinished, Slice.set] using hge

theorem AddEvent_text_done_length (g : Runtime) (acc : ResponseAccumulator)
    (e : ResponseStreamEventUnion) (h : e.Type_ = "response.output_text.done") :
    acc.Output.items.length ≤ (AddEvent g acc e).1.Output.items.length := by
  cases hexp : expandToFitResponseOutput g.maxLen acc.Output e.OutputIndex with
  | none =>
    rw [AddEvent_text_done_panic g acc e h hexp]
    exact le_refl _
  | some out =>
    have hout := expand_some _ _ _ _ hexp
    subst hout
    have hge := expand_length_ge acc.Output e.OutputIndex
    rw [AddEvent_text_done_ok g acc e h _ hexp]
    dsimp only
    split
    · simpa [clearJustFinished] using hge
    · split <;> simpa [clearJustFinished, Slice.set] using hge

theorem expand_get?_isSome (s : Slice ResponseOutputItemUnion) (p : Int) (hp : 0 ≤ p) :
    ∃ item, (expanded s p).get? p = some item ∧
      (expanded s p).items[p.toNat]? = some item := by
  have hlt := expand_length_gt s p hp
  refine ⟨(expanded s p).items[p.toNat], ?_, ?_⟩
  · simp [Slice.get?, not_lt.mpr hp, List.getElem?_eq_getElem hlt]
  · exact List.getElem?_eq_getElem hlt

theorem ensureContent_cases (item : ResponseOutputItemUnion) :
    (item.Content = [] ∧ ensureContent item = { item with Content := [default] }) ∨
    (item.Content ≠ [] ∧ ensureContent item = item) := by
  unfold ensureContent
  cases hc : item.Content with
  | nil => left; simp
  | cons c cs => right; simp

theorem appendDelta_default (d : String) :
    appendDelta d [default] = [{ (default : ResponseOutputMessageContentUnion) with Text := d }] := by
  simp [appendDelta, default]

theorem IndexMap.lookup_filter_ne (m : IndexMap) (k x : String) (hx : x ≠ k) :
    List.lookup x (m.filter (fun kv => kv.1 ≠ k)) = List.lookup x m := by
  induction m with
  | nil => rfl
  | cons kv m ih =>
    obtain ⟨a, b⟩ := kv
    by_cases hak : a = k
    · subst hak
      have hxa : (x == a) = false := by simpa using hx
      simpa [List.filter_cons, List.lookup_cons, hxa] using ih
    · by_cases hxa : x = a
      · subst hxa
        simp [List.filter_cons, List.lookup_cons, hak]
      · have hxa2 : (x == a) = false := by simpa using hxa
        simpa [List.filter_cons, List.lookup_cons, hak, hxa2] using ih

theorem IndexMap.lookup_insert_self (m : IndexMap) (k : String) (v : Int) :
    List.lookup k (m.insert k v) = some v := by
  simp [IndexMap.insert, List.lookup_cons]

theorem IndexMap.lookup_insert_ne (m : IndexMap) (k x : String) (v : Int) (hx : x ≠ k) :
    List.lookup x (m.insert k v) = List.lookup x m := by
  have hxk : (x == k) = false := by simpa using hx
  simp only [IndexMap.insert, List.lookup_cons, hxk]
  exact IndexMap.lookup_filter_ne m k x hx

theorem args_done_fold (g : Runtime) :
    ∀ (evs : List ResponseStreamEventUnion) (acc : ResponseAccumulator),
      (∀ e ∈ evs, e.Type_ = "response.function_call_arguments.done") →
      (evs.map (fun e => e.ItemID)).Nodup →
      ∃ final, AddEvents g acc evs = some final ∧
        final.nextToolIndex = acc.nextToolIndex + evs.length ∧
        (∀ (k : Nat) (hk : k < evs.length),
          List.lookup evs[k].ItemID final.toolCallIndices = some (acc.nextToolIndex + k)) ∧
        (∀ x, x ∉ evs.map (fun e => e.ItemID) →
          List.lookup x final.toolCallIndices = List.lookup x acc.toolCallIndices) := by
  intro evs
  induction evs with
  | nil =>
    intro acc _ _
    exact ⟨acc, rfl, by simp, by intro k hk; simp at hk, by intro x _; rfl⟩
  | cons e es ih =>
    intro acc hkind hnd
    have he : e.Type_ = "response.function_call_arguments.done" :=
      hkind e (List.mem_cons_self _ _)
    have hes : ∀ e1 ∈ es, e1.Type_ = "response.function_call_arguments.done" :=
      fun e1 h1 => hkind e1 (List.mem_cons_of_mem _ h1)
    rw [List.map_cons, List.nodup_cons] at hnd
    obtain ⟨hnot, hnd1⟩ := hnd
    obtain ⟨final, hrun, hnext, hidx, hother⟩ := ih (AddEvent g acc e).1 hes hnd1
    have hstep := AddEvent_args_done g acc e he
    have hn1 : (AddEvent g acc e).1.nextToolIndex = acc.nextToolIndex + 1 := by
      rw [hstep]
    have ht1 : (AddEvent g acc e).1.toolCallIndices =
        acc.toolCallIndices.insert e.ItemID acc.nextToolIndex := by
      rw [hstep]
    refine ⟨final, ?_, ?_, ?_, ?_⟩
    · have h2 : (AddEvent g acc e).2 = some true := by rw [hstep]
      have hpair : AddEvent g acc e = ((AddEvent g acc e).1, some true) := by
        rw [← h2]
      rw [AddEvents, hpair]
      exact hrun
    · rw [hnext, hn1, List.length_cons]
      push_cast
      ring
    · intro k hk
      cases k with
      | zero =>
        simp only [List.getElem_cons_zero, Nat.cast_zero, add_zero]
        rw [hother _ hnot, ht1]
        exact IndexMap.lookup_insert_self _ _ _
      | succ k =>
        simp only [List.getElem_cons_succ]
        rw [hidx k (by simpa using hk), hn1]
        push_cast
        congr 1
        ring
    · intro x hx
      rw [List.map_cons, List.mem_cons, not_or] at hx
      rw [hother x hx.2, ht1]
      exact IndexMap.lookup_insert_ne _ _ _ _ hx.1

theorem String.join_snoc (l : List String) (s : String) :
    String.join (l ++ [s]) = String.join l ++ s := by
  simp [String.join, List.foldl_append]

theorem deltasAt_snoc_same (p : Int) (hist : List ResponseStreamEventUnion)
    (e : ResponseStreamEventUnion) (h : e.OutputIndex = p) :
    deltasAt p (hist ++ [e]) = deltasAt p hist ++ e.Delta := by
  simp [deltasAt, List.filter_append, List.filter_cons, h, String.join_snoc]

theorem deltasAt_snoc_other (p : Int) (hist : List ResponseStreamEventUnion)
    (e : ResponseStreamEventUnion) (h : e.OutputIndex ≠ p) :
    deltasAt p (hist ++ [e]) = deltasAt p hist := by
  simp [deltasAt, List.filter_append, List.filter_cons, h]

theorem deltasAt_eq_empty (p : Int) (hist : List ResponseStreamEventUnion)
    (h : ∀ e ∈ hist, e.OutputIndex ≠ p) : deltasAt p hist = "" := by
  have hf : hist.filter (fun e => e.OutputIndex = p) = [] := by
    rw [List.filter_eq_nil_iff]
    intro e he
    simpa using h e he
  simp [deltasAt, hf, String.join]

theorem expand_of_spare_nil (s : Slice ResponseOutputItemUnion) (p : Int)
    (hs : s.spare = []) (hp : 0 ≤ p) :
    expanded s p =
      ⟨s.items ++ List.replicate ((p + 1).toNat - s.items.length) default, []⟩ := by
  obtain ⟨items, spare⟩ := s
  simp only at hs
  subst hs
  unfold expanded
  simp only [Slice.len, Slice.cap, List.length_nil, Nat.cast_zero, add_zero]
  split_ifs with h1
  · have h0 : (p + 1).toNat - items.length = 0 := by omega
    simp [h0]
  · have h3 : min (p + 1).toNat items.length = items.length := by
      apply min_eq_right; omega
    simp [Slice.copy, Slice.zeros, h3]

theorem appendDelta_cons_ok (d : String) (c : ResponseOutputMessageContentUnion)
    (rest : List ResponseOutputMessageContentUnion)
    (h : c.Type_ = "output_text" ∨ c.Type_ = "") :
    appendDelta d (c :: rest) = { c with Text := c.Text ++ d } :: rest := by
  simp [appendDelta, h]

theorem TextInv_step (g : Runtime) (acc : ResponseAccumulator)
    (hist : List ResponseStreamEventUnion) (e : ResponseStreamEventUnion)
    (hinv : TextInv acc hist) (h : e.Type_ = "response.output_text.delta")
    (hp : 0 ≤ e.OutputIndex) (hb : e.OutputIndex < (g.maxLen : Int)) :
    (AddEvent g acc e).2 = some true ∧ TextInv (AddEvent g acc e).1 (hist ++ [e]) := by
  obtain ⟨hsp, hbeyond, hslot⟩ := hinv
  have hexp := expand_of_spare_nil acc.Output e.OutputIndex hsp hp
  have hlt := expand_length_gt acc.Output e.OutputIndex hp
  obtain ⟨item, hget, hidx⟩ := expand_get?_isSome acc.Output e.OutputIndex hp
  have hout : (clearJustFinished acc).Output = acc.Output := rfl
  -- the expanded list satisfies the slot invariant for `hist`
  have hslotL : ∀ (i : Nat) (it : ResponseOutputItemUnion),
      (expanded acc.Output e.OutputIndex).items[i]? = some it →
      (it.Content = [] ∧ ∀ e1 ∈ hist, e1.OutputIndex ≠ (i : Int)) ∨
      (∃ c rest, it.Content = c :: rest ∧ (c.Type_ = "output_text" ∨ c.Type_ = "") ∧
        c.Text = deltasAt (i : Int) hist) := by
    intro i it hit
    by_cases hi : i < acc.Output.items.length
    · rw [expand_getElem?_of_lt acc.Output e.OutputIndex i hi] at hit
      exact hslot i it hit
    · rw [hexp] at hit
      simp only at hit
      rw [List.getElem?_append_right (not_lt.mp hi), List.getElem?_replicate] at hit
      split_ifs at hit
      · simp only [Option.some.injEq] at hit
        subst hit
        exact Or.inl ⟨rfl, hbeyond i (not_lt.mp hi)⟩
  have hpcast : ((e.OutputIndex.toNat : Nat) : Int) = e.OutputIndex := Int.toNat_of_nonneg hp
  rw [AddEvent_text_delta_ok g acc e h _ (expand_of_bound _ _ _ hb)]
  simp only [hout, hget]
  refine ⟨trivial, ?_, ?_, ?_⟩
  · simp [Slice.set, hexp]
  · intro i hi e1 he1
    simp only [Slice.set, List.length_set] at hi
    rw [List.mem_append, List.mem_singleton] at he1
    rcases he1 with he1 | he1
    · exact hbeyond i (le_trans (expand_length_ge _ _) hi) e1 he1
    · subst he1
      omega
  · intro i it hit
    simp only [Slice.set] at hit
    by_cases hip : i = e.OutputIndex.toNat
    · subst hip
      rw [List.getElem?_set_self hlt] at hit
      simp only [Option.some.injEq] at hit
      subst hit
      right
      rw [hpcast]
      rcases hslotL _ item hidx with ⟨hnil, hnone⟩ | ⟨c, rest, hcont, hty, htext⟩
      · rw [hpcast] at hnone
        have hens : ensureContent item = { item with Content := [default] } := by
          rcases ensureContent_cases item with ⟨_, hc⟩ | ⟨hne, _⟩
          · exact hc
          · exact absurd hnil hne
        refine ⟨{ (default : ResponseOutputMessageContentUnion) with Text := e.Delta }, [],
          ?_, Or.inr rfl, ?_⟩
        · rw [hens]
          exact appendDelta_default e.Delta
        · rw [deltasAt_snoc_same _ _ _ rfl, deltasAt_eq_empty _ _ hnone]
          simp
      · rw [hpcast] at htext
        have hens : ensureContent item = item := by
          rcases ensureContent_cases item with ⟨hnil, _⟩ | ⟨_, hc⟩
          · rw [hnil] at hcont
            exact absurd hcont (by simp)
          · exact hc
        refine ⟨{ c with Text := c.Text ++ e.Delta }, rest, ?_, hty, ?_⟩
        · rw [hens, hcont]
          exact appendDelta_cons_ok e.Delta c rest hty
        · rw [deltasAt_snoc_same _ _ _ rfl, ← htext]
    · rw [List.getElem?_set_ne (Ne.symm hip)] at hit
      have hne : e.OutputIndex ≠ (i : Int) := by omega
      rw [deltasAt_snoc_other _ _ _ hne]
      rcases hslotL i it hit with ⟨hnil, hnone⟩ | hcons
      · left
        refine ⟨hnil, ?_⟩
        intro e1 he1
        rw [List.mem_append, List.mem_singleton] at he1
        rcases he1 with he1 | he1
        · exact hnone e1 he1
        · subst he1
          exact hne
      · exact Or.inr hcons

theorem TextInv_fold (g : Runtime) :
    ∀ (evs : List ResponseStreamEventUnion) (acc : ResponseAccumulator)
      (hist : List ResponseStreamEventUnion),
      TextInv acc hist →
      (∀ e ∈ evs, e.Type_ = "response.output_text.delta") →
      (∀ e ∈ evs, 0 ≤ e.OutputIndex) →
      (∀ e ∈ evs, e.OutputIndex < (g.maxLen : Int)) →
      ∃ final, AddEvents g acc evs = some final ∧ TextInv final (hist ++ evs) := by
  intro evs
  induction evs with
  | nil =>
    intro acc hist hinv _ _ _
    exact ⟨acc, rfl, by simpa using hinv⟩
  | cons e es ih =>
    intro acc hist hinv hkind hpos hbound
    obtain ⟨hret, hinv1⟩ := TextInv_step g acc hist e hinv
      (hkind e (List.mem_cons_self _ _)) (hpos e (List.mem_cons_self _ _))
      (hbound e (List.mem_cons_self _ _))
    obtain ⟨final, hrun, hfin⟩ := ih (AddEvent g acc e).1 (hist ++ [e]) hinv1
      (fun e1 h1 => hkind e1 (List.mem_cons_of_mem _ h1))
      (fun e1 h1 => hpos e1 (List.mem_cons_of_mem _ h1))
      (fun e1 h1 => hbound e1 (List.mem_cons_of_mem _ h1))
    refine ⟨final, ?_, by simpa using hfin⟩
    have hpair : AddEvent g acc e = ((AddEvent g acc e).1, some true) := by
      rw [← hret]
    rw [AddEvents, hpair]
    exact hrun

theorem TextInv_new : TextInv NewResponseAccumulator [] := by
  refine ⟨rfl, ?_, ?_⟩
  · intro i _ e he
    simp at he
  · intro i item hit
    simp [NewResponseAccumulator, default, Slice.nil] at hit

theorem AddEvent_text_delta_returns (g : Runtime) (acc : ResponseAccumulator)
    (e : ResponseStreamEventUnion) (h : e.Type_ = "response.output_text.delta") :
    (0 ≤ e.OutputIndex →
      expandToFitResponseOutput g.maxLen acc.Output e.OutputIndex ≠ none →
      (AddEvent g acc e).2 = some true) ∧
    (e.OutputIndex < 0 → (AddEvent g acc e).2 = none) ∧
    (expandToFitResponseOutput g.maxLen acc.Output e.OutputIndex = none →
      (AddEvent g acc e).2 = none) := by
  have hout : (clearJustFinished acc).Output = acc.Output := rfl
  refine ⟨?_, ?_, ?_⟩
  · intro hp hne
    cases hexp : expandToFitResponseOutput g.maxLen acc.Output e.OutputIndex with
    | none => exact absurd hexp hne
    | some out =>
      have ho := expand_some _ _ _ _ hexp
      subst ho
      obtain ⟨item, hget, _⟩ := expand_get?_isSome acc.Output e.OutputIndex hp
      rw [AddEvent_text_delta_ok g acc e h _ hexp]
      simp only [hout, hget]
  · intro hp
    have hlen : e.OutputIndex < acc.Output.len := by
      simp only [Slice.len]
      omega
    have hcap : e.OutputIndex < acc.Output.cap := by
      simp only [Slice.cap]
      omega
    rw [AddEvent_text_delta_ok g acc e h _ (expand_of_cap _ _ _ hcap)]
    simp only [hout, expand_of_lt _ _ hlen]
    simp [Slice.get?, hp]
  · intro hexp
    rw [AddEvent_text_delta_panic g acc e h hexp]

theorem AddEvent_text_done_returns (g : Runtime) (acc : ResponseAccumulator)
    (e : ResponseStreamEventUnion) (h : e.Type_ = "response.output_text.done") :
    (0 ≤ e.OutputIndex →
      expandToFitResponseOutput g.maxLen acc.Output e.OutputIndex ≠ none →
      (AddEvent g acc e).2 = some true) ∧
    (e.OutputIndex < 0 → (AddEvent g acc e).2 = none) ∧
    (expandToFitResponseOutput g.maxLen acc.Output e.OutputIndex = none →
      (AddEvent g acc e).2 = none) := by
  have hout : (clearJustFinished acc).Output = acc.Output := rfl
  refine ⟨?_, ?_, ?_⟩
  · intro hp hne
    cases hexp : expandToFitResponseOutput g.maxLen acc.Output e.OutputIndex with
    | none => exact absurd hexp hne
    | some out =>
      have ho := expand_some _ _ _ _ hexp
      subst ho
      obtain ⟨item, hget, _⟩ := expand_get?_isSome acc.Output e.OutputIndex hp
      rw [AddEvent_text_done_ok g acc e h _ hexp]
      simp only [hout, hget]
      rcases ensureContent_cases item with ⟨_, hc⟩ | ⟨hne, hc⟩
      · rw [hc]
      · rw [hc]
        cases hcont : item.Content with
        | nil => exact absurd hcont hne
        | cons c rest => rfl
  · intro hp
    have hlen : e.OutputIndex < acc.Output.len := by
      simp only [Slice.len]
      omega
    have hcap : e.OutputIndex < acc.Output.cap := by
      simp only [Slice.cap]
      omega
    rw [AddEvent_text_done_ok g acc e h _ (expand_of_cap _ _ _ hcap)]
    simp only [hout, expand_of_lt _ _ hlen]
    simp [Slice.get?, hp]
  · intro hexp
    rw [AddEvent_text_done_panic g acc e h hexp]

/-- `AddEvent` never returns false, and it stops with a panic exactly on a
text-delta or text-done event whose output position is negative or so large
that `make` panics inside `expandToFitResponseOutput`. -/
theorem AddEvent_outcome (g : Runtime) (acc : ResponseAccumulator)
    (e : ResponseStreamEventUnion) :
    (AddEvent g acc e).2 ≠ some false ∧
    ((AddEvent g acc e).2 = none ↔
      (e.Type_ = "response.output_text.delta" ∨ e.Type_ = "response.output_text.done") ∧
        (e.OutputIndex < 0 ∨
          expandToFitResponseOutput g.maxLen acc.Output e.OutputIndex = none)) := by
  rcases kind_cases e with h | h | h | h | h | h | h | h | h | h | h | h | h | h | h | h | h |
    h | h | h
  · simp [AddEvent_created g acc e h, h]
  · simp [AddEvent_in_progress g acc e h, h]
  · simp [AddEvent_completed g acc e h, h]
  · simp [AddEvent_failed g acc e h, h]
  · simp [AddEvent_incomplete g acc e h, h]
  · simp [AddEvent_item_added g acc e h, h]
  · simp [AddEvent_item_done g acc e h, h]
  · obtain ⟨h1, h2, h3⟩ := AddEvent_text_delta_returns g acc e h
    rcases le_or_lt 0 e.OutputIndex with hp | hp
    · by_cases hexp : expandToFitResponseOutput g.maxLen acc.Output e.OutputIndex = none
      · simp [h3 hexp, h, hexp]
      · simp [h1 hp hexp, h, not_lt.mpr hp, hexp]
    · simp [h2 hp, h, hp]
  · obtain ⟨h1, h2, h3⟩ := AddEvent_text_done_returns g acc e h
    rcases le_or_lt 0 e.OutputIndex with hp | hp
    · by_cases hexp : expandToFitResponseOutput g.maxLen acc.Output e.OutputIndex = none
      · simp [h3 hexp, h, hexp]
      · simp [h1 hp hexp, h, not_lt.mpr hp, hexp]
    · simp [h2 hp, h, hp]
  · simp [AddEvent_refusal_delta g acc e h, h]
  · simp [AddEvent_refusal_done g acc e h, h]
  · simp [AddEvent_args_delta g acc e h, h]
  · simp [AddEvent_args_done g acc e h, h]
  · simp [AddEvent_reasoning_done g acc e h, h]
  · simp [AddEvent_audio_done g acc e h, h]
  · simp [AddEvent_file_search g acc e h, h]
  · simp [AddEvent_web_search g acc e h, h]
  · simp [AddEvent_code_interpreter g acc e h, h]
  · simp [AddEvent_error g acc e h, h]
  · rw [AddEvent_unknown g acc e h]
    simp only [recognisedKinds, List.mem_cons, List.mem_singleton, not_or, List.not_mem_nil,
      or_false] at h
    simp [h]

/-! ## Frame lemmas: what `AddEvent` leaves alone -/

theorem AddEvent_text_delta_frame (g : Runtime) (acc : ResponseAccumulator)
    (e : ResponseStreamEventUnion) (h : e.Type_ = "response.output_text.delta") :
    (AddEvent g acc e).1 =
      { clearJustFinished acc with Output := (AddEvent g acc e).1.Output } := by
  rw [AddEvent_text_delta g acc e h]
  split
  · rfl
  · dsimp only
    split <;> rfl

theorem AddEvent_text_done_frame (g : Runtime) (acc : ResponseAccumulator)
    (e : ResponseStreamEventUnion) (h : e.Type_ = "response.output_text.done") :
    (AddEvent g acc e).1 =
      { clearJustFinished acc with
        justFinishedType := "text_done"
        justFinishedText := e.Text
        Output := (AddEvent g acc e).1.Output } := by
  rw [AddEvent_text_done g acc e h]
  split
  · rfl
  · dsimp only
    split
    · rfl
    · split <;> rfl

/-- Outside the five snapshot-replacing kinds, `AddEvent` changes nothing of
the snapshot but its output list. -/
theorem AddEvent_snapshot_frame (g : Runtime) (acc : ResponseAccumulator)
    (e : ResponseStreamEventUnion) (h : e.Type_ ∉ snapshotKinds) :
    (AddEvent g acc e).1.Error = acc.Error ∧ (AddEvent g acc e).1.Status = acc.Status ∧
    (AddEvent g acc e).1.ID = acc.ID := by
  simp only [snapshotKinds, List.mem_cons, List.mem_singleton, not_or, List.not_mem_nil,
    or_false] at h
  obtain ⟨n1, n2, n3, n4, n5⟩ := h
  rcases kind_cases e with h | h | h | h | h | h | h | h | h | h | h | h | h | h | h | h | h |
    h | h | h
  · exact absurd h n1
  · exact absurd h n2
  · exact absurd h n3
  · exact absurd h n4
  · exact absurd h n5
  · rw [AddEvent_item_added g acc e h]
    split_ifs <;> simp [clearJustFinished]
  · simp [AddEvent_item_done g acc e h, clearJustFinished]
  · rw [AddEvent_text_delta_frame g acc e h]
    simp [clearJustFinished]
  · rw [AddEvent_text_done_frame g acc e h]
    simp [clearJustFinished]
  · simp [AddEvent_refusal_delta g acc e h, clearJustFinished]
  · simp [AddEvent_refusal_done g acc e h, clearJustFinished]
  · simp [AddEvent_args_delta g acc e h, clearJustFinished]
  · simp [AddEvent_args_done g acc e h, clearJustFinished]
  · simp [AddEvent_reasoning_done g acc e h, clearJustFinished]
  · simp [AddEvent_audio_done g acc e h, clearJustFinished]
  · simp [AddEvent_file_search g acc e h, clearJustFinished]
  · simp [AddEvent_web_search g acc e h, clearJustFinished]
  · simp [AddEvent_code_interpreter g acc e h, clearJustFinished]
  · simp [AddEvent_error g acc e h, clearJustFinished]
  · simp [AddEvent_unknown g acc e h, clearJustFinished]

/-- Only a `response.function_call_arguments.done` event touches the call-index
table and the next call index. -/
theorem AddEvent_index_frame (g : Runtime) (acc : ResponseAccumulator)
    (e : ResponseStreamEventUnion) (h : e.Type_ ≠ "response.function_call_arguments.done") :
    (AddEvent g acc e).1.toolCallIndices = acc.toolCallIndices ∧
    (AddEvent g acc e).1.nextToolIndex = acc.nextToolIndex := by
  rcases kind_cases e with h1 | h1 | h1 | h1 | h1 | h1 | h1 | h1 | h1 | h1 | h1 | h1 | h1 | h1 |
    h1 | h1 | h1 | h1 | h1 | h1
  · simp [AddEvent_created g acc e h1, clearJustFinished]
  · simp [AddEvent_in_progress g acc e h1, clearJustFinished]
  · simp [AddEvent_completed g acc e h1, clearJustFinished]
  · simp [AddEvent_failed g acc e h1, clearJustFinished]
  · simp [AddEvent_incomplete g acc e h1, clearJustFinished]
  · rw [AddEvent_item_added g acc e h1]
    split_ifs <;> simp [clearJustFinished]
  · simp [AddEvent_item_done g acc e h1, clearJustFinished]
  · rw [AddEvent_text_delta_frame g acc e h1]
    simp [clearJustFinished]
  · rw [AddEvent_text_done_frame g acc e h1]
    simp [clearJustFinished]
  · simp [AddEvent_refusal_delta g acc e h1, clearJustFinished]
  · simp [AddEvent_refusal_done g acc e h1, clearJustFinished]
  · simp [AddEvent_args_delta g acc e h1, clearJustFinished]
  · exact absurd h1 h
  · simp [AddEvent_reasoning_done g acc e h1, clearJustFinished]
  · simp [AddEvent_audio_done g acc e h1, clearJustFinished]
  · simp [AddEvent_file_search g acc e h1, clearJustFinished]
  · simp [AddEvent_web_search g acc e h1, clearJustFinished]
  · simp [AddEvent_code_interpreter g acc e h1, clearJustFinished]
  · simp [AddEvent_error g acc e h1, clearJustFinished]
  · simp [AddEvent_unknown g acc e h1, clearJustFinished]

theorem AddEvent_nextToolIndex_nonneg (g : Runtime) (acc : ResponseAccumulator)
    (e : ResponseStreamEventUnion) (h : 0 ≤ acc.nextToolIndex) :
    0 ≤ (AddEvent g acc e).1.nextToolIndex := by
  by_cases hk : e.Type_ = "response.function_call_arguments.done"
  · rw [AddEvent_args_done g acc e hk]
    show 0 ≤ acc.nextToolIndex + 1
    omega
  · rw [(AddEvent_index_frame g acc e hk).2]
    exact h

/-- In every reachable state the next call index is non-negative. -/
theorem Reachable.nextToolIndex_nonneg (g : Runtime) (acc : ResponseAccumulator)
    (h : Reachable g acc) : 0 ≤ acc.nextToolIndex := by
  induction h with
  | new => decide
  | addEvent acc e _ ih => exact AddEvent_nextToolIndex_nonneg g acc e ih
  | setResponse acc r _ ih => exact ih

/-- A run that returns ends in the state that threading the receiver gives. -/
theorem AddEvents_eq_state (g : Runtime) :
    ∀ (evs : List ResponseStreamEventUnion) (acc final : ResponseAccumulator),
      AddEvents g acc evs = some final → final = AddEventsState g acc evs := by
  intro evs
  induction evs with
  | nil =>
    intro acc final h
    simp only [AddEvents, Option.some.injEq] at h
    simp [AddEventsState, h]
  | cons e es ih =>
    intro acc final h
    rw [AddEvents] at h
    cases hres : (AddEvent g acc e).2 with
    | none =>
      have hpair : AddEvent g acc e = ((AddEvent g acc e).1, none) := by rw [← hres]
      rw [hpair] at h
      simp at h
    | some b =>
      have hpair : AddEvent g acc e = ((AddEvent g acc e).1, some b) := by rw [← hres]
      rw [hpair] at h
      simp only at h
      have := ih _ _ h
      simpa [AddEventsState] using this

theorem edgeTag_ne_error (k : String) (h1 : k ≠ "response.failed") (h2 : k ≠ "error") :
    edgeTag k ≠ "error" := by
  intro h
  unfold edgeTag at h
  rw [if_neg h1] at h
  split_ifs at h <;> contradiction

/-- After a step outside the snapshot-replacing kinds that is not a generic
error event with a non-empty message, no transient error edge is set. -/
theorem AddEvent_no_error_edge (g : Runtime) (acc : ResponseAccumulator)
    (e : ResponseStreamEventUnion) (h : e.Type_ ∉ snapshotKinds)
    (herr : ¬ (e.Type_ = "error" ∧ e.Message ≠ "")) :
    ¬ ((AddEvent g acc e).1.justFinishedType = "error" ∧
        (AddEvent g acc e).1.justFinishedError ≠ "") := by
  simp only [snapshotKinds, List.mem_cons, List.mem_singleton, not_or, List.not_mem_nil,
    or_false] at h
  obtain ⟨_, _, _, n4, _⟩ := h
  by_cases hk : e.Type_ = "error"
  · have hm : e.Message = "" := by
      by_contra hne
      exact herr ⟨hk, hne⟩
    simp [AddEvent_error g acc e hk, hm]
  · intro hc
    have hty := AddEvent_justFinishedType g acc e
    rw [hc.1] at hty
    exact (edgeTag_ne_error e.Type_ n4 hk) hty.symm

/-! ## The persisted error under later events -/

theorem JustFinishedError_step (g : Runtime) (s : ResponseAccumulator)
    (e : ResponseStreamEventUnion) (m : String) (hs : s.Error.Message = m) (hm : m ≠ "")
    (hk : e.Type_ ∉ snapshotKinds) (herr : ¬ (e.Type_ = "error" ∧ e.Message ≠ "")) :
    JustFinishedError (AddEvent g s e).1 = (⟨m⟩, true) ∧ (AddEvent g s e).1.Error.Message = m := by
  have hedge := AddEvent_no_error_edge g s e hk herr
  have hframe := (AddEvent_snapshot_frame g s e hk).1
  have hmsg : (AddEvent g s e).1.Error.Message = m := by rw [hframe, hs]
  refine ⟨?_, hmsg⟩
  unfold JustFinishedError
  rw [if_neg hedge, if_pos (by rw [hmsg]; exact hm), hmsg]

theorem JustFinishedError_fold (g : Runtime) (m : String) (hm : m ≠ "") :
    ∀ (evs : List ResponseStreamEventUnion) (s : ResponseAccumulator),
      s.Error.Message = m → JustFinishedError s = (⟨m⟩, true) →
      (∀ e ∈ evs, e.Type_ ∉ snapshotKinds ∧ ¬ (e.Type_ = "error" ∧ e.Message ≠ "")) →
      JustFinishedError (AddEventsState g s evs) = (⟨m⟩, true) := by
  intro evs
  induction evs with
  | nil =>
    intro s _ hj _
    exact hj
  | cons e es ih =>
    intro s hs _ hall
    obtain ⟨hk, herr⟩ := hall e (List.mem_cons_self _ _)
    obtain ⟨hj1, hs1⟩ := JustFinishedError_step g s e m hs hm hk herr
    have := ih (AddEvent g s e).1 hs1 hj1 (fun e1 h1 => hall e1 (List.mem_cons_of_mem _ h1))
    simpa [AddEventsState] using this

/-! ## The call-index invariant -/

theorem IndexMap.lookup_insert (m : IndexMap) (k x : String) (v : Int) :
    List.lookup x (m.insert k v) = if x = k then some v else List.lookup x m := by
  by_cases hx : x = k
  · subst hx
    simp [IndexMap.lookup_insert_self]
  · simp [hx, IndexMap.lookup_insert_ne m k x v hx]

theorem GetToolCallIndex_of_lookup_some (acc : ResponseAccumulator) (id : String) (i : Int)
    (h : List.lookup id acc.toolCallIndices = some i) : GetToolCallIndex acc id = i := by
  simp [GetToolCallIndex, h]

theorem GetToolCallIndex_of_lookup_none (acc : ResponseAccumulator) (id : String)
    (h : List.lookup id acc.toolCallIndices = none) : GetToolCallIndex acc id = -1 := by
  simp [GetToolCallIndex, h]

theorem lookup_of_GetToolCallIndex_ne (acc : ResponseAccumulator) (id : String)
    (h : GetToolCallIndex acc id ≠ -1) :
    List.lookup id acc.toolCallIndices = some (GetToolCallIndex acc id) := by
  cases hl : List.lookup id acc.toolCallIndices with
  | none => exact absurd (GetToolCallIndex_of_lookup_none acc id hl) h
  | some i => rw [GetToolCallIndex_of_lookup_some acc id i hl]

theorem IndexInv_new : IndexInv NewResponseAccumulator := by
  refine ⟨by decide, ?_, ?_⟩
  · intro id i h
    simp [NewResponseAccumulator] at h
  · intro id1 id2 i h
    simp [NewResponseAccumulator] at h

theorem IndexInv_step (g : Runtime) (acc : ResponseAccumulator)
    (e : ResponseStreamEventUnion) (h : IndexInv acc) : IndexInv (AddEvent g acc e).1 := by
  obtain ⟨hn, hrange, hinj⟩ := h
  by_cases hk : e.Type_ = "response.function_call_arguments.done"
  · have ht : (AddEvent g acc e).1.toolCallIndices =
        acc.toolCallIndices.insert e.ItemID acc.nextToolIndex := by
      rw [AddEvent_args_done g acc e hk]
    have hx : (AddEvent g acc e).1.nextToolIndex = acc.nextToolIndex + 1 := by
      rw [AddEvent_args_done g acc e hk]
    unfold IndexInv
    rw [ht, hx]
    refine ⟨by omega, ?_, ?_⟩
    · intro id i hl
      rw [IndexMap.lookup_insert] at hl
      split_ifs at hl with hid
      · simp only [Option.some.injEq] at hl
        omega
      · have := hrange id i hl
        omega
    · intro id1 id2 i h1 h2
      rw [IndexMap.lookup_insert] at h1 h2
      split_ifs at h1 h2 with hid1 hid2 hid2
      · rw [hid1, hid2]
      · simp only [Option.some.injEq] at h1
        have := hrange id2 i h2
        omega
      · simp only [Option.some.injEq] at h2
        have := hrange id1 i h1
        omega
      · exact hinj id1 id2 i h1 h2
  · obtain ⟨ht, hx⟩ := AddEvent_index_frame g acc e hk
    unfold IndexInv
    rw [ht, hx]
    exact ⟨hn, hrange, hinj⟩

theorem Reachable.indexInv (g : Runtime) (acc : ResponseAccumulator)
    (h : Reachable g acc) : IndexInv acc := by
  induction h with
  | new => exact IndexInv_new
  | addEvent acc e _ ih => exact IndexInv_step g acc e ih
  | setResponse acc r _ ih => exact ih

/-! ## The transient fields after a fold -/

theorem AddEvent_audio_cleared (g : Runtime) (acc : ResponseAccumulator)
    (e : ResponseStreamEventUnion) : (AddEvent g acc e).1.justFinishedAudioTranscript = "" := by
  rcases kind_cases e with h | h | h | h | h | h | h | h | h | h | h | h | h | h | h | h | h |
    h | h | h
  · simp [AddEvent_created g acc e h, clearJustFinished]
  · simp [AddEvent_in_progress g acc e h, clearJustFinished]
  · simp [AddEvent_completed g acc e h, clearJustFinished]
  · simp [AddEvent_failed g acc e h, clearJustFinished]
  · simp [AddEvent_incomplete g acc e h, clearJustFinished]
  · rw [AddEvent_item_added g acc e h]
    split_ifs <;> simp [clearJustFinished]
  · simp [AddEvent_item_done g acc e h, clearJustFinished]
  · rw [AddEvent_text_delta_frame g acc e h]
    simp [clearJustFinished]
  · rw [AddEvent_text_done_frame g acc e h]
    simp [clearJustFinished]
  · simp [AddEvent_refusal_delta g acc e h, clearJustFinished]
  · simp [AddEvent_refusal_done g acc e h, clearJustFinished]
  · simp [AddEvent_args_delta g acc e h, clearJustFinished]
  · simp [AddEvent_args_done g acc e h, clearJustFinished]
  · simp [AddEvent_reasoning_done g acc e h, clearJustFinished]
  · simp [AddEvent_audio_done g acc e h, clearJustFinished]
  · simp [AddEvent_file_search g acc e h, clearJustFinished]
  · simp [AddEvent_web_search g acc e h, clearJustFinished]
  · simp [AddEvent_code_interpreter g acc e h, clearJustFinished]
  · simp [AddEvent_error g acc e h, clearJustFinished]
  · simp [AddEvent_unknown g acc e h, clearJustFinished]

theorem Reachable.audio_empty (g : Runtime) (acc : ResponseAccumulator)
    (h : Reachable g acc) : acc.justFinishedAudioTranscript = "" := by
  induction h with
  | new => rfl
  | addEvent acc e _ _ => exact AddEvent_audio_cleared g acc e
  | setResponse acc r _ ih => exact ih

theorem foundFlags_kind_count (acc : ResponseAccumulator) :
    ((foundFlags acc).take 8).count true ≤ 1 := by
  simp only [foundFlags, JustFinishedText, JustFinishedToolCall, JustFinishedRefusal,
    JustFinishedReasoning, JustFinishedAudioTranscript, JustFinishedFileSearch,
    JustFinishedWebSearch, JustFinishedCodeInterpreter]
  by_cases h1 : acc.justFinishedType = "text_done"
  · simp [h1]
  by_cases h2 : acc.justFinishedType = "function_call_args_done"
  · simp [h2]
  by_cases h3 : acc.justFinishedType = "refusal_done"
  · simp [h3]
  by_cases h4 : acc.justFinishedType = "reasoning_done"
  · simp [h4]
  by_cases h5 : acc.justFinishedType = "audio_transcript_done"
  · simp [h5]
  by_cases h6 : acc.justFinishedType = "file_search_completed"
  · simp [h6]
  by_cases h7 : acc.justFinishedType = "web_search_completed"
  · simp [h7]
  by_cases h8 : acc.justFinishedType = "code_interpreter_completed"
  · simp [h8]
  simp [h1, h2, h3, h4, h5, h6, h7, h8]

theorem foundFlags_error_edge (acc : ResponseAccumulator)
    (h : acc.justFinishedType = "error") : ((foundFlags acc).take 8).count true = 0 := by
  simp [foundFlags, JustFinishedText, JustFinishedToolCall, JustFinishedRefusal,
    JustFinishedReasoning, JustFinishedAudioTranscript, JustFinishedFileSearch,
    JustFinishedWebSearch, JustFinishedCodeInterpreter, h]

theorem foundFlags_split (acc : ResponseAccumulator) :
    (foundFlags acc).count true =
      ((foundFlags acc).take 8).count true + (if (JustFinishedError acc).2 = true then 1 else 0) := by
  have : foundFlags acc = (foundFlags acc).take 8 ++ [(JustFinishedError acc).2] := by
    simp [foundFlags]
  conv_lhs => rw [this]
  rw [List.count_append]
  cases (JustFinishedError acc).2 <;> simp

/-! ## The text-delta case as a function of the output slice -/

theorem ensureContent_ne_nil (item : ResponseOutputItemUnion) :
    (ensureContent item).Content ≠ [] := by
  rcases ensureContent_cases item with ⟨_, h⟩ | ⟨hne, h⟩
  · rw [h]
    simp
  · rw [h]
    exact hne

theorem appendDelta_ne_nil (d : String) :
    ∀ cs : List ResponseOutputMessageContentUnion, cs ≠ [] → appendDelta d cs ≠ [] := by
  intro cs hcs
  cases cs with
  | nil => exact absurd rfl hcs
  | cons c rest =>
    simp only [appendDelta]
    split_ifs <;> simp

theorem appendDelta_appendDelta (d1 d2 : String) :
    ∀ cs : List ResponseOutputMessageContentUnion,
      appendDelta d2 (appendDelta d1 cs) = appendDelta (d1 ++ d2) cs := by
  intro cs
  induction cs with
  | nil => rfl
  | cons c rest ih =>
    by_cases h : c.Type_ = "output_text" ∨ c.Type_ = ""
    · simp [appendDelta, h, String.append_assoc]
    · simp [appendDelta, h, ih]

theorem appendDelta_of_none (d : String) :
    ∀ cs : List ResponseOutputMessageContentUnion,
      (∀ b ∈ cs, ¬ (b.Type_ = "output_text" ∨ b.Type_ = "")) → appendDelta d cs = cs := by
  intro cs
  induction cs with
  | nil => intro _; rfl
  | cons c rest ih =>
    intro h
    have hc := h c (List.mem_cons_self _ _)
    simp only [appendDelta, hc, if_false]
    rw [ih (fun b hb => h b (List.mem_cons_of_mem _ hb))]

theorem appendDelta_split (d : String) (c : ResponseOutputMessageContentUnion)
    (post : List ResponseOutputMessageContentUnion)
    (hc : c.Type_ = "output_text" ∨ c.Type_ = "") :
    ∀ pre : List ResponseOutputMessageContentUnion,
      (∀ b ∈ pre, ¬ (b.Type_ = "output_text" ∨ b.Type_ = "")) →
      appendDelta d (pre ++ c :: post) = pre ++ { c with Text := c.Text ++ d } :: post := by
  intro pre
  induction pre with
  | nil =>
    intro _
    simp [appendDelta, hc]
  | cons b rest ih =>
    intro h
    have hb := h b (List.mem_cons_self _ _)
    have hrest := ih (fun x hx => h x (List.mem_cons_of_mem _ hx))
    show appendDelta d (b :: (rest ++ c :: post)) = _
    simp only [appendDelta, hb, if_false, hrest, List.cons_append]

theorem applyDelta_of_content (d : String) (item : ResponseOutputItemUnion)
    (h : item.Content ≠ []) :
    applyDelta d item = { item with Content := appendDelta d item.Content } := by
  rcases ensureContent_cases item with ⟨h0, _⟩ | ⟨_, he⟩
  · exact absurd h0 h
  · simp [applyDelta, he]

theorem applyDelta_content_ne_nil (d : String) (item : ResponseOutputItemUnion) :
    (applyDelta d item).Content ≠ [] := by
  simp only [applyDelta]
  exact appendDelta_ne_nil d _ (ensureContent_ne_nil item)

theorem applyDelta_applyDelta (d1 d2 : String) (item : ResponseOutputItemUnion) :
    applyDelta d2 (applyDelta d1 item) = applyDelta (d1 ++ d2) item := by
  rw [applyDelta_of_content d2 _ (applyDelta_content_ne_nil d1 item)]
  simp [applyDelta, appendDelta_appendDelta]

theorem AddEvent_text_delta_eq (g : Runtime) (acc : ResponseAccumulator)
    (e : ResponseStreamEventUnion) (h : e.Type_ = "response.output_text.delta")
    (hp : 0 ≤ e.OutputIndex) (out : Slice ResponseOutputItemUnion)
    (hexp : expandToFitResponseOutput g.maxLen acc.Output e.OutputIndex = some out) :
    AddEvent g acc e =
      ({ clearJustFinished acc with
          Output :=
            ⟨out.items.set e.OutputIndex.toNat
                (applyDelta e.Delta (out.items[e.OutputIndex.toNat]?.getD default)),
              out.spare⟩ }, some true) := by
  have ho := expand_some _ _ _ _ hexp
  subst ho
  obtain ⟨item, hget, hidx⟩ := expand_get?_isSome acc.Output e.OutputIndex hp
  have hout : (clearJustFinished acc).Output = acc.Output := rfl
  rw [AddEvent_text_delta_ok g acc e h _ hexp]
  simp only [hout, hget, hidx, Option.getD_some, Slice.set, applyDelta]

theorem expand_maxInt64 (g : Runtime) (s : Slice ResponseOutputItemUnion)
    (hcap : s.cap ≤ maxInt64) : expandToFitResponseOutput g.maxLen s maxInt64 = none := by
  have hm := g.maxLen_lt
  rw [expand_none_iff]
  simp only [maxInt64] at hcap ⊢
  omega

/-! ## Claims -/

/-- C1 (counterexample): one text delta at the largest `int64` position, folded
into a fresh accumulator.  The position is not negative, but `index + 1` is
beyond every length `make` grants, whatever the run time: the fold panics, so
there is no final state whose item at that position holds the delta. -/
theorem C1_counterexample :
    (∀ e ∈ [textDelta maxInt64 "Hello"], e.Type_ = "response.output_text.delta") ∧
    (∀ e ∈ [textDelta maxInt64 "Hello"], 0 ≤ e.OutputIndex) ∧
    AddEvents growExact NewResponseAccumulator [textDelta maxInt64 "Hello"] = none ∧
    (∀ g : Runtime, AddEvents g NewResponseAccumulator [textDelta maxInt64 "Hello"] = none) ∧
    ¬ (∃ final, AddEvents growExact NewResponseAccumulator [textDelta maxInt64 "Hello"] =
        some final ∧
      ∀ p : Int, (∃ e ∈ [textDelta maxInt64 "Hello"], e.OutputIndex = p) →
        ∃ item c rest, final.Output.get? p = some item ∧ item.Content = c :: rest ∧
          c.Text = deltasAt p [textDelta maxInt64 "Hello"]) := by
  have hall : ∀ g : Runtime,
      AddEvents g NewResponseAccumulator [textDelta maxInt64 "Hello"] = none := by
    intro g
    have hexp := expand_maxInt64 g NewResponseAccumulator.Output (by decide)
    have hpanic := AddEvent_text_delta_panic g NewResponseAccumulator
      (textDelta maxInt64 "Hello") rfl hexp
    rw [AddEvents, hpanic]
  refine ⟨by decide, by decide, hall growExact, hall, ?_⟩
  rintro ⟨final, hfinal, _⟩
  rw [hall growExact] at hfinal
  exact absurd hfinal (by simp)

/-- C1 (amended): folding any sequence of `response.output_text.delta` events
whose output positions are non-negative and below the largest length `make`
grants into a fresh accumulator succeeds, and for every position `p` that
occurs in the sequence the first content block of item `p` holds the
concatenation, in fold order, of the deltas addressed to `p`. -/
theorem C1_text_deltas_concatenate (g : Runtime)
    (evs : List ResponseStreamEventUnion)
    (hkind : ∀ e ∈ evs, e.Type_ = "response.output_text.delta")
    (hpos : ∀ e ∈ evs, 0 ≤ e.OutputIndex)
    (hbound : ∀ e ∈ evs, e.OutputIndex < (g.maxLen : Int)) :
    ∃ final, AddEvents g NewResponseAccumulator evs = some final ∧
      ∀ p : Int, (∃ e ∈ evs, e.OutputIndex = p) →
        ∃ item c rest, final.Output.get? p = some item ∧ item.Content = c :: rest ∧
          c.Text = deltasAt p evs := by
  obtain ⟨final, hrun, hinv⟩ :=
    TextInv_fold g evs NewResponseAccumulator [] TextInv_new hkind hpos hbound
  rw [List.nil_append] at hinv
  obtain ⟨_, hbeyond, hslot⟩ := hinv
  refine ⟨final, hrun, ?_⟩
  rintro p ⟨e, he, rfl⟩
  have hp := hpos e he
  have hpcast : ((e.OutputIndex.toNat : Nat) : Int) = e.OutputIndex := Int.toNat_of_nonneg hp
  have hlt : e.OutputIndex.toNat < final.Output.items.length := by
    by_contra hge
    exact hbeyond _ (not_lt.mp hge) e he hpcast.symm
  have hidx := List.getElem?_eq_getElem hlt
  rcases hslot _ _ hidx with ⟨_, hnone⟩ | ⟨c, rest, hcont, _, htext⟩
  · exact absurd hpcast.symm (hnone e he)
  · rw [hpcast] at htext
    exact ⟨_, c, rest, by simp [Slice.get?, not_lt.mpr hp, hidx], hcont, htext⟩

/-- C1 (witness): the deltas "Hello" and " world" at position 0 around a delta at
position 2 give "Hello world" at position 0. -/
theorem C1_text_deltas_concatenate_witness :
    deltasAt 0 [textDelta 0 "Hello", textDelta 2 "Third", textDelta 0 " world"] =
      "Hello world" ∧
    ∃ final, AddEvents growExact NewResponseAccumulator
        [textDelta 0 "Hello", textDelta 2 "Third", textDelta 0 " world"] = some final ∧
      ∀ p : Int, (∃ e ∈ [textDelta 0 "Hello", textDelta 2 "Third", textDelta 0 " world"],
          e.OutputIndex = p) →
        ∃ item c rest, final.Output.get? p = some item ∧ item.Content = c :: rest ∧
          c.Text = deltasAt p [textDelta 0 "Hello", textDelta 2 "Third", textDelta 0 " world"] :=
  ⟨by decide, C1_text_deltas_concatenate growExact
    [textDelta 0 "Hello", textDelta 2 "Third", textDelta 0 " world"] (by decide) (by decide)
    (by decide)⟩

/-- C2 (counterexample): a text-done event at the largest `int64` position.
`make` panics inside `expandToFitResponseOutput`, whatever the run time:
`AddEvent` does not return and the output list has no item at that position. -/
theorem C2_counterexample :
    0 ≤ (textDone maxInt64 "Hello world").OutputIndex ∧
    (AddEvent growExact NewResponseAccumulator (textDone maxInt64 "Hello world")).2 = none ∧
    (AddEvent growExact NewResponseAccumulator (textDone maxInt64 "Hello world")).1.Output.get?
      (textDone maxInt64 "Hello world").OutputIndex = none ∧
    (∀ g : Runtime,
      (AddEvent g NewResponseAccumulator (textDone maxInt64 "Hello world")).2 = none ∧
      (AddEvent g NewResponseAccumulator (textDone maxInt64 "Hello world")).1.Output.get?
        (textDone maxInt64 "Hello world").OutputIndex = none) := by
  have hall : ∀ g : Runtime,
      (AddEvent g NewResponseAccumulator (textDone maxInt64 "Hello world")).2 = none ∧
      (AddEvent g NewResponseAccumulator (textDone maxInt64 "Hello world")).1.Output.get?
        (textDone maxInt64 "Hello world").OutputIndex = none := by
    intro g
    have hexp := expand_maxInt64 g NewResponseAccumulator.Output (by decide)
    rw [AddEvent_text_done_panic g NewResponseAccumulator (textDone maxInt64 "Hello world") rfl
      hexp]
    exact ⟨rfl, by decide⟩
  exact ⟨by decide, (hall growExact).1, (hall growExact).2, hall⟩

/-- C2 (amended): for a `response.output_text.done` event with final text `t`
at a non-negative position `p` that is below the capacity of the output list or
below the largest length `make` grants, `AddEvent` returns true, the output
list then has an item at `p` whose first content block has text `t` and type
`output_text`, and `JustFinishedText` returns `(t, true)`. -/
theorem C2_text_done_sets_final_text (g : Runtime) (acc : ResponseAccumulator)
    (e : ResponseStreamEventUnion) (h : e.Type_ = "response.output_text.done")
    (hp : 0 ≤ e.OutputIndex)
    (hb : e.OutputIndex < acc.Output.cap ∨ e.OutputIndex < (g.maxLen : Int)) :
    (AddEvent g acc e).2 = some true ∧
    (∃ item c rest, (AddEvent g acc e).1.Output.get? e.OutputIndex = some item ∧
      item.Content = c :: rest ∧ c.Text = e.Text ∧ c.Type_ = "output_text") ∧
    JustFinishedText (AddEvent g acc e).1 = (⟨e.Text⟩, true) := by
  have hexp : expandToFitResponseOutput g.maxLen acc.Output e.OutputIndex =
      some (expanded acc.Output e.OutputIndex) := by
    rcases hb with hb | hb
    · exact expand_of_cap _ _ _ hb
    · exact expand_of_bound _ _ _ hb
  obtain ⟨item, hget, hidx⟩ := expand_get?_isSome acc.Output e.OutputIndex hp
  have hlt := expand_length_gt acc.Output e.OutputIndex hp
  have hout : (clearJustFinished acc).Output = acc.Output := rfl
  rw [AddEvent_text_done_ok g acc e h _ hexp]
  simp only [hout, hget]
  rcases ensureContent_cases item with ⟨_, hc⟩ | ⟨hne, hc⟩
  · rw [hc]
    simp [JustFinishedText, Slice.get?, Slice.set, not_lt.mpr hp, hlt]
  · rw [hc]
    cases hcont : item.Content with
    | nil => exact absurd hcont hne
    | cons c rest =>
      simp [JustFinishedText, Slice.get?, Slice.set, not_lt.mpr hp, hlt]

/-- C2 (witness): a text-done event "Hello world" at position 2 of an accumulator
holding one item. -/
theorem C2_text_done_sets_final_text_witness :
    (AddEvent growExact accWithItem (textDone 2 "Hello world")).2 = some true ∧
    (∃ item c rest,
      (AddEvent growExact accWithItem (textDone 2 "Hello world")).1.Output.get?
        (textDone 2 "Hello world").OutputIndex = some item ∧
      item.Content = c :: rest ∧ c.Text = (textDone 2 "Hello world").Text ∧
      c.Type_ = "output_text") ∧
    JustFinishedText (AddEvent growExact accWithItem (textDone 2 "Hello world")).1 =
      (⟨(textDone 2 "Hello world").Text⟩, true) :=
  C2_text_done_sets_final_text growExact accWithItem (textDone 2 "Hello world") rfl (by decide)
    (by decide)

/-- C3: the just-finished queries are edge-triggered.  Whatever the previous
fold left behind, after `AddEvent` each of the eight queries reports found
exactly when the event's kind is the query's own kind. -/
theorem C3_just_finished_edge_triggered (g : Runtime) (acc : ResponseAccumulator)
    (e : ResponseStreamEventUnion) :
    ((JustFinishedText (AddEvent g acc e).1).2 = true ↔
        e.Type_ = "response.output_text.done") ∧
    ((JustFinishedToolCall (AddEvent g acc e).1).2 = true ↔
        e.Type_ = "response.function_call_arguments.done") ∧
    ((JustFinishedRefusal (AddEvent g acc e).1).2 = true ↔
        e.Type_ = "response.refusal.done") ∧
    ((JustFinishedReasoning (AddEvent g acc e).1).2 = true ↔
        e.Type_ = "response.reasoning_text.done") ∧
    ((JustFinishedAudioTranscript (AddEvent g acc e).1).2 = true ↔
        e.Type_ = "response.audio.transcript.done") ∧
    ((JustFinishedFileSearch (AddEvent g acc e).1).2 = true ↔
        e.Type_ = "response.file_search_call.completed") ∧
    ((JustFinishedWebSearch (AddEvent g acc e).1).2 = true ↔
        e.Type_ = "response.web_search_call.completed") ∧
    ((JustFinishedCodeInterpreter (AddEvent g acc e).1).2 = true ↔
        e.Type_ = "response.code_interpreter_call.completed") := by
  have hty := AddEvent_justFinishedType g acc e
  simp only [JustFinishedText, JustFinishedToolCall, JustFinishedRefusal, JustFinishedReasoning,
    JustFinishedAudioTranscript, JustFinishedFileSearch, JustFinishedWebSearch,
    JustFinishedCodeInterpreter, hty]
  rcases kind_cases e with h | h | h | h | h | h | h | h | h | h | h | h | h | h | h | h | h |
    h | h | h
  all_goals first
    | (simp [edgeTag, h]; done)
    | (simp only [recognisedKinds, List.mem_cons, List.mem_singleton, not_or, List.not_mem_nil,
        or_false] at h
       simp [edgeTag, h])

/-- C4: call indices are assigned in first-seen order starting at 0.  Folding
one `response.function_call_arguments.done` event per identifier of a list of
pairwise distinct identifiers into a fresh accumulator succeeds, the `k`-th
identifier gets index `k`, and every identifier not in the list gets -1. -/
theorem C4_indices_first_seen (g : Runtime) (evs : List ResponseStreamEventUnion)
    (hkind : ∀ e ∈ evs, e.Type_ = "response.function_call_arguments.done")
    (hnodup : (evs.map (fun e => e.ItemID)).Nodup) :
    ∃ final, AddEvents g NewResponseAccumulator evs = some final ∧
      (∀ (k : Nat) (hk : k < evs.length), GetToolCallIndex final evs[k].ItemID = k) ∧
      (∀ x, x ∉ evs.map (fun e => e.ItemID) → GetToolCallIndex final x = -1) := by
  obtain ⟨final, hrun, _, hidx, hother⟩ :=
    args_done_fold g evs NewResponseAccumulator hkind hnodup
  refine ⟨final, hrun, ?_, ?_⟩
  · intro k hk
    simp [GetToolCallIndex, hidx k hk, NewResponseAccumulator]
  · intro x hx
    simp [GetToolCallIndex, hother x hx, NewResponseAccumulator]

/-- C4 (witness): the done events for "A" then "B". -/
theorem C4_indices_first_seen_witness :
    ∃ final, AddEvents growExact NewResponseAccumulator [argsDone "A", argsDone "B"] =
        some final ∧
      (∀ (k : Nat) (hk : k < [argsDone "A", argsDone "B"].length),
        GetToolCallIndex final [argsDone "A", argsDone "B"][k].ItemID = k) ∧
      (∀ x, x ∉ [argsDone "A", argsDone "B"].map (fun e => e.ItemID) →
        GetToolCallIndex final x = -1) :=
  C4_indices_first_seen growExact [argsDone "A", argsDone "B"] (by decide) (by decide)

/-- C5 (evaluation at the failing input): after the done events for "A", "B"
and "A" again, the index of "A", which was 0 after the first event, is 2. -/
theorem C5_index_reassigned :
    (AddEvents growExact NewResponseAccumulator [argsDone "A"]).map
        (fun acc => GetToolCallIndex acc "A") = some 0 ∧
    (AddEvents growExact NewResponseAccumulator
        [argsDone "A", argsDone "B", argsDone "A"]).map
        (fun acc => GetToolCallIndex acc "A") = some 2 := by
  decide

/-- C6 (counterexample): folding a `response.completed` event whose snapshot
carries no output items into an accumulator holding one output item leaves
an output list of length 0. -/
theorem C6_counterexample :
    accWithItem.Output.len = 1 ∧
    (AddEvent growExact accWithItem completedEvent).1.Output.len = 0 ∧
    ¬ (accWithItem.Output.len ≤ (AddEvent growExact accWithItem completedEvent).1.Output.len) := by
  decide

/-- C6 (amended): for every event whose kind is not one of the five
snapshot-replacing kinds (created, in progress, completed, failed, incomplete),
the output list after `AddEvent` is at least as long as before. -/
theorem C6_output_never_shrinks (g : Runtime) (acc : ResponseAccumulator)
    (e : ResponseStreamEventUnion) (h : e.Type_ ∉ snapshotKinds) :
    acc.Output.len ≤ (AddEvent g acc e).1.Output.len := by
  simp only [snapshotKinds, List.mem_cons, List.mem_singleton, not_or, List.not_mem_nil,
    or_false] at h
  obtain ⟨n1, n2, n3, n4, n5⟩ := h
  simp only [Slice.len, Nat.cast_le]
  rcases kind_cases e with h | h | h | h | h | h | h | h | h | h | h | h | h | h | h | h | h |
    h | h | h
  · exact absurd h n1
  · exact absurd h n2
  · exact absurd h n3
  · exact absurd h n4
  · exact absurd h n5
  · rw [AddEvent_item_added g acc e h]
    split_ifs
    · simp [Slice.append_items]
    · simp [clearJustFinished]
  · simp [AddEvent_item_done g acc e h, clearJustFinished]
  · exact AddEvent_text_delta_length g acc e h
  · exact AddEvent_text_done_length g acc e h
  · simp [AddEvent_refusal_delta g acc e h, clearJustFinished]
  · simp [AddEvent_refusal_done g acc e h, clearJustFinished]
  · simp [AddEvent_args_delta g acc e h, clearJustFinished]
  · simp [AddEvent_args_done g acc e h, clearJustFinished]
  · simp [AddEvent_reasoning_done g acc e h, clearJustFinished]
  · simp [AddEvent_audio_done g acc e h, clearJustFinished]
  · simp [AddEvent_file_search g acc e h, clearJustFinished]
  · simp [AddEvent_web_search g acc e h, clearJustFinished]
  · simp [AddEvent_code_interpreter g acc e h, clearJustFinished]
  · simp [AddEvent_error g acc e h, clearJustFinished]
  · simp [AddEvent_unknown g acc e h, clearJustFinished]

/-- C6 (witness): a text delta at position 2 of an accumulator holding one item. -/
theorem C6_output_never_shrinks_witness :
    (textDelta 2 "Third").Type_ ∉ snapshotKinds ∧
    accWithItem.Output.len ≤
      (AddEvent growExact accWithItem (textDelta 2 "Third")).1.Output.len :=
  ⟨by decide, C6_output_never_shrinks growExact accWithItem (textDelta 2 "Third") (by decide)⟩

/-- C7 (evaluation at the failing input): the output list of `staleAcc` has
length 0 and capacity 1 over a stale item.  A text delta "new" at position 0
re-slices into the capacity without clearing it, so item 0 is not a fresh item
holding the delta but the stale item, and its text becomes "oldnew". -/
theorem C7_stale_capacity_reused :
    staleAcc.Output.len = 0 ∧
    staleAcc.Output.len ≤ (textDelta 0 "new").OutputIndex ∧
    (AddEvent growExact staleAcc (textDelta 0 "new")).1.Output.get? 0 =
      some { (default : ResponseOutputItemUnion) with Content := [⟨"", "oldnew", ""⟩] } ∧
    ¬ (∃ c, (AddEvent growExact staleAcc (textDelta 0 "new")).1.Output.get? 0 =
      some { (default : ResponseOutputItemUnion) with Content := [c] } ∧
      c.Text = (textDelta 0 "new").Delta) := by
  refine ⟨by decide, by decide, by decide, ?_⟩
  rintro ⟨c, hc, ht⟩
  have h3 : (AddEvent growExact staleAcc (textDelta 0 "new")).1.Output.get? 0 =
      some { (default : ResponseOutputItemUnion) with Content := [⟨"", "oldnew", ""⟩] } := by
    decide
  rw [h3] at hc
  simp only [Option.some.injEq, ResponseOutputItemUnion.mk.injEq, List.cons.injEq, and_true,
    true_and] at hc
  rw [← hc] at ht
  revert ht
  decide

/-- C8: an event whose kind `AddEvent` has no case for is accepted as a no-op:
the call returns true and the snapshot, the call-index table and the next call
index are unchanged. -/
theorem C8_unknown_kind_noop (g : Runtime) (acc : ResponseAccumulator)
    (e : ResponseStreamEventUnion) (h : e.Type_ ∉ recognisedKinds) :
    (AddEvent g acc e).2 = some true ∧
    (AddEvent g acc e).1.toResponse = acc.toResponse ∧
    (AddEvent g acc e).1.toolCallIndices = acc.toolCallIndices ∧
    (AddEvent g acc e).1.nextToolIndex = acc.nextToolIndex := by
  rw [AddEvent_unknown g acc e h]
  simp [clearJustFinished]

/-- C8 (witness): the event kind `response.unknown.event` of the tests. -/
theorem C8_unknown_kind_noop_witness :
    unknownEvent.Type_ ∉ recognisedKinds ∧
    (AddEvent growExact accWithItem unknownEvent).2 = some true ∧
    (AddEvent growExact accWithItem unknownEvent).1.toResponse = accWithItem.toResponse ∧
    (AddEvent growExact accWithItem unknownEvent).1.toolCallIndices =
      accWithItem.toolCallIndices ∧
    (AddEvent growExact accWithItem unknownEvent).1.nextToolIndex =
      accWithItem.nextToolIndex :=
  ⟨by decide, C8_unknown_kind_noop growExact accWithItem unknownEvent (by decide)⟩

/-- C9 (evaluation at the failing input): a text-delta event at output position
-1 makes `AddEvent` stop with an index-out-of-range panic instead of returning
true, and so does a text-done event at that position. -/
theorem C9_negative_position_panics (g : Runtime) :
    (AddEvent g NewResponseAccumulator (textDelta (-1) "x")).2 = none ∧
    (AddEvent g NewResponseAccumulator (textDone (-1) "x")).2 = none := by
  constructor <;> rfl

/-- C10: a lifecycle event (created, in progress, completed, incomplete)
replaces the snapshot by the one carried on the event, returns true, and
leaves the call-index table and the next call index unchanged. -/
theorem C10_lifecycle_replaces_snapshot (g : Runtime) (acc : ResponseAccumulator)
    (e : ResponseStreamEventUnion)
    (h : e.Type_ = "response.created" ∨ e.Type_ = "response.in_progress" ∨
      e.Type_ = "response.completed" ∨ e.Type_ = "response.incomplete") :
    (AddEvent g acc e).1.toResponse = e.Response ∧
    (AddEvent g acc e).1.toolCallIndices = acc.toolCallIndices ∧
    (AddEvent g acc e).1.nextToolIndex = acc.nextToolIndex ∧
    (AddEvent g acc e).2 = some true := by
  rcases h with h | h | h | h
  · simp [AddEvent_created g acc e h, clearJustFinished]
  · simp [AddEvent_in_progress g acc e h, clearJustFinished]
  · simp [AddEvent_completed g acc e h, clearJustFinished]
  · simp [AddEvent_incomplete g acc e h, clearJustFinished]

/-- C10 (witness): a `response.completed` event folded into an accumulator
holding one item and one call index. -/
theorem C10_lifecycle_replaces_snapshot_witness :
    (AddEvent growExact accWithItem completedEvent).1.toResponse = completedEvent.Response ∧
    (AddEvent growExact accWithItem completedEvent).1.toolCallIndices =
      accWithItem.toolCallIndices ∧
    (AddEvent growExact accWithItem completedEvent).1.nextToolIndex =
      accWithItem.nextToolIndex ∧
    (AddEvent growExact accWithItem completedEvent).2 = some true :=
  C10_lifecycle_replaces_snapshot growExact accWithItem completedEvent
    (Or.inr (Or.inr (Or.inl rfl)))

/-- C11: `IsComplete` returns true exactly when the top-level status equals the
completed status value; it is true right after a `response.completed` event
whose snapshot has that status and false right after a lifecycle event whose
snapshot has any other status. -/
theorem C11_is_complete (g : Runtime) (acc : ResponseAccumulator)
    (e : ResponseStreamEventUnion) :
    (IsComplete acc = true ↔ acc.Status = ResponseStatusCompleted) ∧
    (e.Type_ = "response.completed" → e.Response.Status = ResponseStatusCompleted →
      IsComplete (AddEvent g acc e).1 = true) ∧
    ((e.Type_ = "response.created" ∨ e.Type_ = "response.in_progress" ∨
        e.Type_ = "response.completed" ∨ e.Type_ = "response.incomplete") →
      e.Response.Status ≠ ResponseStatusCompleted →
      IsComplete (AddEvent g acc e).1 = false) := by
  refine ⟨by simp [IsComplete], ?_, ?_⟩
  · intro h hs
    simp [IsComplete, AddEvent_completed g acc e h, hs]
  · intro h hs
    rcases h with h | h | h | h
    · simp [IsComplete, AddEvent_created g acc e h, hs]
    · simp [IsComplete, AddEvent_in_progress g acc e h, hs]
    · simp [IsComplete, AddEvent_completed g acc e h, hs]
    · simp [IsComplete, AddEvent_incomplete g acc e h, hs]

/-- C11 (witness): the lifecycle of the tests, a `response.in_progress` event
with status "in_progress" and a `response.completed` event with the completed
status. -/
theorem C11_is_complete_witness :
    IsComplete (AddEvent growExact accWithItem completedEvent).1 = true ∧
    IsComplete (AddEvent growExact accWithItem inProgressEvent).1 = false :=
  ⟨(C11_is_complete growExact accWithItem completedEvent).2.1 rfl rfl,
    (C11_is_complete growExact accWithItem inProgressEvent).2.2 (Or.inr (Or.inl rfl))
      (by decide)⟩

/-- C12: after a `response.failed` event carrying a snapshot whose error
message `m` is non-empty, the accumulator's `Response` is that snapshot and
`JustFinishedError` returns `(m, true)`. -/
theorem C12_failed_sets_error (g : Runtime) (acc : ResponseAccumulator)
    (e : ResponseStreamEventUnion) (h : e.Type_ = "response.failed")
    (hm : e.Response.Error.Message ≠ "") :
    (AddEvent g acc e).1.toResponse = e.Response ∧
    JustFinishedError (AddEvent g acc e).1 = (⟨e.Response.Error.Message⟩, true) ∧
    (AddEvent g acc e).2 = some true := by
  simp [AddEvent_failed g acc e h, JustFinishedError, hm]

/-- C12 (witness): the failed event of the tests, message "Failed to complete". -/
theorem C12_failed_sets_error_witness :
    (AddEvent growExact accWithItem (failedEvent "Failed to complete")).1.toResponse =
      (failedEvent "Failed to complete").Response ∧
    JustFinishedError (AddEvent growExact accWithItem (failedEvent "Failed to complete")).1 =
      (⟨(failedEvent "Failed to complete").Response.Error.Message⟩, true) ∧
    (AddEvent growExact accWithItem (failedEvent "Failed to complete")).2 = some true :=
  C12_failed_sets_error growExact accWithItem (failedEvent "Failed to complete") rfl
    (by decide)

/-- C13 (counterexample): a generic error event with the empty message folded
into a fresh accumulator: `JustFinishedError` reports not found. -/
theorem C13_counterexample :
    (errorEvent "").Type_ = "error" ∧
    JustFinishedError (AddEvent growExact NewResponseAccumulator (errorEvent "")).1 =
      (⟨""⟩, false) ∧
    ¬ (JustFinishedError (AddEvent growExact NewResponseAccumulator (errorEvent "")).1 =
      (⟨(errorEvent "").Message⟩, true)) := by
  decide

/-- C13 (amended): after a generic error event whose message `m` is non-empty,
`JustFinishedError` returns `(m, true)`; after one whose message is empty the
query falls back to the persisted error message: found with that message when
it is non-empty, not found otherwise. -/
theorem C13_error_event_sets_error (g : Runtime) (acc : ResponseAccumulator)
    (e : ResponseStreamEventUnion) (h : e.Type_ = "error") :
    (e.Message ≠ "" → JustFinishedError (AddEvent g acc e).1 = (⟨e.Message⟩, true)) ∧
    (e.Message = "" → acc.Error.Message ≠ "" →
      JustFinishedError (AddEvent g acc e).1 = (⟨acc.Error.Message⟩, true)) ∧
    (e.Message = "" → acc.Error.Message = "" →
      JustFinishedError (AddEvent g acc e).1 = (⟨""⟩, false)) ∧
    (AddEvent g acc e).2 = some true := by
  refine ⟨?_, ?_, ?_, ?_⟩
  · intro hm
    simp [AddEvent_error g acc e h, JustFinishedError, hm]
  · intro hm hp
    simp [AddEvent_error g acc e h, JustFinishedError, hm, hp, clearJustFinished]
  · intro hm hp
    simp [AddEvent_error g acc e h, JustFinishedError, hm, hp, clearJustFinished]
  · simp [AddEvent_error g acc e h]

/-- C13 (witness): the error event of the tests, "Something went wrong"; an
error event with an empty message after a failed response; and an error event
with an empty message on a fresh accumulator. -/
theorem C13_error_event_sets_error_witness :
    JustFinishedError (AddEvent growExact accWithItem (errorEvent "Something went wrong")).1 =
      (⟨(errorEvent "Something went wrong").Message⟩, true) ∧
    JustFinishedError
        (AddEvent growExact (AddEvent growExact accWithItem (failedEvent "Failed")).1
          (errorEvent "")).1 =
      (⟨(AddEvent growExact accWithItem (failedEvent "Failed")).1.Error.Message⟩, true) ∧
    JustFinishedError (AddEvent growExact NewResponseAccumulator (errorEvent "")).1 =
      (⟨""⟩, false) :=
  ⟨(C13_error_event_sets_error growExact accWithItem (errorEvent "Something went wrong")
      rfl).1 (by decide),
    (C13_error_event_sets_error growExact
      (AddEvent growExact accWithItem (failedEvent "Failed")).1 (errorEvent "") rfl).2.1
      rfl (by decide),
    (C13_error_event_sets_error growExact NewResponseAccumulator (errorEvent "") rfl).2.2.1
      rfl rfl⟩

/-- C14 (counterexample): after the failed event "Failed to complete" the query
returns that message; a generic error event "Something went wrong", which does
not replace the snapshot, follows, the run returns, and the query returns the
error event's message instead. -/
theorem C14_counterexample :
    JustFinishedError
        (AddEventsState growExact NewResponseAccumulator [failedEvent "Failed to complete"]) =
      (⟨"Failed to complete"⟩, true) ∧
    (errorEvent "Something went wrong").Type_ ∉ snapshotKinds ∧
    AddEvents growExact NewResponseAccumulator
        [failedEvent "Failed to complete", errorEvent "Something went wrong"] =
      some (AddEventsState growExact NewResponseAccumulator
        [failedEvent "Failed to complete", errorEvent "Something went wrong"]) ∧
    JustFinishedError
        (AddEventsState growExact NewResponseAccumulator
          [failedEvent "Failed to complete", errorEvent "Something went wrong"]) =
      (⟨"Something went wrong"⟩, true) ∧
    ¬ (JustFinishedError
        (AddEventsState growExact NewResponseAccumulator
          [failedEvent "Failed to complete", errorEvent "Something went wrong"]) =
      (⟨"Failed to complete"⟩, true)) := by
  decide

/-- C14 (amended): in a state without a transient error edge (`justFinishedType`
is not "error", or the transient message is empty) `JustFinishedError` returns
the persisted error message with found = true when that message is non-empty
and reports not found when it is empty.  After a `response.failed` event with a
non-empty message `m` it keeps returning `(m, true)` after any number of later
events that neither replace the snapshot nor are generic error events with a
non-empty message. -/
theorem C14_error_fallback (g : Runtime) (acc : ResponseAccumulator)
    (e : ResponseStreamEventUnion) (evs : List ResponseStreamEventUnion) :
    (¬ (acc.justFinishedType = "error" ∧ acc.justFinishedError ≠ "") →
      acc.Error.Message ≠ "" → JustFinishedError acc = (⟨acc.Error.Message⟩, true)) ∧
    (¬ (acc.justFinishedType = "error" ∧ acc.justFinishedError ≠ "") →
      acc.Error.Message = "" → JustFinishedError acc = (⟨""⟩, false)) ∧
    (e.Type_ = "response.failed" → e.Response.Error.Message ≠ "" →
      (∀ e1 ∈ evs, e1.Type_ ∉ snapshotKinds ∧ ¬ (e1.Type_ = "error" ∧ e1.Message ≠ "")) →
      JustFinishedError (AddEventsState g (AddEvent g acc e).1 evs) =
        (⟨e.Response.Error.Message⟩, true)) := by
  refine ⟨?_, ?_, ?_⟩
  · intro hedge hm
    unfold JustFinishedError
    rw [if_neg hedge, if_pos hm]
  · intro hedge hm
    unfold JustFinishedError
    rw [if_neg hedge, if_neg (by simp [hm])]
  · intro h hm hall
    apply JustFinishedError_fold g _ hm evs
    · simp [AddEvent_failed g acc e h]
    · simp [AddEvent_failed g acc e h, JustFinishedError, hm]
    · exact hall

/-- C14 (witness): a fresh accumulator (no edge, no persisted error), the state
two events after a failed response (no edge, persisted error), and a failed
event followed by a text delta and a function-call-arguments done event. -/
theorem C14_error_fallback_witness :
    JustFinishedError
        (AddEventsState growExact NewResponseAccumulator
          [failedEvent "Failed to complete", textDelta 0 "x"]) =
      (⟨(AddEventsState growExact NewResponseAccumulator
          [failedEvent "Failed to complete", textDelta 0 "x"]).Error.Message⟩, true) ∧
    JustFinishedError NewResponseAccumulator = (⟨""⟩, false) ∧
    JustFinishedError
        (AddEventsState growExact
          (AddEvent growExact NewResponseAccumulator (failedEvent "Failed to complete")).1
          [textDelta 0 "x", argsDone "call_123"]) =
      (⟨(failedEvent "Failed to complete").Response.Error.Message⟩, true) :=
  ⟨(C14_error_fallback growExact
      (AddEventsState growExact NewResponseAccumulator
        [failedEvent "Failed to complete", textDelta 0 "x"])
      (failedEvent "Failed to complete") []).1 (by decide) (by decide),
    (C14_error_fallback growExact NewResponseAccumulator
      (failedEvent "Failed to complete") []).2.1 (by decide) (by decide),
    (C14_error_fallback growExact NewResponseAccumulator (failedEvent "Failed to complete")
      [textDelta 0 "x", argsDone "call_123"]).2.2 rfl (by decide) (by decide)⟩

/-- C15: after a `response.function_call_arguments.done` event for item `id`,
`AddEvent` returns true and `JustFinishedToolCall` returns `(call, true)` with
`call.CallID = id` and `call.Index = GetToolCallIndex(id)`; in every state a
program can reach that index is not -1. -/
theorem C15_tool_call_edge (g : Runtime) (acc : ResponseAccumulator)
    (e : ResponseStreamEventUnion)
    (h : e.Type_ = "response.function_call_arguments.done") :
    (AddEvent g acc e).2 = some true ∧
    JustFinishedToolCall (AddEvent g acc e).1 =
      (⟨e.ItemID, GetToolCallIndex (AddEvent g acc e).1 e.ItemID⟩, true) ∧
    (Reachable g acc → GetToolCallIndex (AddEvent g acc e).1 e.ItemID ≠ -1) := by
  have hidx : GetToolCallIndex (AddEvent g acc e).1 e.ItemID = acc.nextToolIndex := by
    simp [GetToolCallIndex, AddEvent_args_done g acc e h, IndexMap.lookup_insert_self]
  refine ⟨by simp [AddEvent_args_done g acc e h], ?_, ?_⟩
  · rw [hidx]
    simp [JustFinishedToolCall, AddEvent_args_done g acc e h]
  · intro hr
    have := Reachable.nextToolIndex_nonneg g acc hr
    rw [hidx]
    omega

/-- C15 (witness): a second done event, for "call_456", on the reachable
accumulator that already holds "call_123". -/
theorem C15_tool_call_edge_witness :
    (AddEvent growExact accWithItem (argsDone "call_456")).2 = some true ∧
    JustFinishedToolCall (AddEvent growExact accWithItem (argsDone "call_456")).1 =
      (⟨"call_456", 1⟩, true) ∧
    GetToolCallIndex (AddEvent growExact accWithItem (argsDone "call_456")).1 "call_456" = 1 ∧
    GetToolCallIndex (AddEvent growExact accWithItem (argsDone "call_456")).1
      (argsDone "call_456").ItemID ≠ -1 :=
  ⟨(C15_tool_call_edge growExact accWithItem (argsDone "call_456") rfl).1, by decide, by decide,
    (C15_tool_call_edge growExact accWithItem (argsDone "call_456") rfl).2.2
      (Reachable.addEvent _ _ (Reachable.addEvent _ _ Reachable.new))⟩

/-- C16: after a `response.output_item.added` event the output list is the
output list before followed by the items of the event's `Response.Output`, in
order; the output slice is untouched when the event carries none; and
`AddEvent` returns true. -/
theorem C16_item_added_appends (g : Runtime) (acc : ResponseAccumulator)
    (e : ResponseStreamEventUnion) (h : e.Type_ = "response.output_item.added") :
    (AddEvent g acc e).1.Output.items = acc.Output.items ++ e.Response.Output.items ∧
    (e.Response.Output.items = [] → (AddEvent g acc e).1.Output = acc.Output) ∧
    (AddEvent g acc e).2 = some true := by
  rw [AddEvent_item_added g acc e h]
  by_cases hl : e.Response.Output.len > 0
  · have hne : e.Response.Output.items ≠ [] := by
      intro hnil
      simp [Slice.len, hnil] at hl
    simp [hl, Slice.append_items, hne]
  · have hnil : e.Response.Output.items = [] := by
      simp only [Slice.len, gt_iff_lt, Nat.cast_pos, not_lt, Nat.le_zero,
        List.length_eq_zero] at hl
      exact hl
    simp [hl, hnil, clearJustFinished]

/-- C16 (witness): the add event of the function-call tests on an accumulator
holding one item, and the add event without items of the text test. -/
theorem C16_item_added_appends_witness :
    (AddEvent growExact accWithItem
        (functionCallAdded "item_123" "call_123" "get_weather" 1)).1.Output.items =
      accWithItem.Output.items ++ [functionCallItem "item_123" "call_123" "get_weather"] ∧
    (AddEvent growExact accWithItem
      { (default : ResponseStreamEventUnion) with Type_ := "response.output_item.added" }).1.Output
      = accWithItem.Output :=
  ⟨(C16_item_added_appends growExact accWithItem
      (functionCallAdded "item_123" "call_123" "get_weather" 1) rfl).1,
    (C16_item_added_appends growExact accWithItem
      { (default : ResponseStreamEventUnion) with Type_ := "response.output_item.added" }
      rfl).2.1 rfl⟩

/-- C17 (evaluation at the failing input): the add event of the test
`FunctionCallAdded` folded into a fresh accumulator.  `AddEvent` returns true
and appends the item, but records no call index for "item_123" (the table stays
empty, the next index stays 0) and sets no edge kind, so the query reports not
found where the test expects found with index 0. -/
theorem C17_function_call_added_not_recorded :
    (AddEvent growExact NewResponseAccumulator
      (functionCallAdded "item_123" "call_123" "get_weather" 0)).2 = some true ∧
    (AddEvent growExact NewResponseAccumulator
      (functionCallAdded "item_123" "call_123" "get_weather" 0)).1.Output.items =
      [functionCallItem "item_123" "call_123" "get_weather"] ∧
    (AddEvent growExact NewResponseAccumulator
      (functionCallAdded "item_123" "call_123" "get_weather" 0)).1.toolCallIndices = [] ∧
    (AddEvent growExact NewResponseAccumulator
      (functionCallAdded "item_123" "call_123" "get_weather" 0)).1.nextToolIndex = 0 ∧
    GetToolCallIndex (AddEvent growExact NewResponseAccumulator
      (functionCallAdded "item_123" "call_123" "get_weather" 0)).1 "item_123" = -1 ∧
    (AddEvent growExact NewResponseAccumulator
      (functionCallAdded "item_123" "call_123" "get_weather" 0)).1.justFinishedType = "" ∧
    JustAddedFunctionCallFound (AddEvent growExact NewResponseAccumulator
      (functionCallAdded "item_123" "call_123" "get_weather" 0)).1 = false := by
  decide

/-- C18 (evaluation at the failing input): the run of the test
`MultipleFunctionCallsWithDeltas`, two function-call add events and then an
arguments delta for the second item.  The run returns, no call index was
recorded, no edge kind is set, and the query reports not found where the test
expects found with index 1. -/
theorem C18_function_call_delta_sets_no_edge :
    AddEvents growExact NewResponseAccumulator
        [functionCallAdded "item_1" "call_1" "get_weather" 0,
          functionCallAdded "item_2" "call_2" "get_time" 1, argsDelta "item_2" "UTC"] =
      some (AddEventsState growExact NewResponseAccumulator
        [functionCallAdded "item_1" "call_1" "get_weather" 0,
          functionCallAdded "item_2" "call_2" "get_time" 1, argsDelta "item_2" "UTC"]) ∧
    (AddEventsState growExact NewResponseAccumulator
        [functionCallAdded "item_1" "call_1" "get_weather" 0,
          functionCallAdded "item_2" "call_2" "get_time" 1,
          argsDelta "item_2" "UTC"]).toolCallIndices = [] ∧
    (AddEventsState growExact NewResponseAccumulator
        [functionCallAdded "item_1" "call_1" "get_weather" 0,
          functionCallAdded "item_2" "call_2" "get_time" 1,
          argsDelta "item_2" "UTC"]).justFinishedType = "" ∧
    JustDeltaFunctionCallFound (AddEventsState growExact NewResponseAccumulator
        [functionCallAdded "item_1" "call_1" "get_weather" 0,
          functionCallAdded "item_2" "call_2" "get_time" 1, argsDelta "item_2" "UTC"]) =
      false := by
  decide

/-- C19: a `response.function_call_arguments.delta` event whose item identifier
has no recorded call index is accepted: `AddEvent` returns true, no edge kind
is set (the delta query reports not found), and the snapshot, the call-index
table and the next call index are unchanged. -/
theorem C19_delta_before_added (g : Runtime) (acc : ResponseAccumulator)
    (e : ResponseStreamEventUnion)
    (h : e.Type_ = "response.function_call_arguments.delta")
    (_hno : GetToolCallIndex acc e.ItemID = -1) :
    (AddEvent g acc e).2 = some true ∧
    (AddEvent g acc e).1.justFinishedType = "" ∧
    JustDeltaFunctionCallFound (AddEvent g acc e).1 = false ∧
    (AddEvent g acc e).1.toResponse = acc.toResponse ∧
    (AddEvent g acc e).1.toolCallIndices = acc.toolCallIndices ∧
    (AddEvent g acc e).1.nextToolIndex = acc.nextToolIndex := by
  simp [AddEvent_args_delta g acc e h, clearJustFinished, JustDeltaFunctionCallFound]

/-- C19 (witness): the delta for "item_unknown" of the test
`FunctionCallDeltaBeforeAdded`, on an accumulator holding one item and one
call index. -/
theorem C19_delta_before_added_witness :
    (AddEvent growExact accWithItem (argsDelta "item_unknown" "value")).2 = some true ∧
    (AddEvent growExact accWithItem (argsDelta "item_unknown" "value")).1.justFinishedType =
      "" ∧
    JustDeltaFunctionCallFound
      (AddEvent growExact accWithItem (argsDelta "item_unknown" "value")).1 = false ∧
    (AddEvent growExact accWithItem (argsDelta "item_unknown" "value")).1.toResponse =
      accWithItem.toResponse ∧
    (AddEvent growExact accWithItem (argsDelta "item_unknown" "value")).1.toolCallIndices =
      accWithItem.toolCallIndices ∧
    (AddEvent growExact accWithItem (argsDelta "item_unknown" "value")).1.nextToolIndex =
      accWithItem.nextToolIndex :=
  C19_delta_before_added growExact accWithItem (argsDelta "item_unknown" "value") rfl
    (by decide)

/-- C20 (evaluation at the failing input): the two add events of the test
`GetFunctionCallMeta` folded into a fresh accumulator.  The run returns and
both items are in the output list, but nothing was registered: the call-index
table is empty and the lookup reports not found for "item_123" and "item_456",
where the test expects found with indices 0 and 1. -/
theorem C20_function_call_meta_not_registered :
    AddEvents growExact NewResponseAccumulator
        [functionCallAdded "item_123" "call_123" "get_weather" 0,
          functionCallAdded "item_456" "call_456" "get_time" 1] =
      some (AddEventsState growExact NewResponseAccumulator
        [functionCallAdded "item_123" "call_123" "get_weather" 0,
          functionCallAdded "item_456" "call_456" "get_time" 1]) ∧
    (AddEventsState growExact NewResponseAccumulator
        [functionCallAdded "item_123" "call_123" "get_weather" 0,
          functionCallAdded "item_456" "call_456" "get_time" 1]).Output.items =
      [functionCallItem "item_123" "call_123" "get_weather",
        functionCallItem "item_456" "call_456" "get_time"] ∧
    (AddEventsState growExact NewResponseAccumulator
        [functionCallAdded "item_123" "call_123" "get_weather" 0,
          functionCallAdded "item_456" "call_456" "get_time" 1]).toolCallIndices = [] ∧
    (GetFunctionCallMeta (AddEventsState growExact NewResponseAccumulator
        [functionCallAdded "item_123" "call_123" "get_weather" 0,
          functionCallAdded "item_456" "call_456" "get_time" 1]) "item_123").2 = false ∧
    (GetFunctionCallMeta (AddEventsState growExact NewResponseAccumulator
        [functionCallAdded "item_123" "call_123" "get_weather" 0,
          functionCallAdded "item_456" "call_456" "get_time" 1]) "item_456").2 = false := by
  decide

/-- C21: in every state reachable from `NewResponseAccumulator` no two distinct
identifiers have the same call index, and every assigned index `i` satisfies
`0 ≤ i < nextToolIndex`, the number of indices handed out so far. -/
theorem C21_indices_never_reused (g : Runtime) (acc : ResponseAccumulator)
    (h : Reachable g acc) :
    (∀ id1 id2 : String, id1 ≠ id2 → GetToolCallIndex acc id1 ≠ -1 →
      GetToolCallIndex acc id1 ≠ GetToolCallIndex acc id2) ∧
    (∀ id : String, GetToolCallIndex acc id ≠ -1 →
      0 ≤ GetToolCallIndex acc id ∧ GetToolCallIndex acc id < acc.nextToolIndex) ∧
    (∀ (id : String) (i : Int), List.lookup id acc.toolCallIndices = some i →
      0 ≤ i ∧ i < acc.nextToolIndex) := by
  obtain ⟨_, hrange, hinj⟩ := Reachable.indexInv g acc h
  refine ⟨?_, ?_, hrange⟩
  · intro id1 id2 hne h1 heq
    have hl1 := lookup_of_GetToolCallIndex_ne acc id1 h1
    have h2 : GetToolCallIndex acc id2 ≠ -1 := by rw [← heq]; exact h1
    have hl2 := lookup_of_GetToolCallIndex_ne acc id2 h2
    rw [← heq] at hl2
    exact hne (hinj id1 id2 _ hl1 hl2)
  · intro id h1
    exact hrange id _ (lookup_of_GetToolCallIndex_ne acc id h1)

/-- C21 (witness): the state after the done events for "A", "B" and "A" again,
where "A" holds index 2 and "B" index 1 of the 3 handed out. -/
theorem C21_indices_never_reused_witness :
    GetToolCallIndex
        (AddEventsState growExact NewResponseAccumulator
          [argsDone "A", argsDone "B", argsDone "A"]) "A" = 2 ∧
    GetToolCallIndex
        (AddEventsState growExact NewResponseAccumulator
          [argsDone "A", argsDone "B", argsDone "A"]) "A" ≠
      GetToolCallIndex
        (AddEventsState growExact NewResponseAccumulator
          [argsDone "A", argsDone "B", argsDone "A"]) "B" ∧
    (0 ≤ GetToolCallIndex
        (AddEventsState growExact NewResponseAccumulator
          [argsDone "A", argsDone "B", argsDone "A"]) "A" ∧
      GetToolCallIndex
        (AddEventsState growExact NewResponseAccumulator
          [argsDone "A", argsDone "B", argsDone "A"]) "A" <
      (AddEventsState growExact NewResponseAccumulator
          [argsDone "A", argsDone "B", argsDone "A"]).nextToolIndex) :=
  ⟨by decide,
    (C21_indices_never_reused growExact _
      (Reachable.addEvent _ (argsDone "A") (Reachable.addEvent _ (argsDone "B")
        (Reachable.addEvent _ (argsDone "A") Reachable.new)))).1 "A" "B" (by decide)
      (by decide),
    (C21_indices_never_reused growExact _
      (Reachable.addEvent _ (argsDone "A") (Reachable.addEvent _ (argsDone "B")
        (Reachable.addEvent _ (argsDone "A") Reachable.new)))).2.1 "A" (by decide)⟩

/-- C22: the call-index table only grows.  In every reachable state an
identifier that has a call index before `AddEvent` has one after it, whatever
the event, and in every state the next index to be assigned does not decrease. -/
theorem C22_table_only_grows (g : Runtime) (acc : ResponseAccumulator)
    (e : ResponseStreamEventUnion) (id : String) :
    (Reachable g acc → GetToolCallIndex acc id ≠ -1 →
      GetToolCallIndex (AddEvent g acc e).1 id ≠ -1) ∧
    acc.nextToolIndex ≤ (AddEvent g acc e).1.nextToolIndex := by
  by_cases hk : e.Type_ = "response.function_call_arguments.done"
  · have ht : (AddEvent g acc e).1.toolCallIndices =
        acc.toolCallIndices.insert e.ItemID acc.nextToolIndex := by
      rw [AddEvent_args_done g acc e hk]
    have hx : (AddEvent g acc e).1.nextToolIndex = acc.nextToolIndex + 1 := by
      rw [AddEvent_args_done g acc e hk]
    refine ⟨?_, by omega⟩
    intro hr h1
    have hn := Reachable.nextToolIndex_nonneg g acc hr
    have hl := lookup_of_GetToolCallIndex_ne acc id h1
    have hl2 : List.lookup id (AddEvent g acc e).1.toolCallIndices =
        some (if id = e.ItemID then acc.nextToolIndex else GetToolCallIndex acc id) := by
      rw [ht, IndexMap.lookup_insert]
      split_ifs
      · rfl
      · exact hl
    rw [GetToolCallIndex_of_lookup_some _ _ _ hl2]
    have hrange := (Reachable.indexInv g acc hr).2.1 id _ hl
    split_ifs <;> omega
  · obtain ⟨ht, hx⟩ := AddEvent_index_frame g acc e hk
    refine ⟨?_, by omega⟩
    intro _ h1
    have : GetToolCallIndex (AddEvent g acc e).1 id = GetToolCallIndex acc id := by
      simp [GetToolCallIndex, ht]
    rw [this]
    exact h1

/-- C22 (witness): "call_123" keeps an index when a done event for the same
identifier is folded into the reachable accumulator that holds it. -/
theorem C22_table_only_grows_witness :
    GetToolCallIndex accWithItem "call_123" ≠ -1 ∧
    GetToolCallIndex (AddEvent growExact accWithItem (argsDone "call_123")).1 "call_123" ≠ -1 :=
  ⟨by decide,
    (C22_table_only_grows growExact accWithItem (argsDone "call_123") "call_123").1
      (Reachable.addEvent _ _ (Reachable.addEvent _ _ Reachable.new)) (by decide)⟩

/-- C29: after a `response.refusal.done` event with final refusal text `r`,
`AddEvent` returns true and `JustFinishedRefusal` returns `(r, true)`, whatever
the state before, refusal deltas folded earlier included. -/
theorem C29_refusal_done (g : Runtime) (acc : ResponseAccumulator)
    (e : ResponseStreamEventUnion) (h : e.Type_ = "response.refusal.done") :
    (AddEvent g acc e).2 = some true ∧
    JustFinishedRefusal (AddEvent g acc e).1 = (⟨e.Refusal⟩, true) := by
  simp [AddEvent_refusal_done g acc e h, JustFinishedRefusal]

/-- C29 (witness): the run of the test `RefusalAccumulation`, two refusal
deltas and then the done event with the full text. -/
theorem C29_refusal_done_witness :
    (AddEventsState growExact NewResponseAccumulator
      [refusalDelta "I cannot", refusalDelta " help with that"]).justFinishedRefusal =
      " help with that" ∧
    JustFinishedRefusal
        (AddEvent growExact
          (AddEventsState growExact NewResponseAccumulator
            [refusalDelta "I cannot", refusalDelta " help with that"])
          (refusalDone "I cannot help with that")).1 =
      (⟨"I cannot help with that"⟩, true) :=
  ⟨by decide,
    (C29_refusal_done growExact _ (refusalDone "I cannot help with that") rfl).2⟩

/-- C30: after a `response.reasoning_text.done` event with final text `t`,
`AddEvent` returns true, `JustFinishedReasoning` returns `(t, true)`, and the
snapshot, the call-index table and the next call index are unchanged. -/
theorem C30_reasoning_done (g : Runtime) (acc : ResponseAccumulator)
    (e : ResponseStreamEventUnion) (h : e.Type_ = "response.reasoning_text.done") :
    (AddEvent g acc e).2 = some true ∧
    JustFinishedReasoning (AddEvent g acc e).1 = (⟨e.Text⟩, true) ∧
    (AddEvent g acc e).1.toResponse = acc.toResponse ∧
    (AddEvent g acc e).1.toolCallIndices = acc.toolCallIndices ∧
    (AddEvent g acc e).1.nextToolIndex = acc.nextToolIndex := by
  simp [AddEvent_reasoning_done g acc e h, JustFinishedReasoning, clearJustFinished]

/-- C30 (witness): the reasoning event of the test `ReasoningAccumulation` on
an accumulator holding one item and one call index. -/
theorem C30_reasoning_done_witness :
    (AddEvent growExact accWithItem (reasoningDone "Step 1: Analyze the problem...")).2 =
      some true ∧
    JustFinishedReasoning
        (AddEvent growExact accWithItem (reasoningDone "Step 1: Analyze the problem...")).1 =
      (⟨(reasoningDone "Step 1: Analyze the problem...").Text⟩, true) ∧
    (AddEvent growExact accWithItem
      (reasoningDone "Step 1: Analyze the problem...")).1.toResponse = accWithItem.toResponse ∧
    (AddEvent growExact accWithItem
      (reasoningDone "Step 1: Analyze the problem...")).1.toolCallIndices =
      accWithItem.toolCallIndices ∧
    (AddEvent growExact accWithItem
      (reasoningDone "Step 1: Analyze the problem...")).1.nextToolIndex =
      accWithItem.nextToolIndex :=
  C30_reasoning_done growExact accWithItem (reasoningDone "Step 1: Analyze the problem...") rfl

/-- C31: for every accumulator state and every built-in tool completed event
with item identifier `id`, after `AddEvent` the matching query returns the
payload carrying `id` with found = true and the other two report not found. -/
theorem C31_builtin_tool_completed (g : Runtime) (acc : ResponseAccumulator)
    (e : ResponseStreamEventUnion) :
    (e.Type_ = "response.file_search_call.completed" →
      (AddEvent g acc e).2 = some true ∧
      JustFinishedFileSearch (AddEvent g acc e).1 = (⟨e.ItemID⟩, true) ∧
      (JustFinishedWebSearch (AddEvent g acc e).1).2 = false ∧
      (JustFinishedCodeInterpreter (AddEvent g acc e).1).2 = false) ∧
    (e.Type_ = "response.web_search_call.completed" →
      (AddEvent g acc e).2 = some true ∧
      JustFinishedWebSearch (AddEvent g acc e).1 = (⟨e.ItemID⟩, true) ∧
      (JustFinishedFileSearch (AddEvent g acc e).1).2 = false ∧
      (JustFinishedCodeInterpreter (AddEvent g acc e).1).2 = false) ∧
    (e.Type_ = "response.code_interpreter_call.completed" →
      (AddEvent g acc e).2 = some true ∧
      JustFinishedCodeInterpreter (AddEvent g acc e).1 = (⟨e.ItemID⟩, true) ∧
      (JustFinishedFileSearch (AddEvent g acc e).1).2 = false ∧
      (JustFinishedWebSearch (AddEvent g acc e).1).2 = false) := by
  refine ⟨?_, ?_, ?_⟩
  · intro h
    simp [AddEvent_file_search g acc e h, JustFinishedFileSearch, JustFinishedWebSearch,
      JustFinishedCodeInterpreter]
  · intro h
    simp [AddEvent_web_search g acc e h, JustFinishedFileSearch, JustFinishedWebSearch,
      JustFinishedCodeInterpreter]
  · intro h
    simp [AddEvent_code_interpreter g acc e h, JustFinishedFileSearch, JustFinishedWebSearch,
      JustFinishedCodeInterpreter]

/-- C31 (witness): the three events of the test, folded one after the other. -/
theorem C31_builtin_tool_completed_witness :
    JustFinishedFileSearch (AddEvent growExact NewResponseAccumulator
      (fileSearchCompleted "fs_123")).1 = (⟨"fs_123"⟩, true) ∧
    JustFinishedWebSearch (AddEvent growExact
      (AddEvent growExact NewResponseAccumulator (fileSearchCompleted "fs_123")).1
      (webSearchCompleted "ws_123")).1 = (⟨"ws_123"⟩, true) ∧
    (JustFinishedFileSearch (AddEvent growExact
      (AddEvent growExact NewResponseAccumulator (fileSearchCompleted "fs_123")).1
      (webSearchCompleted "ws_123")).1).2 = false ∧
    JustFinishedCodeInterpreter (AddEvent growExact accWithItem
      (codeInterpreterCompleted "ci_123")).1 = (⟨"ci_123"⟩, true) :=
  ⟨((C31_builtin_tool_completed growExact NewResponseAccumulator
      (fileSearchCompleted "fs_123")).1 rfl).2.1,
    ((C31_builtin_tool_completed growExact
      (AddEvent growExact NewResponseAccumulator (fileSearchCompleted "fs_123")).1
      (webSearchCompleted "ws_123")).2.1 rfl).2.1,
    ((C31_builtin_tool_completed growExact
      (AddEvent growExact NewResponseAccumulator (fileSearchCompleted "fs_123")).1
      (webSearchCompleted "ws_123")).2.1 rfl).2.2.1,
    ((C31_builtin_tool_completed growExact accWithItem
      (codeInterpreterCompleted "ci_123")).2.2 rfl).2.1⟩

/-- C32: a newly created accumulator is empty: its output list has length 0 (and
capacity 0), `GetToolCallIndex` is -1 for every identifier, `IsComplete` is
false, and each of the nine just-finished queries reports not found. -/
theorem C32_new_accumulator_empty :
    NewResponseAccumulator.Output.len = 0 ∧
    NewResponseAccumulator.Output.cap = 0 ∧
    (∀ id : String, GetToolCallIndex NewResponseAccumulator id = -1) ∧
    IsComplete NewResponseAccumulator = false ∧
    (JustFinishedText NewResponseAccumulator).2 = false ∧
    (JustFinishedToolCall NewResponseAccumulator).2 = false ∧
    (JustFinishedRefusal NewResponseAccumulator).2 = false ∧
    (JustFinishedReasoning NewResponseAccumulator).2 = false ∧
    (JustFinishedAudioTranscript NewResponseAccumulator).2 = false ∧
    (JustFinishedFileSearch NewResponseAccumulator).2 = false ∧
    (JustFinishedWebSearch NewResponseAccumulator).2 = false ∧
    (JustFinishedCodeInterpreter NewResponseAccumulator).2 = false ∧
    (JustFinishedError NewResponseAccumulator).2 = false := by
  refine ⟨by decide, by decide, ?_, by decide, by decide, by decide, by decide, by decide,
    by decide, by decide, by decide, by decide, by decide⟩
  intro id
  simp [GetToolCallIndex, NewResponseAccumulator]

/-- C33: a `response.output_text.done` event always overwrites content block 0
of the addressed item, whatever its kind, whereas a
`response.output_text.delta` event appends to the first block that is an
output-text block or untyped.  On an item whose blocks are a refusal and then
an output-text block holding "Hel", the delta "lo" extends block 1 to "Hello",
but the done event with text "Hello" turns the refusal block into an
output-text block with that text and leaves block 1 at "Hel". -/
theorem C33_text_done_overwrites_block_zero :
    mixedAcc.Output.items = [mixedItem] ∧
    (AddEvent growExact mixedAcc (textDelta 0 "lo")).1.Output.items =
      [{ (default : ResponseOutputItemUnion) with
          Content := [⟨"refusal", "", "No"⟩, ⟨"output_text", "Hello", ""⟩] }] ∧
    (AddEvent growExact mixedAcc (textDone 0 "Hello")).1.Output.items =
      [{ (default : ResponseOutputItemUnion) with
          Content := [⟨"output_text", "Hello", "No"⟩, ⟨"output_text", "Hel", ""⟩] }] := by
  decide

/-- C34: a text delta at a position `p ≥ 0` whose item already has a non-empty
content list.  `AddEvent` returns true, no edge is set, and item `p` is
afterwards the old item with the loop applied to its content.  When some block
is an output-text block or untyped, the text of the first such block becomes
its old text followed by the delta and the other blocks are unchanged; when
there is none, the content list is unchanged. -/
theorem C34_text_delta_existing_content (g : Runtime) (acc : ResponseAccumulator)
    (e : ResponseStreamEventUnion) (item : ResponseOutputItemUnion)
    (h : e.Type_ = "response.output_text.delta") (hp : 0 ≤ e.OutputIndex)
    (hitem : acc.Output.items[e.OutputIndex.toNat]? = some item) (hc : item.Content ≠ []) :
    (AddEvent g acc e).2 = some true ∧
    (AddEvent g acc e).1.Output.get? e.OutputIndex =
      some { item with Content := appendDelta e.Delta item.Content } ∧
    (AddEvent g acc e).1.justFinishedType = "" ∧
    (∀ pre c post, item.Content = pre ++ c :: post →
      (∀ b ∈ pre, ¬ (b.Type_ = "output_text" ∨ b.Type_ = "")) →
      (c.Type_ = "output_text" ∨ c.Type_ = "") →
      appendDelta e.Delta item.Content = pre ++ { c with Text := c.Text ++ e.Delta } :: post) ∧
    ((∀ b ∈ item.Content, ¬ (b.Type_ = "output_text" ∨ b.Type_ = "")) →
      appendDelta e.Delta item.Content = item.Content) := by
  have hlt : e.OutputIndex.toNat < acc.Output.items.length := by
    by_contra hge
    rw [List.getElem?_eq_none (not_lt.mp hge)] at hitem
    exact absurd hitem (by simp)
  have hlt2 : e.OutputIndex < acc.Output.len := by
    simp only [Slice.len]
    omega
  have hcap : e.OutputIndex < acc.Output.cap := by
    simp only [Slice.cap]
    omega
  have hexp : expandToFitResponseOutput g.maxLen acc.Output e.OutputIndex =
      some acc.Output := by
    rw [expand_of_cap _ _ _ hcap, expand_of_lt acc.Output e.OutputIndex hlt2]
  have heq := AddEvent_text_delta_eq g acc e h hp acc.Output hexp
  rw [hitem, Option.getD_some, applyDelta_of_content e.Delta item hc] at heq
  refine ⟨?_, ?_, ?_, ?_, ?_⟩
  · rw [heq]
  · rw [heq]
    simp [Slice.get?, not_lt.mpr hp, hlt]
  · rw [heq]
    rfl
  · intro pre c post hsplit hpre hcq
    rw [hsplit]
    exact appendDelta_split e.Delta c post hcq pre hpre
  · intro hnone
    exact appendDelta_of_none e.Delta item.Content hnone

/-- C34 (witness): the delta "lo" on an item whose blocks are a refusal and an
output-text block holding "Hel", and on an item whose only block is a
refusal. -/
theorem C34_text_delta_existing_content_witness :
    (AddEvent growExact mixedAcc (textDelta 0 "lo")).1.Output.get? 0 =
      some { (default : ResponseOutputItemUnion) with
          Content := [⟨"refusal", "", "No"⟩, ⟨"output_text", "Hello", ""⟩] } ∧
    appendDelta "lo" mixedItem.Content =
      [⟨"refusal", "", "No"⟩] ++ [⟨"output_text", "Hel" ++ "lo", ""⟩] ∧
    appendDelta "lo" refusalItem.Content = refusalItem.Content ∧
    (AddEvent growExact refusalAcc (textDelta 0 "lo")).1.Output.get? 0 = some refusalItem :=
  ⟨((C34_text_delta_existing_content growExact mixedAcc (textDelta 0 "lo") mixedItem rfl
      (by decide) (by decide) (by decide)).2.1).trans (by decide),
    (C34_text_delta_existing_content growExact mixedAcc (textDelta 0 "lo") mixedItem rfl
      (by decide) (by decide) (by decide)).2.2.2.1 [⟨"refusal", "", "No"⟩]
      ⟨"output_text", "Hel", ""⟩ [] (by decide) (by decide) (by decide),
    (C34_text_delta_existing_content growExact refusalAcc (textDelta 0 "lo") refusalItem rfl
      (by decide) (by decide) (by decide)).2.2.2.2 (by decide),
    ((C34_text_delta_existing_content growExact refusalAcc (textDelta 0 "lo") refusalItem
      rfl (by decide) (by decide) (by decide)).2.1).trans (by decide)⟩

/-- C35 (counterexample): after a `response.failed` event with a message and a
`response.output_text.done` event, `JustFinishedText` reports found and so does
`JustFinishedError`, through its fallback to the snapshot's error. -/
theorem C35_counterexample :
    (JustFinishedText (AddEventsState growExact NewResponseAccumulator
      [failedEvent "Failed to complete", textDone 0 "Done"])).2 = true ∧
    (JustFinishedError (AddEventsState growExact NewResponseAccumulator
      [failedEvent "Failed to complete", textDone 0 "Done"])).2 = true ∧
    ¬ ((foundFlags (AddEventsState growExact NewResponseAccumulator
      [failedEvent "Failed to complete", textDone 0 "Done"])).count true ≤ 1) := by
  decide

/-- C35 (amended): in every state at most one of the eight just-finished
queries other than `JustFinishedError` reports found; when the snapshot's error
message is empty at most one of all nine does; and in every state at most two
of the nine do, the second one being `JustFinishedError` answering from the
snapshot's error message. -/
theorem C35_one_edge_or_none (acc : ResponseAccumulator) :
    ((foundFlags acc).take 8).count true ≤ 1 ∧
    (acc.Error.Message = "" → (foundFlags acc).count true ≤ 1) ∧
    (foundFlags acc).count true ≤ 2 ∧
    (1 < (foundFlags acc).count true →
      (JustFinishedError acc).2 = true ∧ acc.Error.Message ≠ "" ∧
      JustFinishedError acc = (⟨acc.Error.Message⟩, true)) := by
  have h8 := foundFlags_kind_count acc
  have hs := foundFlags_split acc
  refine ⟨h8, ?_, ?_, ?_⟩
  · intro hm
    by_cases he : acc.justFinishedType = "error"
    · have h0 := foundFlags_error_edge acc he
      rw [hs, h0]
      split_ifs <;> omega
    · have hf : (JustFinishedError acc).2 = false := by
        simp [JustFinishedError, he, hm]
      rw [hs, hf]
      simpa using h8
  · rw [hs]
    split_ifs <;> omega
  · intro hgt
    by_cases he : acc.justFinishedType = "error"
    · have h0 := foundFlags_error_edge acc he
      rw [hs, h0] at hgt
      split_ifs at hgt <;> omega
    · by_cases hm : acc.Error.Message = ""
      · have hf : (JustFinishedError acc).2 = false := by
          simp [JustFinishedError, he, hm]
        rw [hs, hf] at hgt
        simp at hgt
        omega
      · simp [JustFinishedError, he, hm]

/-- C35 (witness): a state with a text-done edge and an empty snapshot error,
and the state of the counterexample. -/
theorem C35_one_edge_or_none_witness :
    accWithItem.Error.Message = "" ∧
    (foundFlags (AddEvent growExact accWithItem (textDone 0 "Done")).1).count true ≤ 1 ∧
    JustFinishedError (AddEventsState growExact NewResponseAccumulator
      [failedEvent "Failed to complete", textDone 0 "Done"]) =
      (⟨"Failed to complete"⟩, true) :=
  ⟨by decide,
    (C35_one_edge_or_none (AddEvent growExact accWithItem (textDone 0 "Done")).1).2.1
      (by decide),
    ((C35_one_edge_or_none (AddEventsState growExact NewResponseAccumulator
      [failedEvent "Failed to complete", textDone 0 "Done"])).2.2.2 (by decide)).2.2⟩

/-- C36: refusal deltas are not persisted.  For every accumulator state and
every `response.refusal.delta` event, `AddEvent` returns true, leaves the
snapshot (output slice included), the call-index table and the next call index
unchanged, `JustFinishedRefusal` reports not found, and the transient refusal
fragment is the event's delta alone; so after a further refusal delta it is
that event's delta alone. -/
theorem C36_refusal_delta_not_persisted (g : Runtime) (acc : ResponseAccumulator)
    (e : ResponseStreamEventUnion) (h : e.Type_ = "response.refusal.delta") :
    (AddEvent g acc e).2 = some true ∧
    (AddEvent g acc e).1.toResponse = acc.toResponse ∧
    (AddEvent g acc e).1.toolCallIndices = acc.toolCallIndices ∧
    (AddEvent g acc e).1.nextToolIndex = acc.nextToolIndex ∧
    JustFinishedRefusal (AddEvent g acc e).1 = (⟨""⟩, false) ∧
    (AddEvent g acc e).1.justFinishedRefusal = e.Delta ∧
    (∀ e2 : ResponseStreamEventUnion, e2.Type_ = "response.refusal.delta" →
      (AddEvent g (AddEvent g acc e).1 e2).1.justFinishedRefusal = e2.Delta) := by
  have hempty : ∀ s : String, "" ++ s = s := by
    intro s
    apply String.ext
    simp
  refine ⟨?_, ?_, ?_, ?_, ?_, ?_, ?_⟩
  · simp [AddEvent_refusal_delta g acc e h]
  · simp [AddEvent_refusal_delta g acc e h, clearJustFinished]
  · simp [AddEvent_refusal_delta g acc e h, clearJustFinished]
  · simp [AddEvent_refusal_delta g acc e h, clearJustFinished]
  · simp [AddEvent_refusal_delta g acc e h, clearJustFinished, JustFinishedRefusal]
  · simp [AddEvent_refusal_delta g acc e h, hempty]
  · intro e2 h2
    simp [AddEvent_refusal_delta g _ e2 h2, hempty]

/-- C36 (witness): the refusal deltas "I cannot" and " help" folded one after
the other into an accumulator holding an item. -/
theorem C36_refusal_delta_not_persisted_witness :
    (AddEvent growExact accWithItem (refusalDelta "I cannot")).1.toResponse =
      accWithItem.toResponse ∧
    (AddEvent growExact accWithItem (refusalDelta "I cannot")).1.justFinishedRefusal =
      "I cannot" ∧
    (AddEvent growExact (AddEvent growExact accWithItem (refusalDelta "I cannot")).1
      (refusalDelta " help")).1.justFinishedRefusal = " help" :=
  ⟨(C36_refusal_delta_not_persisted growExact accWithItem (refusalDelta "I cannot") rfl).2.1,
    (C36_refusal_delta_not_persisted growExact accWithItem
      (refusalDelta "I cannot") rfl).2.2.2.2.2.1,
    (C36_refusal_delta_not_persisted growExact accWithItem
      (refusalDelta "I cannot") rfl).2.2.2.2.2.2 (refusalDelta " help") rfl⟩

/-- C38: text deltas compose.  For every accumulator state and every position
`p ≥ 0`, folding a text delta `d1` at `p` and then a text delta `d2` at `p`
gives the same result, state and outcome, as folding one text delta `d1 ++ d2`
at `p`; all three calls return true when `p` is below the capacity of the
output list or below the largest length `make` grants. -/
theorem C38_text_deltas_compose (g : Runtime) (acc : ResponseAccumulator)
    (e1 e2 e12 : ResponseStreamEventUnion)
    (h1 : e1.Type_ = "response.output_text.delta") (h2 : e2.Type_ = "response.output_text.delta")
    (h12 : e12.Type_ = "response.output_text.delta") (hp : 0 ≤ e1.OutputIndex)
    (hp2 : e2.OutputIndex = e1.OutputIndex) (hp12 : e12.OutputIndex = e1.OutputIndex)
    (hd : e12.Delta = e1.Delta ++ e2.Delta) :
    AddEvent g (AddEvent g acc e1).1 e2 = AddEvent g acc e12 ∧
    ((e1.OutputIndex < acc.Output.cap ∨ e1.OutputIndex < (g.maxLen : Int)) →
      (AddEvent g acc e1).2 = some true ∧ (AddEvent g (AddEvent g acc e1).1 e2).2 = some true ∧
      (AddEvent g acc e12).2 = some true) := by
  have hq2 : 0 ≤ e2.OutputIndex := by rw [hp2]; exact hp
  have hq12 : 0 ≤ e12.OutputIndex := by rw [hp12]; exact hp
  have heq : AddEvent g (AddEvent g acc e1).1 e2 = AddEvent g acc e12 := by
    cases hexp : expandToFitResponseOutput g.maxLen acc.Output e1.OutputIndex with
    | none =>
      have hexp12 : expandToFitResponseOutput g.maxLen acc.Output e12.OutputIndex = none := by
        rw [hp12]; exact hexp
      rw [AddEvent_text_delta_panic g acc e12 h12 hexp12,
        AddEvent_text_delta_panic g acc e1 h1 hexp]
      have hexp2 : expandToFitResponseOutput g.maxLen (clearJustFinished acc).Output
          e2.OutputIndex = none := by
        rw [hp2]; exact hexp
      rw [AddEvent_text_delta_panic g (clearJustFinished acc) e2 h2 hexp2]
      rfl
    | some out =>
      have ho := expand_some _ _ _ _ hexp
      have hlt : e1.OutputIndex.toNat < out.items.length := by
        rw [ho]
        exact expand_length_gt acc.Output e1.OutputIndex hp
      have hexp12 : expandToFitResponseOutput g.maxLen acc.Output e12.OutputIndex =
          some out := by
        rw [hp12]; exact hexp
      rw [AddEvent_text_delta_eq g acc e12 h12 hq12 out hexp12,
        AddEvent_text_delta_eq g acc e1 h1 hp out hexp]
      have hin : e2.OutputIndex <
          (⟨out.items.set e1.OutputIndex.toNat
              (applyDelta e1.Delta (out.items[e1.OutputIndex.toNat]?.getD default)),
            out.spare⟩ : Slice ResponseOutputItemUnion).cap := by
        simp only [Slice.cap, List.length_set]
        omega
      have hin2 : e2.OutputIndex <
          (⟨out.items.set e1.OutputIndex.toNat
              (applyDelta e1.Delta (out.items[e1.OutputIndex.toNat]?.getD default)),
            out.spare⟩ : Slice ResponseOutputItemUnion).len := by
        simp only [Slice.len, List.length_set]
        omega
      have hexp2 := expand_of_cap g.maxLen _ _ hin
      rw [expand_of_lt _ _ hin2] at hexp2
      rw [AddEvent_text_delta_eq g _ e2 h2 hq2 _ hexp2, hp2, hp12, hd]
      simp only [clearJustFinished, List.getElem?_set_self hlt, Option.getD_some, List.set_set,
        applyDelta_applyDelta]
  refine ⟨heq, ?_⟩
  intro hb
  have hne : expandToFitResponseOutput g.maxLen acc.Output e1.OutputIndex ≠ none := by
    rcases hb with hb | hb
    · rw [expand_of_cap _ _ _ hb]; simp
    · rw [expand_of_bound _ _ _ hb]; simp
  have hne12 : expandToFitResponseOutput g.maxLen acc.Output e12.OutputIndex ≠ none := by
    rw [hp12]; exact hne
  have hr1 := (AddEvent_text_delta_returns g acc e1 h1).1 hp hne
  have hr12 := (AddEvent_text_delta_returns g acc e12 h12).1 hq12 hne12
  refine ⟨hr1, ?_, hr12⟩
  rw [heq]
  exact hr12

/-- C38 (witness): "Hello" then " world" at position 0 of a fresh accumulator
against "Hello world" in one delta. -/
theorem C38_text_deltas_compose_witness :
    AddEvent growExact (AddEvent growExact NewResponseAccumulator (textDelta 0 "Hello")).1
        (textDelta 0 " world") =
      AddEvent growExact NewResponseAccumulator (textDelta 0 "Hello world") ∧
    (AddEvent growExact NewResponseAccumulator (textDelta 0 "Hello world")).2 = some true :=
  ⟨(C38_text_deltas_compose growExact NewResponseAccumulator (textDelta 0 "Hello")
    (textDelta 0 " world") (textDelta 0 "Hello world") rfl rfl rfl (by decide) rfl rfl
    (by decide)).1,
    ((C38_text_deltas_compose growExact NewResponseAccumulator (textDelta 0 "Hello")
    (textDelta 0 " world") (textDelta 0 "Hello world") rfl rfl rfl (by decide) rfl rfl
    (by decide)).2 (by decide)).2.2⟩

/-- C39 (evaluation at the failing input): the output list of `staleAcc` has
length 0 and capacity 1 over a stale item.  Folding the delta at position 0
first re-slices into the capacity, so item 0 is the stale item with text
"olda"; folding the delta at position 1 first allocates a new backing array,
so item 0 is a fresh item with text "a".  The two orders give different output
lists. -/
theorem C39_order_matters_on_stale_capacity :
    (AddEvent growExact (AddEvent growExact staleAcc (textDelta 0 "a")).1
      (textDelta 1 "b")).1.Output.items =
      [{ (default : ResponseOutputItemUnion) with Content := [⟨"", "olda", ""⟩] },
       { (default : ResponseOutputItemUnion) with Content := [⟨"", "b", ""⟩] }] ∧
    (AddEvent growExact (AddEvent growExact staleAcc (textDelta 1 "b")).1
      (textDelta 0 "a")).1.Output.items =
      [{ (default : ResponseOutputItemUnion) with Content := [⟨"", "a", ""⟩] },
       { (default : ResponseOutputItemUnion) with Content := [⟨"", "b", ""⟩] }] ∧
    (AddEvent growExact (AddEvent growExact staleAcc (textDelta 0 "a")).1
      (textDelta 1 "b")).1.Output.items ≠
    (AddEvent growExact (AddEvent growExact staleAcc (textDelta 1 "b")).1
      (textDelta 0 "a")).1.Output.items := by
  decide

/-- C40: in every state a program can reach, the payload returned by
`JustFinishedAudioTranscript` has the empty string as its transcript; right
after a `response.audio.transcript.done` event the query reports found, with
the empty transcript. -/
theorem C40_audio_transcript_empty (g : Runtime) (acc : ResponseAccumulator)
    (h : Reachable g acc) :
    (JustFinishedAudioTranscript acc).1.Transcript = "" ∧
    (∀ e : ResponseStreamEventUnion, e.Type_ = "response.audio.transcript.done" →
      JustFinishedAudioTranscript (AddEvent g acc e).1 = (⟨""⟩, true)) := by
  constructor
  · have ha := Reachable.audio_empty g acc h
    unfold JustFinishedAudioTranscript
    split_ifs
    · exact ha
    · rfl
  · intro e he
    simp [AddEvent_audio_done g acc e he, JustFinishedAudioTranscript, clearJustFinished]

/-- C40 (witness): an accumulator holding an item, before and after the
`response.audio.transcript.done` event of the test. -/
theorem C40_audio_transcript_empty_witness :
    (JustFinishedAudioTranscript accWithItem).1.Transcript = "" ∧
    JustFinishedAudioTranscript (AddEvent growExact accWithItem audioDone).1 = (⟨""⟩, true) :=
  ⟨(C40_audio_transcript_empty growExact accWithItem
      (Reachable.addEvent _ _ (Reachable.addEvent _ _ Reachable.new))).1,
    (C40_audio_transcript_empty growExact accWithItem
      (Reachable.addEvent _ _ (Reachable.addEvent _ _ Reachable.new))).2 audioDone rfl⟩

end Responses

namespace Ssestream

/-! ## The reader: terminal states -/

section ReaderLemmas

variable {T : Type} (decode : String → Option T)

theorem advanceSource_of_terminal (r : Reader) (h : r.err.isSome = true ∨ r.done = true) :
    advanceSource decode r = (none, r) := by
  unfold advanceSource
  rw [if_pos h]

theorem advanceSource_none (r r1 : Reader) (h : advanceSource decode r = (none, r1)) :
    r1.err.isSome = true ∨ r1.done = true := by
  unfold advanceSource at h
  split_ifs at h with ht
  · simp only [Prod.mk.injEq, true_and] at h
    rw [← h]
    exact ht
  · split at h
    · simp at h
    · simp only [Prod.mk.injEq, true_and] at h
      rw [← h]
      exact Or.inr rfl
    · simp only [Prod.mk.injEq, true_and] at h
      rw [← h]
      exact Or.inl rfl

theorem advanceSource_none_again (r r1 : Reader) (h : advanceSource decode r = (none, r1)) :
    advanceSource decode r1 = (none, r1) :=
  advanceSource_of_terminal decode r1 (advanceSource_none decode r r1 h)

theorem fillBuffer_of_terminal (s : Stream T) (ht : s.err.isSome = true ∨ s.done = true)
    (n : Nat) : fillBuffer decode n s = s := by
  cases n with
  | zero => rfl
  | succ n =>
    unfold fillBuffer
    simp only [advanceSource_of_terminal decode s.toReader ht]

end ReaderLemmas

/-! ## A cursor with nothing more to yield -/

section Terminal

variable {T : Type} (decode : String → Option T)

theorem Next_of_terminal (s : Stream T) (hb : s.buffer = [])
    (ht : s.err.isSome = true ∨ s.done = true) : Next decode s = (false, s) := by
  obtain ⟨r, b, c⟩ := s
  simp only at hb ht
  subst hb
  simp [Next, advanceSource_of_terminal decode r ht]

theorem Peek_of_terminal [Inhabited T] (s : Stream T) (hb : s.buffer = [])
    (ht : s.err.isSome = true ∨ s.done = true) : Peek decode s = ((default, false), s) := by
  obtain ⟨r, b, c⟩ := s
  simp only at hb ht
  subst hb
  simp [Peek, advanceSource_of_terminal decode r ht]

theorem PeekN_of_terminal (s : Stream T) (hb : s.buffer = [])
    (ht : s.err.isSome = true ∨ s.done = true) (n : Int) : PeekN decode n s = ([], s) := by
  unfold PeekN
  split_ifs
  · rfl
  · simp [fillBuffer_of_terminal decode s ht, hb]

theorem step_of_terminal [Inhabited T] (s : Stream T) (hb : s.buffer = [])
    (ht : s.err.isSome = true ∨ s.done = true) (op : Op) :
    step decode op s = (nothing s.cur op, s) := by
  cases op with
  | next => simp [step, nothing, Next_of_terminal decode s hb ht, Current]
  | peek => simp [step, nothing, Peek_of_terminal decode s hb ht]
  | peekN n => simp [step, nothing, PeekN_of_terminal decode s hb ht]

theorem run_of_terminal [Inhabited T] (s : Stream T) (hb : s.buffer = [])
    (ht : s.err.isSome = true ∨ s.done = true) (ops : List Op) :
    run decode ops s = (ops.map (nothing s.cur), s) := by
  induction ops with
  | nil => rfl
  | cons op ops ih =>
    simp [run, step_of_terminal decode s hb ht, ih]

/-- When `Next` returns false the buffer is empty and the sticky error or the
terminal flag is set. -/
theorem Next_false (s : Stream T) (h : (Next decode s).1 = false) :
    (Next decode s).2.buffer = [] ∧
    ((Next decode s).2.err.isSome = true ∨ (Next decode s).2.done = true) ∧
    s.buffer = [] ∧
    advanceSource decode s.toReader = (none, (Next decode s).2.toReader) := by
  obtain ⟨r, b, c⟩ := s
  cases b with
  | cons v b => simp [Next] at h
  | nil =>
    cases hadv : advanceSource decode r with
    | mk o r1 =>
      cases o with
      | some v => simp [Next, hadv] at h
      | none =>
        simp only [Next, hadv]
        exact ⟨trivial, advanceSource_none decode r r1 hadv, trivial, trivial⟩

end Terminal

/-! ## Filling the buffer and consuming it -/

section Buffer

variable {T : Type} (decode : String → Option T)

theorem fillBuffer_eq (n : Nat) :
    ∀ s : Stream T, fillBuffer decode n s =
      { toReader := (pull decode n s.toReader).2
        buffer := s.buffer ++ (pull decode n s.toReader).1
        cur := s.cur } := by
  induction n with
  | zero =>
    intro s
    simp [fillBuffer, pull]
  | succ n ih =>
    intro s
    obtain ⟨r, b, c⟩ := s
    cases hadv : advanceSource decode r with
    | mk o r1 =>
      cases o with
      | some v => simp [fillBuffer, pull, hadv, ih]
      | none => simp [fillBuffer, pull, hadv]

theorem nextN_fillBuffer (k : Nat) :
    ∀ s : Stream T,
      nextN decode k (fillBuffer decode (k - s.buffer.length) s) = nextN decode k s := by
  induction k with
  | zero =>
    intro s
    simp [fillBuffer]
  | succ k ih =>
    intro s
    obtain ⟨r, b, c⟩ := s
    cases b with
    | nil =>
      cases hadv : advanceSource decode r with
      | mk o r1 =>
        cases o with
        | some v =>
          have h1 := ih ⟨r1, [], v⟩
          simp only [List.length_nil, Nat.sub_zero] at h1 ⊢
          rw [fillBuffer_eq] at h1
          simp only [fillBuffer, hadv]
          rw [fillBuffer_eq]
          simp only [nextN, Next, hadv, List.nil_append, List.singleton_append, Current] at h1 ⊢
          rw [h1]
        | none =>
          have hagain := advanceSource_none_again decode r r1 hadv
          simp [fillBuffer, hadv, nextN, Next, hagain]
    | cons v b =>
      have h1 := ih ⟨r, b, v⟩
      rw [fillBuffer_eq] at h1
      simp only [List.length_cons, Nat.add_sub_add_right]
      rw [fillBuffer_eq]
      simp only [nextN, Next, List.cons_append, Current] at h1 ⊢
      rw [h1]

theorem nextN_buffer (k : Nat) :
    ∀ s : Stream T, (nextN decode k s).2.buffer = s.buffer.drop k := by
  induction k with
  | zero =>
    intro s
    simp [nextN]
  | succ k ih =>
    intro s
    obtain ⟨r, b, c⟩ := s
    cases b with
    | nil =>
      cases hadv : advanceSource decode r with
      | mk o r1 =>
        cases o with
        | some v => simp [nextN, Next, hadv, ih]
        | none => simp [nextN, Next, hadv, ih]
    | cons v b => simp [nextN, Next, ih]

theorem Peek_Peek [Inhabited T] (s : Stream T) :
    Peek decode (Peek decode s).2 = Peek decode s := by
  obtain ⟨r, b, c⟩ := s
  cases b with
  | cons v b => simp [Peek]
  | nil =>
    cases hadv : advanceSource decode r with
    | mk o r1 =>
      cases o with
      | some v => simp [Peek, hadv]
      | none =>
        have hagain := advanceSource_none_again decode r r1 hadv
        simp [Peek, hadv, hagain]

theorem nextN_PeekN (k : Nat) (s : Stream T) :
    nextN decode k (PeekN decode (k : Int) s).2 = nextN decode k s := by
  unfold PeekN
  split_ifs with h0
  · rfl
  · simp only [Int.toNat_ofNat]
    exact nextN_fillBuffer decode k s

end Buffer

/-! ## Draining a fresh cursor -/

section Drain

variable {T : Type} (decode : String → Option T)

theorem isPing_sentinel : isPing sentinel = false := by decide

theorem advanceSource_ping (f : String) (rest : List String) (e : Option String)
    (hf : isPing f = true) :
    advanceSource decode ⟨⟨f :: rest, e⟩, none, false⟩ =
      advanceSource decode ⟨⟨rest, e⟩, none, false⟩ := by
  simp [advanceSource, readFrame, hf]

theorem drain_ping (f : String) (rest : List String) (e : Option String) (c : T)
    (hf : isPing f = true) (fuel : Nat) :
    drain decode fuel ⟨⟨⟨f :: rest, e⟩, none, false⟩, [], c⟩ =
      drain decode fuel ⟨⟨⟨rest, e⟩, none, false⟩, [], c⟩ := by
  cases fuel with
  | zero => rfl
  | succ fuel => simp only [drain, Next, advanceSource_ping decode f rest e hf]

/-- With more fuel than frames the loop ends: a fresh cursor yields
`yields decode frames` and then stops in the state described by `unread` and
`finalErr`. -/
theorem drain_fresh (e : Option String) :
    ∀ (frames : List String) (c : T) (fuel : Nat), frames.length < fuel →
      drain decode fuel ⟨⟨⟨frames, e⟩, none, false⟩, [], c⟩ =
        some (yields decode frames,
          ⟨⟨⟨unread decode frames, e⟩, finalErr decode e frames,
              (finalErr decode e frames).isNone⟩, [],
            ((yields decode frames).getLast?).getD c⟩) := by
  intro frames
  induction frames with
  | nil =>
    intro c fuel hfuel
    cases fuel with
    | zero => simp at hfuel
    | succ fuel =>
      cases e with
      | none => simp [drain, Next, advanceSource, readFrame, yields, unread, finalErr]
      | some m => simp [drain, Next, advanceSource, readFrame, yields, unread, finalErr]
  | cons f rest ih =>
    intro c fuel hfuel
    simp only [List.length_cons] at hfuel
    by_cases hp : isPing f = true
    · rw [drain_ping decode f rest e c hp, ih c fuel (by omega)]
      simp [yields, unread, finalErr, hp]
    · by_cases hs : f = sentinel
      · cases fuel with
        | zero => simp at hfuel
        | succ fuel =>
          simp [drain, Next, advanceSource, readFrame, yields, unread, finalErr, hp, hs,
            isPing_sentinel]
      · cases fuel with
        | zero => simp at hfuel
        | succ fuel =>
          cases hd : decode f with
          | none =>
            simp [drain, Next, advanceSource, readFrame, yields, unread, finalErr, hp, hs, hd]
          | some v =>
            have h1 := ih v fuel (by omega)
            simp only [drain, Next, advanceSource, readFrame, hp, hs, hd, Bool.false_eq_true,
              if_false, Option.isSome_none, or_self, Current]
            rw [h1]
            simp only [yields, unread, finalErr, hp, hs, hd, Bool.false_eq_true, if_false,
              Option.map_some', Option.some.injEq, Prod.mk.injEq, true_and]
            cases hy : (yields decode rest).getLast? with
            | none =>
              rw [List.getLast?_eq_none_iff] at hy
              simp [hy]
            | some w =>
              rw [List.getLast?_cons, hy]
              simp

theorem yields_filter (frames : List String) :
    yields decode (frames.filter (fun f => !isPing f)) = yields decode frames := by
  induction frames with
  | nil => rfl
  | cons f rest ih =>
    by_cases hp : isPing f = true
    · simp [List.filter_cons, yields, hp, ih]
    · have hp2 : isPing f = false := by simpa using hp
      simp [List.filter_cons, yields, hp2, ih]

theorem finalErr_filter (e : Option String) (frames : List String) :
    finalErr decode e (frames.filter (fun f => !isPing f)) = finalErr decode e frames := by
  induction frames with
  | nil => rfl
  | cons f rest ih =>
    by_cases hp : isPing f = true
    · simp [List.filter_cons, finalErr, hp, ih]
    · have hp2 : isPing f = false := by simpa using hp
      simp [List.filter_cons, finalErr, hp2, ih]

/-- Without a sentinel and without a malformed frame every non-ping frame is
yielded and no error remains. -/
theorem yields_wellformed (e : Option String) (frames : List String)
    (h : ∀ f ∈ frames, isPing f = false → f ≠ sentinel ∧ (decode f).isSome = true) :
    yields decode frames = (frames.filter (fun f => !isPing f)).filterMap decode ∧
    finalErr decode e frames = e := by
  induction frames with
  | nil => exact ⟨rfl, rfl⟩
  | cons f rest ih =>
    obtain ⟨ih1, ih2⟩ := ih (fun g hg => h g (List.mem_cons_of_mem _ hg))
    by_cases hp : isPing f = true
    · simp [List.filter_cons, yields, finalErr, hp, ih1, ih2]
    · have hp2 : isPing f = false := by simpa using hp
      obtain ⟨hs, hd⟩ := h f (List.mem_cons_self _ _) hp2
      obtain ⟨v, hv⟩ := Option.isSome_iff_exists.mp hd
      simp [List.filter_cons, yields, finalErr, hp2, hs, hv, ih1, ih2]

end Drain

/-! ## Frames after the sentinel are never read -/

section Sentinel

variable {T : Type} (decode : String → Option T) (post : List String)

theorem readFrame_same (e1 e2 : Option String) :
    ∀ p : List String,
      (readFrame decode (p ++ sentinel :: post) e1).1 =
        (readFrame decode (p ++ [sentinel]) e2).1 ∧
      ((readFrame decode (p ++ sentinel :: post) e1).1 = Read.ended ∨
        ∃ p1, (readFrame decode (p ++ sentinel :: post) e1).2 = p1 ++ sentinel :: post ∧
          (readFrame decode (p ++ [sentinel]) e2).2 = p1 ++ [sentinel]) := by
  intro p
  induction p with
  | nil => simp [readFrame, isPing_sentinel]
  | cons f rest ih =>
    by_cases hp : isPing f = true
    · simpa [readFrame, hp] using ih
    · have hp2 : isPing f = false := by simpa using hp
      by_cases hs : f = sentinel
      · simp [readFrame, hp2, hs, isPing_sentinel]
      · cases hd : decode f with
        | none =>
          simp only [List.cons_append, readFrame, hp2, hs, hd, Bool.false_eq_true, if_false,
            true_and]
          exact Or.inr ⟨rest, rfl, rfl⟩
        | some v =>
          simp only [List.cons_append, readFrame, hp2, hs, hd, Bool.false_eq_true, if_false,
            true_and]
          exact Or.inr ⟨rest, rfl, rfl⟩

theorem advanceSource_same (r1 r2 : Reader) (h : ReaderSame post r1 r2) :
    (advanceSource decode r1).1 = (advanceSource decode r2).1 ∧
    ReaderSame post (advanceSource decode r1).2 (advanceSource decode r2).2 := by
  obtain ⟨⟨f1, e1⟩, err1, done1⟩ := r1
  obtain ⟨⟨f2, e2⟩, err2, done2⟩ := r2
  obtain ⟨herr, hdone, hrel⟩ := h
  simp only at herr hdone hrel
  subst herr
  subst hdone
  by_cases ht : err1.isSome = true ∨ done1 = true
  · simp only [advanceSource, ht, if_true]
    exact ⟨by first | rfl | trivial, rfl, rfl, hrel⟩
  · have hd : done1 = false := by
      cases done1 with
      | false => rfl
      | true => exact absurd (Or.inr rfl) ht
    subst hd
    rcases hrel with hrel | ⟨p, hp1, hp2⟩
    · exact absurd hrel (by simp)
    · subst hp1
      subst hp2
      obtain ⟨hout, hrest⟩ := readFrame_same decode post e1 e2 p
      simp only [advanceSource, ht, if_false]
      cases ha : readFrame decode (p ++ sentinel :: post) e1 with
      | mk o1 rest1 =>
        cases hb : readFrame decode (p ++ [sentinel]) e2 with
        | mk o2 rest2 =>
          rw [ha, hb] at hout hrest
          simp only at hout hrest
          subst hout
          cases o1 with
          | value v =>
            rcases hrest with hrest | hrest
            · exact absurd hrest (by simp)
            · exact ⟨rfl, rfl, rfl, Or.inr hrest⟩
          | ended => exact ⟨rfl, rfl, rfl, Or.inl rfl⟩
          | failed m =>
            rcases hrest with hrest | hrest
            · exact absurd hrest (by simp)
            · exact ⟨rfl, rfl, rfl, Or.inr hrest⟩

theorem Next_same (s1 s2 : Stream T) (h : SameUpToSentinel post s1 s2) :
    (Next decode s1).1 = (Next decode s2).1 ∧
    SameUpToSentinel post (Next decode s1).2 (Next decode s2).2 := by
  obtain ⟨r1, b1, c1⟩ := s1
  obtain ⟨r2, b2, c2⟩ := s2
  obtain ⟨hr, hb, hc⟩ := h
  simp only at hr hb hc
  subst hb
  subst hc
  cases b1 with
  | cons v b => exact ⟨rfl, hr, rfl, rfl⟩
  | nil =>
    obtain ⟨ho, hr1⟩ := advanceSource_same decode post r1 r2 hr
    cases ha : advanceSource decode r1 with
    | mk o1 n1 =>
      cases hb : advanceSource decode r2 with
      | mk o2 n2 =>
        rw [ha, hb] at ho hr1
        simp only at ho hr1
        subst ho
        cases o1 with
        | some v =>
          simp only [Next, ha, hb]
          exact ⟨by first | rfl | trivial, hr1, rfl, rfl⟩
        | none =>
          simp only [Next, ha, hb]
          exact ⟨by first | rfl | trivial, hr1, rfl, rfl⟩

theorem Peek_same [Inhabited T] (s1 s2 : Stream T) (h : SameUpToSentinel post s1 s2) :
    (Peek decode s1).1 = (Peek decode s2).1 ∧
    SameUpToSentinel post (Peek decode s1).2 (Peek decode s2).2 := by
  obtain ⟨r1, b1, c1⟩ := s1
  obtain ⟨r2, b2, c2⟩ := s2
  obtain ⟨hr, hb, hc⟩ := h
  simp only at hr hb hc
  subst hb
  subst hc
  cases b1 with
  | cons v b => exact ⟨rfl, hr, rfl, rfl⟩
  | nil =>
    obtain ⟨ho, hr1⟩ := advanceSource_same decode post r1 r2 hr
    cases ha : advanceSource decode r1 with
    | mk o1 n1 =>
      cases hb : advanceSource decode r2 with
      | mk o2 n2 =>
        rw [ha, hb] at ho hr1
        simp only at ho hr1
        subst ho
        cases o1 with
        | some v =>
          simp only [Peek, ha, hb]
          exact ⟨by first | rfl | trivial, hr1, rfl, rfl⟩
        | none =>
          simp only [Peek, ha, hb]
          exact ⟨by first | rfl | trivial, hr1, rfl, rfl⟩

theorem fillBuffer_same (n : Nat) :
    ∀ s1 s2 : Stream T, SameUpToSentinel post s1 s2 →
      SameUpToSentinel post (fillBuffer decode n s1) (fillBuffer decode n s2) := by
  induction n with
  | zero =>
    intro s1 s2 h
    exact h
  | succ n ih =>
    intro s1 s2 h
    obtain ⟨r1, b1, c1⟩ := s1
    obtain ⟨r2, b2, c2⟩ := s2
    obtain ⟨hr, hb, hc⟩ := h
    simp only at hr hb hc
    subst hb
    subst hc
    obtain ⟨ho, hr1⟩ := advanceSource_same decode post r1 r2 hr
    cases ha : advanceSource decode r1 with
    | mk o1 n1 =>
      cases hb : advanceSource decode r2 with
      | mk o2 n2 =>
        rw [ha, hb] at ho hr1
        simp only at ho hr1
        subst ho
        cases o1 with
        | some v =>
          simp only [fillBuffer, ha, hb]
          exact ih _ _ ⟨hr1, rfl, rfl⟩
        | none =>
          simp only [fillBuffer, ha, hb]
          exact ⟨hr1, rfl, rfl⟩

theorem PeekN_same (n : Int) (s1 s2 : Stream T) (h : SameUpToSentinel post s1 s2) :
    (PeekN decode n s1).1 = (PeekN decode n s2).1 ∧
    SameUpToSentinel post (PeekN decode n s1).2 (PeekN decode n s2).2 := by
  unfold PeekN
  split_ifs
  · exact ⟨rfl, h⟩
  · have hb : s1.buffer = s2.buffer := h.2.1
    rw [hb]
    have hf := fillBuffer_same decode post (n.toNat - s2.buffer.length) s1 s2 h
    dsimp only
    exact ⟨by rw [hf.2.1], hf⟩

theorem step_same [Inhabited T] (op : Op) (s1 s2 : Stream T)
    (h : SameUpToSentinel post s1 s2) :
    (step decode op s1).1 = (step decode op s2).1 ∧
    SameUpToSentinel post (step decode op s1).2 (step decode op s2).2 := by
  cases op with
  | next =>
    obtain ⟨h1, h2⟩ := Next_same decode post s1 s2 h
    simp only [step, Current]
    exact ⟨by rw [h1, h2.2.2], h2⟩
  | peek =>
    obtain ⟨h1, h2⟩ := Peek_same decode post s1 s2 h
    simp only [step]
    exact ⟨by rw [h1], h2⟩
  | peekN n =>
    obtain ⟨h1, h2⟩ := PeekN_same decode post n s1 s2 h
    simp only [step]
    exact ⟨by rw [h1], h2⟩

theorem run_same [Inhabited T] (ops : List Op) :
    ∀ s1 s2 : Stream T, SameUpToSentinel post s1 s2 →
      (run decode ops s1).1 = (run decode ops s2).1 := by
  induction ops with
  | nil =>
    intro s1 s2 _
    rfl
  | cons op ops ih =>
    intro s1 s2 h
    obtain ⟨h1, h2⟩ := step_same decode post op s1 s2 h
    simp only [run]
    rw [h1, ih _ _ h2]

end Sentinel

/-! ## Further lemmas for the claims on the cursor -/

theorem yields_before_sentinel {T : Type} (decode : String → Option T) (e : Option String)
    (post : List String) :
    ∀ pre : List String,
      (∀ f ∈ pre, isPing f = false → f ≠ sentinel ∧ (decode f).isSome = true) →
      yields decode (pre ++ sentinel :: post) =
          (pre.filter (fun f => !isPing f)).filterMap decode ∧
        unread decode (pre ++ sentinel :: post) = post ∧
        finalErr decode e (pre ++ sentinel :: post) = none := by
  intro pre
  induction pre with
  | nil =>
    intro _
    simp [yields, unread, finalErr, isPing_sentinel]
  | cons f rest ih =>
    intro h
    obtain ⟨ih1, ih2, ih3⟩ := ih (fun g hg => h g (List.mem_cons_of_mem _ hg))
    by_cases hp : isPing f = true
    · simp [List.filter_cons, yields, unread, finalErr, hp, ih1, ih2, ih3]
    · have hp2 : isPing f = false := by simpa using hp
      obtain ⟨hs, hd⟩ := h f (List.mem_cons_self _ _) hp2
      obtain ⟨v, hv⟩ := Option.isSome_iff_exists.mp hd
      simp [List.filter_cons, yields, unread, finalErr, hp2, hs, hv, ih1, ih2, ih3]

theorem Next_Peek {T : Type} [Inhabited T] (decode : String → Option T) (s : Stream T) :
    Next decode (Peek decode s).2 = Next decode s ∧
    (Peek decode s).1 =
      (if (Next decode s).1 = true then (Current (Next decode s).2, true)
       else (default, false)) := by
  obtain ⟨r, b, c⟩ := s
  cases b with
  | cons v b => simp [Peek, Next, Current]
  | nil =>
    cases hadv : advanceSource decode r with
    | mk o r1 =>
      cases o with
      | some v => simp [Peek, Next, Current, hadv]
      | none =>
        have hagain := advanceSource_none_again decode r r1 hadv
        simp [Peek, Next, Current, hadv, hagain]

theorem Err_after_false {T : Type} (decode : String → Option T) (s : Stream T)
    (h : (Next decode s).1 = false) :
    ((Next decode s).2.err.isSome = true ↔
      (s.err.isSome = true ∨
        (s.done = false ∧
          ∃ m, (readFrame decode s.source.frames s.source.err).1 = Read.failed m))) := by
  obtain ⟨⟨⟨frames, e⟩, err, done⟩, b, c⟩ := s
  cases b with
  | cons v b => simp [Next] at h
  | nil =>
    by_cases ht : err.isSome = true ∨ done = true
    · simp only [Next, advanceSource, ht, if_true]
      rcases ht with ht | ht
      · simp [ht]
      · simp [ht]
    · have hd : done = false := by
        cases done with
        | false => rfl
        | true => exact absurd (Or.inr rfl) ht
      have he : err.isSome = false := by
        cases herr : err.isSome with
        | false => rfl
        | true => exact absurd (Or.inl herr) ht
      subst hd
      cases hrf : readFrame decode frames e with
      | mk o rest =>
        cases o with
        | value v => simp [Next, advanceSource, he, hrf] at h
        | ended => simp [Next, advanceSource, he, hrf]
        | failed m => simp [Next, advanceSource, he, hrf]

/-! ## Claims on the event cursor -/

/-- C23: ping transparency.  A fresh cursor over `frames`, drained with more
fuel than there are frames, yields the same values and ends with the same
`Err()` as a fresh cursor over `frames` with all pings removed.  When no
non-ping frame is a sentinel or malformed, the values are the decoded non-ping
frames in order and `Err()` is nil; a source holding only pings yields no value
and no error. -/
theorem C23_ping_transparency {T : Type} [Inhabited T] (decode : String → Option T)
    (frames : List String) (srcErr : Option String) :
    (drain decode (frames.length + 1) (NewStream ⟨frames, srcErr⟩ none)).map
        (fun r => (r.1, Err r.2)) = some (yields decode frames, finalErr decode srcErr frames) ∧
    (drain decode (frames.length + 1)
        (NewStream ⟨frames.filter (fun f => !isPing f), srcErr⟩ none)).map
        (fun r => (r.1, Err r.2)) = some (yields decode frames, finalErr decode srcErr frames) ∧
    ((∀ f ∈ frames, isPing f = false → f ≠ sentinel ∧ (decode f).isSome = true) →
      (drain decode (frames.length + 1) (NewStream ⟨frames, none⟩ none)).map
          (fun r => (r.1, Err r.2)) =
        some ((frames.filter (fun f => !isPing f)).filterMap decode, none)) ∧
    ((∀ f ∈ frames, isPing f = true) →
      (drain decode (frames.length + 1) (NewStream ⟨frames, none⟩ none)).map
          (fun r => (r.1, Err r.2)) = some ([], none)) := by
  have h1 : ∀ e : Option String,
      (drain decode (frames.length + 1) (NewStream ⟨frames, e⟩ none)).map
        (fun r => (r.1, Err r.2)) = some (yields decode frames, finalErr decode e frames) := by
    intro e
    unfold NewStream
    rw [drain_fresh decode e frames default (frames.length + 1) (by omega)]
    rfl
  have h2 : (drain decode (frames.length + 1)
      (NewStream ⟨frames.filter (fun f => !isPing f), srcErr⟩ none)).map
      (fun r => (r.1, Err r.2)) = some (yields decode frames, finalErr decode srcErr frames) := by
    unfold NewStream
    rw [drain_fresh decode srcErr _ default (frames.length + 1)
      (Nat.lt_succ_of_le (List.length_filter_le _ _))]
    simp [Err, yields_filter, finalErr_filter]
  have h3 : (∀ f ∈ frames, isPing f = false → f ≠ sentinel ∧ (decode f).isSome = true) →
      (drain decode (frames.length + 1) (NewStream ⟨frames, none⟩ none)).map
          (fun r => (r.1, Err r.2)) =
        some ((frames.filter (fun f => !isPing f)).filterMap decode, none) := by
    intro hw
    obtain ⟨hy, hf⟩ := yields_wellformed decode none frames hw
    rw [h1 none, hy, hf]
  refine ⟨h1 srcErr, h2, h3, ?_⟩
  intro hp
  rw [h3 (fun f hf hnp => absurd (hp f hf) (by simp [hnp]))]
  have hnil : frames.filter (fun f => !isPing f) = [] := by
    rw [List.filter_eq_nil_iff]
    intro f hf
    simp [hp f hf]
  rw [hnil]
  rfl

/-- C23 (witness): the frames of the test "ping events at start, middle, and
end", and a source holding only pings. -/
theorem C23_ping_transparency_witness :
    (drain sampleDecode 6 (NewStream ⟨["", "a1", " ", "b2", "\n"], none⟩ none)).map
        (fun r => (r.1, Err r.2)) = some (["a1", "b2"], none) ∧
    (drain sampleDecode 4 (NewStream ⟨["", " ", "\t\n"], none⟩ none)).map
        (fun r => (r.1, Err r.2)) = some ([], none) :=
  ⟨(C23_ping_transparency sampleDecode ["", "a1", " ", "b2", "\n"] none).2.2.1 (by decide),
    (C23_ping_transparency sampleDecode ["", " ", "\t\n"] none).2.2.2 (by decide)⟩

/-- C24 (counterexample): a malformed frame before the sentinel.  The cursor
yields the value before the malformed frame and then `Next` returns false with
the decode error in `Err()`, not with `Err()` nil. -/
theorem C24_malformed_before_sentinel :
    (drain sampleDecode 4 (NewStream ⟨["a1", "?malformed", "[DONE]"], none⟩ none)).map
        (fun r => (r.1, Err r.2)) = some (["a1"], some decodeError) ∧
    (drain sampleDecode 4 (NewStream ⟨["a1", "?malformed", "[DONE]"], none⟩ none)).map
        (fun r => (r.1, Err r.2)) ≠
      some ((["a1", "?malformed"].filter (fun f => !isPing f)).filterMap sampleDecode, none) := by
  decide

/-- C24 (amended): sentinel termination.  Whatever calls the consumer makes,
what they return does not depend on the frames after the sentinel (nor on the
error the source would report at its end).  When the non-ping frames before the
first sentinel all decode, draining a fresh cursor yields exactly their values, then
`Next` returns false with `Err()` nil, the frames after the sentinel are left
unread, and every later call yields nothing. -/
theorem C24_sentinel_termination {T : Type} [Inhabited T] (decode : String → Option T)
    (pre post : List String) (srcErr : Option String) :
    (∀ (ops : List Op) (srcErr1 : Option String),
      (run decode ops (NewStream ⟨pre ++ sentinel :: post, srcErr⟩ none)).1 =
        (run decode ops (NewStream ⟨pre ++ [sentinel], srcErr1⟩ none)).1) ∧
    ((∀ f ∈ pre, isPing f = false → f ≠ sentinel ∧ (decode f).isSome = true) →
      drain decode ((pre ++ sentinel :: post).length + 1)
          (NewStream ⟨pre ++ sentinel :: post, srcErr⟩ none) =
        some ((pre.filter (fun f => !isPing f)).filterMap decode,
          ⟨⟨⟨post, srcErr⟩, none, true⟩, [],
            (((pre.filter (fun f => !isPing f)).filterMap decode).getLast?).getD default⟩) ∧
      ∀ ops : List Op,
        run decode ops
            (⟨⟨⟨post, srcErr⟩, none, true⟩, [],
              (((pre.filter (fun f => !isPing f)).filterMap decode).getLast?).getD default⟩ :
              Stream T) =
          (ops.map
            (nothing
              ((((pre.filter (fun f => !isPing f)).filterMap decode).getLast?).getD default)),
            ⟨⟨⟨post, srcErr⟩, none, true⟩, [],
              (((pre.filter (fun f => !isPing f)).filterMap decode).getLast?).getD default⟩)) := by
  constructor
  · intro ops srcErr1
    apply run_same decode post ops
    exact ⟨⟨rfl, rfl, Or.inr ⟨pre, rfl, rfl⟩⟩, rfl, rfl⟩
  · intro hw
    obtain ⟨hy, hu, hf⟩ := yields_before_sentinel decode srcErr post pre hw
    constructor
    · unfold NewStream
      rw [drain_fresh decode srcErr _ default _ (Nat.lt_succ_self _), hy, hu, hf]
      rfl
    · intro ops
      exact run_of_terminal decode _ rfl (Or.inr rfl) ops

/-- C24 (witness): the frames of the test "[DONE] event terminates stream
correctly" and of `TestPeekWithDoneEvent`. -/
theorem C24_sentinel_termination_witness :
    drain sampleDecode 4 (NewStream ⟨["a1", "[DONE]", "b2"], none⟩ none) =
      some (["a1"], ⟨⟨⟨["b2"], none⟩, none, true⟩, [], "a1"⟩) ∧
    (run sampleDecode [Op.peek, Op.next, Op.peek, Op.next, Op.peekN 2]
        (NewStream ⟨["a1", "[DONE]", "b2"], none⟩ none)).1 =
      [Obs.peek "a1" true, Obs.next true "a1", Obs.peek "" false, Obs.next false "a1",
        Obs.peekN []] :=
  ⟨((C24_sentinel_termination sampleDecode ["a1"] ["b2"] none).2 (by decide)).1,
    ((C24_sentinel_termination sampleDecode ["a1"] ["b2"] none).1
      [Op.peek, Op.next, Op.peek, Op.next, Op.peekN 2] none).trans (by decide)⟩

/-- C25: peeking is non-destructive and order-preserving.  A second `Peek`
returns what the first returned and leaves the cursor as the first left it;
`Peek` returns the value the next `Next` yields and does not change what that
`Next` does; `PeekN(k)` followed by `k` `Next` calls gives the same results, in
the same order, and the same cursor as `k` `Next` calls without the peek; and
when at most `k` values were buffered before, the buffer is empty after those
`k` calls, so a further `PeekN` returns what it returns on the cursor that was
never peeked. -/
theorem C25_peek_nondestructive {T : Type} [Inhabited T] (decode : String → Option T)
    (s : Stream T) (k : Nat) (j : Int) :
    Peek decode (Peek decode s).2 = Peek decode s ∧
    Next decode (Peek decode s).2 = Next decode s ∧
    (Peek decode s).1 =
      (if (Next decode s).1 = true then (Current (Next decode s).2, true)
       else (default, false)) ∧
    nextN decode k (PeekN decode (k : Int) s).2 = nextN decode k s ∧
    (s.buffer.length ≤ k →
      (nextN decode k (PeekN decode (k : Int) s).2).2.buffer = [] ∧
      PeekN decode j (nextN decode k (PeekN decode (k : Int) s).2).2 =
        PeekN decode j (nextN decode k s).2) := by
  refine ⟨Peek_Peek decode s, (Next_Peek decode s).1, (Next_Peek decode s).2,
    nextN_PeekN decode k s, ?_⟩
  intro hk
  rw [nextN_PeekN decode k s, nextN_buffer decode k s]
  exact ⟨List.drop_eq_nil_of_le hk, rfl⟩

/-- C25 (witness): the run of `TestPeekBufferCleanup`, `PeekN(3)` on three
frames, three `Next` calls, then `PeekN(10)`. -/
theorem C25_peek_nondestructive_witness :
    (PeekN sampleDecode 3 (NewStream ⟨["a1", "b2", "c3"], none⟩ none)).1 = ["a1", "b2", "c3"] ∧
    (nextN sampleDecode 3
      (PeekN sampleDecode 3 (NewStream ⟨["a1", "b2", "c3"], none⟩ none)).2).1 =
      [(true, "a1"), (true, "b2"), (true, "c3")] ∧
    (nextN sampleDecode 3
      (PeekN sampleDecode ((3 : Nat) : Int)
        (NewStream ⟨["a1", "b2", "c3"], none⟩ none)).2).2.buffer = [] ∧
    (PeekN sampleDecode 10
      (nextN sampleDecode 3
        (PeekN sampleDecode ((3 : Nat) : Int)
          (NewStream ⟨["a1", "b2", "c3"], none⟩ none)).2).2).1 = [] :=
  ⟨by decide, by decide,
    ((C25_peek_nondestructive sampleDecode (NewStream ⟨["a1", "b2", "c3"], none⟩ none) 3
      10).2.2.2.2 (by decide)).1,
    by
      rw [((C25_peek_nondestructive sampleDecode (NewStream ⟨["a1", "b2", "c3"], none⟩ none) 3
        10).2.2.2.2 (by decide)).2]
      decide⟩

/-- C26: terminal states are sticky.  Once `Next` has returned false, every
later call, in any order, yields nothing and leaves the cursor unchanged:
`Next` returns false, `Peek` returns the zero value and false, `PeekN` returns
nothing, `Err()` stays what it is.  `Err()` is then non-nil exactly when the
cursor already had an error (a startup error included) or the read that ended
the stream failed, on a malformed non-empty payload or on a source error; after
a sentinel or the end of an error-free source it is nil. -/
theorem C26_terminal_sticky {T : Type} [Inhabited T] (decode : String → Option T)
    (s : Stream T) (h : (Next decode s).1 = false) :
    (∀ ops : List Op,
      run decode ops (Next decode s).2 =
        (ops.map (nothing (Current (Next decode s).2)), (Next decode s).2)) ∧
    ((Err (Next decode s).2).isSome = true ↔
      ((Err s).isSome = true ∨
        (s.done = false ∧
          ∃ m, (readFrame decode s.source.frames s.source.err).1 = Read.failed m))) := by
  obtain ⟨hb, ht, _, _⟩ := Next_false decode s h
  exact ⟨fun ops => run_of_terminal decode _ hb ht ops, Err_after_false decode s h⟩

/-- C26 (witness): the five ways of the claim, end of source, sentinel,
malformed payload, source error and startup error, each followed by `Next`,
`Peek`, `PeekN(2)` and `Next`. -/
theorem C26_terminal_sticky_witness :
    (run sampleDecode [Op.next, Op.peek, Op.peekN 2, Op.next]
        (Next sampleDecode (NewStream ⟨[], none⟩ none)).2 =
      ([Obs.next false "", Obs.peek "" false, Obs.peekN [], Obs.next false ""],
        (Next sampleDecode (NewStream ⟨[], none⟩ none)).2) ∧
      Err (Next sampleDecode (NewStream ⟨[], none⟩ none)).2 = none) ∧
    (run sampleDecode [Op.next, Op.peek, Op.peekN 2, Op.next]
        (Next sampleDecode (NewStream ⟨["[DONE]", "a1"], none⟩ none)).2 =
      ([Obs.next false "", Obs.peek "" false, Obs.peekN [], Obs.next false ""],
        (Next sampleDecode (NewStream ⟨["[DONE]", "a1"], none⟩ none)).2) ∧
      Err (Next sampleDecode (NewStream ⟨["[DONE]", "a1"], none⟩ none)).2 = none) ∧
    (run sampleDecode [Op.next, Op.peek, Op.peekN 2, Op.next]
        (Next sampleDecode (NewStream ⟨["?malformed", "a1"], none⟩ none)).2 =
      ([Obs.next false "", Obs.peek "" false, Obs.peekN [], Obs.next false ""],
        (Next sampleDecode (NewStream ⟨["?malformed", "a1"], none⟩ none)).2) ∧
      Err (Next sampleDecode (NewStream ⟨["?malformed", "a1"], none⟩ none)).2 =
        some decodeError) ∧
    (run sampleDecode [Op.next, Op.peek, Op.peekN 2, Op.next]
        (Next sampleDecode (NewStream ⟨[], some "decoder error"⟩ none)).2 =
      ([Obs.next false "", Obs.peek "" false, Obs.peekN [], Obs.next false ""],
        (Next sampleDecode (NewStream ⟨[], some "decoder error"⟩ none)).2) ∧
      Err (Next sampleDecode (NewStream ⟨[], some "decoder error"⟩ none)).2 =
        some "decoder error") ∧
    (run sampleDecode [Op.next, Op.peek, Op.peekN 2, Op.next]
        (Next sampleDecode (NewStream ⟨["a1"], none⟩ (some "initial error"))).2 =
      ([Obs.next false "", Obs.peek "" false, Obs.peekN [], Obs.next false ""],
        (Next sampleDecode (NewStream ⟨["a1"], none⟩ (some "initial error"))).2) ∧
      Err (Next sampleDecode (NewStream ⟨["a1"], none⟩ (some "initial error"))).2 =
        some "initial error") :=
  ⟨⟨(C26_terminal_sticky sampleDecode (NewStream ⟨[], none⟩ none) (by decide)).1 _,
      by decide⟩,
    ⟨(C26_terminal_sticky sampleDecode (NewStream ⟨["[DONE]", "a1"], none⟩ none)
      (by decide)).1 _, by decide⟩,
    ⟨(C26_terminal_sticky sampleDecode (NewStream ⟨["?malformed", "a1"], none⟩ none)
      (by decide)).1 _, by decide⟩,
    ⟨(C26_terminal_sticky sampleDecode (NewStream ⟨[], some "decoder error"⟩ none)
      (by decide)).1 _, by decide⟩,
    ⟨(C26_terminal_sticky sampleDecode (NewStream ⟨["a1"], none⟩ (some "initial error"))
      (by decide)).1 _, by decide⟩⟩

end Ssestream

namespace Apijson

/-! ## The decoded variant -/

theorem decodeVariant_variant (shape : VariantShape) (input : List (String × Value))
    (inst : Instance) (h : decodeVariant shape input = some inst) :
    inst.variant = shape.name := by
  unfold decodeVariant at h
  cases hf : decodeFields input shape.fields with
  | none => simp [hf] at h
  | some fs =>
    simp only [hf, Option.map_some', Option.some.injEq] at h
    rw [← h]

/-! ## Claims on the polymorphic decoder -/

/-- C27: discriminator fallback.  When the discriminator is absent or names no
registered variant, the decoder returns what trying the registered variants in
order returns: it succeeds with the first accepting variant whenever some
variant accepts the input; with an absent discriminator it never fails with the
"no discriminated variant" error, the failure when no variant accepts being "no
matching variant"; that error is left to an unknown discriminator value whose
fallback also failed; and the payloads of the tests without a `type` field and with an unknown `type`
value decode into the easy-message variant. -/
theorem C27_discriminator_fallback (entry : UnionEntry) (fields : List (String × Value)) :
    ((readDiscriminator entry fields = Discriminator.absent ∨
        readDiscriminator entry fields = Discriminator.unknown) →
      ∀ inst, tryVariants fields entry.variants = some inst →
        decodeUnion entry (Input.mapping fields) = Except.ok inst) ∧
    (readDiscriminator entry fields = Discriminator.absent →
      decodeUnion entry (Input.mapping fields) ≠
        Except.error DecodeError.noDiscriminatedVariant) ∧
    (readDiscriminator entry fields = Discriminator.absent →
      tryVariants fields entry.variants = none →
      decodeUnion entry (Input.mapping fields) = Except.error DecodeError.noMatchingVariant) ∧
    (readDiscriminator entry fields = Discriminator.unknown →
      tryVariants fields entry.variants = none →
      decodeUnion entry (Input.mapping fields) =
        Except.error DecodeError.noDiscriminatedVariant) ∧
    decodeUnion testMessageUnion payloadNoType =
      Except.ok ⟨"OfEasyMessage", [("role", Value.str "user"), ("content", Value.str "hello")]⟩ ∧
    decodeUnion testMessageUnion payloadUnknownType =
      Except.ok ⟨"OfEasyMessage", [("role", Value.str "user"), ("content", Value.str "hello")]⟩ := by
  refine ⟨?_, ?_, ?_, ?_, by rfl, by rfl⟩
  · intro h inst hi
    rcases h with h | h <;> simp [decodeUnion, h, hi]
  · intro h
    cases ht : tryVariants fields entry.variants <;> simp [decodeUnion, h, ht]
  · intro h hn
    simp [decodeUnion, h, hn]
  · intro h hn
    simp [decodeUnion, h, hn]

/-- C27 (witness): the payload without a `type` field and the payload with the
unknown `type` value, decoded for the union of the test. -/
theorem C27_discriminator_fallback_witness :
    readDiscriminator testMessageUnion
        [("role", Value.str "user"), ("content", Value.str "hello")] =
      Discriminator.absent ∧
    decodeUnion testMessageUnion
        (Input.mapping [("role", Value.str "user"), ("content", Value.str "hello")]) =
      Except.ok ⟨"OfEasyMessage", [("role", Value.str "user"), ("content", Value.str "hello")]⟩ ∧
    decodeUnion testMessageUnion
        (Input.mapping [("type", Value.str "unknown"), ("role", Value.str "user"),
          ("content", Value.str "hello")]) =
      Except.ok ⟨"OfEasyMessage", [("role", Value.str "user"), ("content", Value.str "hello")]⟩ ∧
    decodeUnion testMessageUnion
        (Input.mapping [("role", Value.str "user"), ("content", Value.str "hello")]) ≠
      Except.error DecodeError.noDiscriminatedVariant :=
  ⟨by decide,
    (C27_discriminator_fallback testMessageUnion
      [("role", Value.str "user"), ("content", Value.str "hello")]).1 (Or.inl (by decide)) _
      (by decide),
    (C27_discriminator_fallback testMessageUnion
      [("type", Value.str "unknown"), ("role", Value.str "user"),
        ("content", Value.str "hello")]).1 (Or.inr (by decide)) _ (by decide),
    (C27_discriminator_fallback testMessageUnion
      [("role", Value.str "user"), ("content", Value.str "hello")]).2.1 (by decide)⟩

/-- C28: discriminator fast path.  When the discriminator field holds a
registered value, the decoder decodes strictly into the variant mapped to that
value: it returns that variant's instance or the hard field-mismatch error,
never another variant, whatever the other variants would accept.  The payload
of the test with `type` "message" populates the full-message member with role
"user" and leaves the easy-message member unset. -/
theorem C28_discriminator_fast_path (entry : UnionEntry) (fields : List (String × Value))
    (shape : VariantShape) (h : readDiscriminator entry fields = Discriminator.known shape) :
    (decodeUnion entry (Input.mapping fields) =
      match decodeVariant shape fields with
      | some inst => Except.ok inst
      | none => Except.error DecodeError.fieldMismatch) ∧
    (∀ inst, decodeUnion entry (Input.mapping fields) = Except.ok inst →
      inst.variant = shape.name ∧ inst.member shape.name = some inst.fields ∧
      ∀ other, other ≠ shape.name → inst.member other = none) := by
  have hd : decodeUnion entry (Input.mapping fields) =
      match decodeVariant shape fields with
      | some inst => Except.ok inst
      | none => Except.error DecodeError.fieldMismatch := by
    simp [decodeUnion, h]
  refine ⟨hd, ?_⟩
  intro inst hi
  rw [hd] at hi
  cases hv : decodeVariant shape fields with
  | none => simp [hv] at hi
  | some i =>
    simp only [hv, Except.ok.injEq] at hi
    subst hi
    have hname := decodeVariant_variant shape fields i hv
    refine ⟨hname, by simp [Instance.member, hname], ?_⟩
    intro other ho
    simp only [Instance.member, hname]
    rw [if_neg (fun heq => ho heq.symm)]

/-- C28 (witness): the payload with `type` "message" of the test. -/
theorem C28_discriminator_fast_path_witness :
    decodeUnion testMessageUnion payloadMessage =
      Except.ok ⟨"OfFullMessage",
        [("type", Value.str "message"), ("role", Value.str "user"),
          ("content", Value.str "hello")]⟩ ∧
    ∀ inst, decodeUnion testMessageUnion payloadMessage = Except.ok inst →
      inst.variant = fullMessage.name ∧ inst.member fullMessage.name = some inst.fields ∧
      ∀ other, other ≠ fullMessage.name → inst.member other = none :=
  ⟨by rfl,
    (C28_discriminator_fast_path testMessageUnion
      [("type", Value.str "message"), ("role", Value.str "user"),
        ("content", Value.str "hello")] fullMessage (by decide)).2⟩

end Apijson
